import Mathlib

/-!
MPEG transport stream packet decoder (`mpegts/packet.go`).

A shallow embedding of `parsePacketHeader`, `parsePacketAdaptationField` and
`parsePacket`, and theorems about them.

Conventions of the embedding.

* A Go `byte` is a `Fin 256`; the value of a byte expression is computed in `Nat`
  and reduced with `u8` wherever Go's 8-bit arithmetic can overflow (a left shift).
* A Go `[]byte` is a `Slice`: its addressable elements (`len` of them) and the rest
  of the backing array up to its capacity. `s[k]` needs `k < len`, `s[lo:]` needs
  `lo ≤ len` and `s[lo:hi]` needs `lo ≤ hi ≤ cap`; otherwise Go panics.
* A function returns `Except Failure α`: `ok` is a normal return without error,
  `Failure.ErrPacketMustStartWithASyncByte` is the one `error` value the file
  returns, and `Failure.runtimePanic` is a Go run-time panic (index or slice bounds
  out of range), which is not a returned error.
-/

namespace mpegts

/-! ## Bytes, slices and failures -/

/-- A Go `byte`. -/
abbrev Byte := Fin 256

/-- Truncation to 8 bits: the result of an arithmetic operation on Go `byte`s. -/
def u8 (n : Nat) : Nat := n % 256

/-- Conversion `uint16(x)`. -/
def u16 (n : Nat) : Nat := n % 65536

/-- The ways a call can end without a normal result. -/
inductive Failure where
  /-- The error value `ErrPacketMustStartWithASyncByte` returned by `parsePacket`. -/
  | ErrPacketMustStartWithASyncByte
  /-- A Go run-time panic: index out of range or slice bounds out of range. -/
  | runtimePanic
  deriving DecidableEq, Repr

deriving instance DecidableEq for Except

/-- A Go byte slice: the elements below `len`, and the backing array from `len` to `cap`. -/
structure Slice where
  elems : List Byte
  spare : List Byte := []
  deriving DecidableEq, Repr

namespace Slice

/-- Go `len(s)`. -/
def len (s : Slice) : Nat := s.elems.length

/-- Go `cap(s)`. -/
def cap (s : Slice) : Nat := s.elems.length + s.spare.length

/-- Go `s[k]`: panics unless `k < len(s)`. -/
def index (s : Slice) (k : Nat) : Except Failure Byte :=
  match s.elems[k]? with
  | some b => .ok b
  | none => .error .runtimePanic

/-- Go `s[lo:]`: panics unless `lo ≤ len(s)`. -/
def sliceFrom (s : Slice) (lo : Nat) : Except Failure Slice :=
  if lo ≤ s.len then .ok { elems := s.elems.drop lo, spare := s.spare }
  else .error .runtimePanic

/-- Go `s[lo:hi]`: panics unless `lo ≤ hi ≤ cap(s)`. -/
def sliceFromTo (s : Slice) (lo hi : Nat) : Except Failure Slice :=
  if lo ≤ hi ∧ hi ≤ s.cap then
    .ok { elems := ((s.elems ++ s.spare).drop lo).take (hi - lo)
          spare := (s.elems ++ s.spare).drop hi }
  else .error .runtimePanic

end Slice

/-! ## Data model -/

/-- The struct `MpegTsHeader`. -/
structure MpegTsHeader where
  SyncByte : Nat := 0
  TransportErrorIndicator : Nat := 0
  PayloadUnitStartIndicator : Nat := 0
  TransportPriority : Nat := 0
  Pid : Nat := 0
  TransportScramblingControl : Nat := 0
  AdaptionFieldControl : Nat := 0
  ContinuityCounter : Nat := 0
  deriving DecidableEq, Repr

/-- Modelled from the spec: the two-part clock value that `parsePCR` and
`parsePTSOrDTS` return (their result type is not declared in `packet.go`): a base
and an extension. -/
structure ClockReference where
  Base : Nat := 0
  Extension : Nat := 0
  deriving DecidableEq, Repr

/-- Modelled from the spec: the extension field that `parsePacketAdaptationField`
builds as `&PacketAdaptationExtensionField{...}`; the type is not declared in
`packet.go`, its fields are the ones the function body assigns. -/
structure PacketAdaptationExtensionField where
  Length : Nat := 0
  HasLegalTimeWindow : Bool := false
  HasPiecewiseRate : Bool := false
  HasSeamlessSplice : Bool := false
  LegalTimeWindowIsValid : Bool := false
  LegalTimeWindowOffset : Nat := 0
  PiecewiseRate : Nat := 0
  SpliceType : Nat := 0
  DTSNextAccessUnit : Option ClockReference := none
  deriving DecidableEq, Repr

/-- The struct `MpegTsHeaderAdaptationField`: the fields of the declaration that the
decoder assigns, followed by the fields the body of `parsePacketAdaptationField`
assigns although the declaration lacks them (`PCR`, `OPCR`, `TransportPrivateData`,
`AdaptationExtensionField`). The declared fields that no code assigns
(`ProgramClockReferenceBase`, `Reserved1`, ..., `DtsNextAU`) keep their zero value. -/
structure MpegTsHeaderAdaptationField where
  AdaptationFieldLength : Nat := 0
  DiscontinuityIndicator : Nat := 0
  RandomAccessIndicator : Nat := 0
  ElementaryStreamPriorityIndicator : Nat := 0
  PCRFlag : Nat := 0
  OPCRFlag : Nat := 0
  SplicingPointFlag : Nat := 0
  TrasportPrivateDataFlag : Nat := 0
  AdaptationFieldExtensionFlag : Nat := 0
  ProgramClockReferenceBase : Nat := 0
  Reserved1 : Nat := 0
  ProgramClockReferenceExtension : Nat := 0
  OriginalProgramClockReferenceBase : Nat := 0
  Reserved2 : Nat := 0
  OriginalProgramClockReferenceExtension : Nat := 0
  SpliceCountdown : Nat := 0
  TransportPrivateDataLength : Nat := 0
  PrivateDataByte : Nat := 0
  AdaptationFieldExtensionLength : Nat := 0
  LtwFlag : Nat := 0
  PiecewiseRateFlag : Nat := 0
  SeamlessSpliceFlag : Nat := 0
  LtwValidFlag : Nat := 0
  LtwOffset : Nat := 0
  Reserved3 : Nat := 0
  PiecewiseRate : Nat := 0
  SpliceType : Nat := 0
  DtsNextAU : Nat := 0
  PCR : Option ClockReference := none
  OPCR : Option ClockReference := none
  TransportPrivateData : Option Slice := none
  AdaptationExtensionField : Option PacketAdaptationExtensionField := none
  deriving DecidableEq, Repr

/-- The struct `Packet`; a `nil` pointer or `nil` slice is `none`. -/
structure Packet where
  Bytes : Slice
  Header : MpegTsHeader
  AdaptationField : Option MpegTsHeaderAdaptationField := none
  Payload : Option Slice := none
  deriving DecidableEq, Repr

/-! ## Header decoder -/

/-- The function `parsePacketHeader`. The shift `(input[1] & 0x1F) << 8` is a shift of
a `byte`, so its result is truncated to 8 bits before the `|` and the `uint16`
conversion. -/
def parsePacketHeader (input : Slice) : Except Failure MpegTsHeader := do
  let b0 ← input.index 0
  let b1 ← input.index 1
  let b2 ← input.index 2
  let b3 ← input.index 3
  pure { SyncByte := b0.val
         TransportErrorIndicator := b1.val >>> 7
         PayloadUnitStartIndicator := (b1.val >>> 6) &&& 0x01
         TransportPriority := (b1.val >>> 5) &&& 0x01
         Pid := u16 (u8 ((b1.val &&& 0x1F) <<< 8) ||| b2.val)
         TransportScramblingControl := b3.val >>> 6
         AdaptionFieldControl := (b3.val >>> 4) &&& 0x03
         ContinuityCounter := b3.val &&& 0x0F }

/-! ## Adaptation field decoder -/

/-- Modelled from the spec: `parsePCR`, which `packet.go` calls without defining it.
Six bytes are read most-significant first as one 48-bit field; the base is its top
33 bits, the next 6 bits are reserved and the extension is its bottom 9 bits. -/
def parsePCR (i : Slice) : Except Failure ClockReference := do
  let b0 ← i.index 0
  let b1 ← i.index 1
  let b2 ← i.index 2
  let b3 ← i.index 3
  let b4 ← i.index 4
  let b5 ← i.index 5
  let pcr := b0.val <<< 40 ||| b1.val <<< 32 ||| b2.val <<< 24 ||| b3.val <<< 16
    ||| b4.val <<< 8 ||| b5.val
  pure { Base := pcr >>> 15, Extension := pcr &&& 0x1ff }

/-- Modelled from the spec: `parsePTSOrDTS`, which `packet.go` calls without defining
it. The spec gives a 5-byte value, 4 bits of the first byte and the next 4 bytes,
concatenated without masking the marker bits. -/
def parsePTSOrDTS (i : Slice) : Except Failure ClockReference := do
  let b0 ← i.index 0
  let b1 ← i.index 1
  let b2 ← i.index 2
  let b3 ← i.index 3
  let b4 ← i.index 4
  pure { Base := (b0.val &&& 0x0f) <<< 32 ||| b1.val <<< 24 ||| b2.val <<< 16
           ||| b3.val <<< 8 ||| b4.val
         Extension := 0 }

namespace MpegTsHeaderAdaptationField

/-- Modelled from the spec: the gate `a.HasPCR`, read by the decoder and absent from
the struct declaration; the spec derives it from bit 0x10 of the flags byte, which
the decoder stores in `PCRFlag`. -/
def HasPCR (a : MpegTsHeaderAdaptationField) : Bool := a.PCRFlag != 0

/-- Modelled from the spec: the gate `a.HasOPCR` (bit 0x08 of the flags byte, stored
in `OPCRFlag`), absent from the struct declaration. -/
def HasOPCR (a : MpegTsHeaderAdaptationField) : Bool := a.OPCRFlag != 0

/-- Modelled from the spec: the gate `a.HasSplicingCountdown` (bit 0x04 of the flags
byte, stored in `SplicingPointFlag`), absent from the struct declaration. -/
def HasSplicingCountdown (a : MpegTsHeaderAdaptationField) : Bool :=
  a.SplicingPointFlag != 0

/-- Modelled from the spec: the gate `a.HasTransportPrivateData` (bit 0x02 of the
flags byte, stored in `TrasportPrivateDataFlag`), absent from the struct
declaration. -/
def HasTransportPrivateData (a : MpegTsHeaderAdaptationField) : Bool :=
  a.TrasportPrivateDataFlag != 0

/-- Modelled from the spec: the gate `a.HasAdaptationExtensionField` (bit 0x01 of the
flags byte, stored in `AdaptationFieldExtensionFlag`), absent from the struct
declaration. -/
def HasAdaptationExtensionField (a : MpegTsHeaderAdaptationField) : Bool :=
  a.AdaptationFieldExtensionFlag != 0

end MpegTsHeaderAdaptationField

/-- The block `// PCR` of `parsePacketAdaptationField`, on the field built so far and
the cursor. -/
def readPCR (i : Slice) (a : MpegTsHeaderAdaptationField) (offset : Nat) :
    Except Failure (MpegTsHeaderAdaptationField × Nat) :=
  if a.HasPCR then do
    let s ← i.sliceFrom offset
    let c ← parsePCR s
    pure ({ a with PCR := some c }, offset + 6)
  else pure (a, offset)

/-- The block `// OPCR`. -/
def readOPCR (i : Slice) (a : MpegTsHeaderAdaptationField) (offset : Nat) :
    Except Failure (MpegTsHeaderAdaptationField × Nat) :=
  if a.HasOPCR then do
    let s ← i.sliceFrom offset
    let c ← parsePCR s
    pure ({ a with OPCR := some c }, offset + 6)
  else pure (a, offset)

/-- The block `// Splicing countdown`: the byte is converted with `int(...)`. -/
def readSpliceCountdown (i : Slice) (a : MpegTsHeaderAdaptationField) (offset : Nat) :
    Except Failure (MpegTsHeaderAdaptationField × Nat) :=
  if a.HasSplicingCountdown then do
    let b ← i.index offset
    pure ({ a with SpliceCountdown := b.val }, offset + 1)
  else pure (a, offset)

/-- The block `// Transport private data`. -/
def readTransportPrivateData (i : Slice) (a : MpegTsHeaderAdaptationField)
    (offset : Nat) : Except Failure (MpegTsHeaderAdaptationField × Nat) :=
  if a.HasTransportPrivateData then do
    let b ← i.index offset
    let a := { a with TransportPrivateDataLength := b.val }
    let offset := offset + 1
    if a.TransportPrivateDataLength > 0 then do
      let d ← i.sliceFromTo offset (offset + a.TransportPrivateDataLength)
      pure ({ a with TransportPrivateData := some d },
        offset + a.TransportPrivateDataLength)
    else pure (a, offset)
  else pure (a, offset)

/-- The sub-block `// Legal time window` of the extension field. -/
def readLegalTimeWindow (i : Slice) (e : PacketAdaptationExtensionField)
    (offset : Nat) : Except Failure (PacketAdaptationExtensionField × Nat) :=
  if e.HasLegalTimeWindow then do
    let b0 ← i.index offset
    let b1 ← i.index (offset + 1)
    pure ({ e with
            LegalTimeWindowIsValid := decide (b0.val &&& 0x80 > 0)
            LegalTimeWindowOffset := u16 (u16 (b0.val &&& 0x7f) <<< 8) ||| u16 b1.val },
      offset + 2)
  else pure (e, offset)

/-- The sub-block `// Piecewise rate` of the extension field (`uint32` arithmetic). -/
def readPiecewiseRate (i : Slice) (e : PacketAdaptationExtensionField)
    (offset : Nat) : Except Failure (PacketAdaptationExtensionField × Nat) :=
  if e.HasPiecewiseRate then do
    let b0 ← i.index offset
    let b1 ← i.index (offset + 1)
    let b2 ← i.index (offset + 2)
    pure ({ e with
            PiecewiseRate := ((b0.val &&& 0x3f) <<< 16 ||| b1.val <<< 8 ||| b2.val)
              % 2 ^ 32 },
      offset + 3)
  else pure (e, offset)

/-- The sub-block `// Seamless splice` of the extension field; the cursor is not
advanced after it. -/
def readSeamlessSplice (i : Slice) (e : PacketAdaptationExtensionField)
    (offset : Nat) : Except Failure PacketAdaptationExtensionField :=
  if e.HasSeamlessSplice then do
    let b0 ← i.index offset
    let s ← i.sliceFrom offset
    let c ← parsePTSOrDTS s
    pure { e with SpliceType := u8 (b0.val &&& 0xf0) >>> 4, DTSNextAccessUnit := some c }
  else pure e

/-- The block `// Adaptation extension`. -/
def readAdaptationExtension (i : Slice) (a : MpegTsHeaderAdaptationField)
    (offset : Nat) : Except Failure MpegTsHeaderAdaptationField :=
  if a.HasAdaptationExtensionField then do
    let l ← i.index offset
    let e : PacketAdaptationExtensionField := { Length := l.val }
    let offset := offset + 1
    if e.Length > 0 then do
      let g ← i.index offset
      let e := { e with
                 HasLegalTimeWindow := decide (g.val &&& 0x80 > 0)
                 HasPiecewiseRate := decide (g.val &&& 0x40 > 0)
                 HasSeamlessSplice := decide (g.val &&& 0x20 > 0) }
      let offset := offset + 1
      let (e, offset) ← readLegalTimeWindow i e offset
      let (e, offset) ← readPiecewiseRate i e offset
      let e ← readSeamlessSplice i e offset
      pure { a with AdaptationExtensionField := some e }
    else pure { a with AdaptationExtensionField := some e }
  else pure a

/-- The function `parsePacketAdaptationField`: the length byte, then, when it is not
zero, the flags byte and the five gated blocks in the order of the source, each one
continuing from the cursor the previous one left. -/
def parsePacketAdaptationField (i : Slice) :
    Except Failure MpegTsHeaderAdaptationField := do
  let l ← i.index 0
  let a : MpegTsHeaderAdaptationField := { AdaptationFieldLength := l.val }
  let offset := 0 + 1
  if a.AdaptationFieldLength > 0 then do
    let flags ← i.index offset
    let a := { a with
               DiscontinuityIndicator := flags.val &&& 0x80
               RandomAccessIndicator := flags.val &&& 0x40
               ElementaryStreamPriorityIndicator := flags.val &&& 0x20
               PCRFlag := flags.val &&& 0x10
               OPCRFlag := flags.val &&& 0x08
               SplicingPointFlag := flags.val &&& 0x04
               TrasportPrivateDataFlag := flags.val &&& 0x02
               AdaptationFieldExtensionFlag := flags.val &&& 0x01 }
    let offset := offset + 1
    let (a, offset) ← readPCR i a offset
    let (a, offset) ← readOPCR i a offset
    let (a, offset) ← readSpliceCountdown i a offset
    let (a, offset) ← readTransportPrivateData i a offset
    readAdaptationExtension i a offset
  else pure a

/-! ## Packet assembler -/

/-- Modelled from the spec: the constant `syncByte`, used by `parsePacket` and not
defined in `packet.go`; the fixed marker value 0x47. -/
def syncByte : Nat := 0x47

/-- Modelled from the spec: `payloadOffset`, which `parsePacket` calls without
defining it: 4 (header) + (adaptation field present ? 1 + AdaptationFieldLength : 0). -/
def payloadOffset (_h : MpegTsHeader) (a : Option MpegTsHeaderAdaptationField) : Nat :=
  4 + (match a with
       | some a => 1 + a.AdaptationFieldLength
       | none => 0)

/-- The function `parsePacket`. The payload is sliced from `i`, a name the function
does not bind; it is read as the parameter `input`, the only slice in scope. -/
def parsePacket (input : Slice) : Except Failure Packet := do
  let b0 ← input.index 0
  if b0.val ≠ syncByte then
    throw Failure.ErrPacketMustStartWithASyncByte
  else
    let header ← parsePacketHeader input
    let HasPayload : Bool :=
      match header.AdaptionFieldControl with
      | 1 => true
      | 3 => true
      | _ => false
    let HasAdaptationField : Bool :=
      match header.AdaptionFieldControl with
      | 2 => true
      | 3 => true
      | _ => false
    let af ← (if HasAdaptationField then do
        let i ← input.sliceFrom 4
        let a ← parsePacketAdaptationField i
        pure (some a)
      else pure none)
    let payload ← (if HasPayload then do
        let p ← input.sliceFrom (payloadOffset header af)
        pure (some p)
      else pure none)
    pure { Bytes := input, Header := header, AdaptationField := af, Payload := payload }

/-! ## Auxiliary definitions for the statements -/

/-- The header that `parsePacketHeader` computes from bytes 0 to 3. -/
def headerOf (b0 b1 b2 b3 : Byte) : MpegTsHeader :=
  { SyncByte := b0.val
    TransportErrorIndicator := b1.val >>> 7
    PayloadUnitStartIndicator := (b1.val >>> 6) &&& 0x01
    TransportPriority := (b1.val >>> 5) &&& 0x01
    Pid := u16 (u8 ((b1.val &&& 0x1F) <<< 8) ||| b2.val)
    TransportScramblingControl := b3.val >>> 6
    AdaptionFieldControl := (b3.val >>> 4) &&& 0x03
    ContinuityCounter := b3.val &&& 0x0F }

/-- The adaptation field after the length byte and the flags byte have been read. -/
def afHead (l flags : Byte) : MpegTsHeaderAdaptationField :=
  { AdaptationFieldLength := l.val
    DiscontinuityIndicator := flags.val &&& 0x80
    RandomAccessIndicator := flags.val &&& 0x40
    ElementaryStreamPriorityIndicator := flags.val &&& 0x20
    PCRFlag := flags.val &&& 0x10
    OPCRFlag := flags.val &&& 0x08
    SplicingPointFlag := flags.val &&& 0x04
    TrasportPrivateDataFlag := flags.val &&& 0x02
    AdaptationFieldExtensionFlag := flags.val &&& 0x01 }

/-- The length byte and the eight flag fields of `b` are those of `a`. -/
def sameHead (a b : MpegTsHeaderAdaptationField) : Prop :=
  b.AdaptationFieldLength = a.AdaptationFieldLength ∧
  b.DiscontinuityIndicator = a.DiscontinuityIndicator ∧
  b.RandomAccessIndicator = a.RandomAccessIndicator ∧
  b.ElementaryStreamPriorityIndicator = a.ElementaryStreamPriorityIndicator ∧
  b.PCRFlag = a.PCRFlag ∧
  b.OPCRFlag = a.OPCRFlag ∧
  b.SplicingPointFlag = a.SplicingPointFlag ∧
  b.TrasportPrivateDataFlag = a.TrasportPrivateDataFlag ∧
  b.AdaptationFieldExtensionFlag = a.AdaptationFieldExtensionFlag

/-- The call does not end with the returned error `ErrPacketMustStartWithASyncByte`:
it returns normally or panics. -/
def NoSyncError {α : Type} (x : Except Failure α) : Prop :=
  x ≠ .error .ErrPacketMustStartWithASyncByte

/-- The spec-side PCR encoder: the 48-bit field with `base` in its top 33 bits,
`reserved` in the next 6 bits and `ext` in its bottom 9 bits, written most significant
byte first. -/
def encodePCR (base reserved ext : Nat) : List Byte :=
  [Fin.ofNat ((base * 2 ^ 15 + reserved * 2 ^ 9 + ext) / 2 ^ 40),
   Fin.ofNat ((base * 2 ^ 15 + reserved * 2 ^ 9 + ext) / 2 ^ 32),
   Fin.ofNat ((base * 2 ^ 15 + reserved * 2 ^ 9 + ext) / 2 ^ 24),
   Fin.ofNat ((base * 2 ^ 15 + reserved * 2 ^ 9 + ext) / 2 ^ 16),
   Fin.ofNat ((base * 2 ^ 15 + reserved * 2 ^ 9 + ext) / 2 ^ 8),
   Fin.ofNat (base * 2 ^ 15 + reserved * 2 ^ 9 + ext)]

/-- The 48-bit field that `parsePCR` assembles from six bytes. -/
def pcr48 (b0 b1 b2 b3 b4 b5 : Byte) : Nat :=
  b0.val <<< 40 ||| b1.val <<< 32 ||| b2.val <<< 24 ||| b3.val <<< 16
    ||| b4.val <<< 8 ||| b5.val

/-- The cursor after the `// PCR` block: 2 + 6 when bit 0x10 of the flags byte is set. -/
def cursorAfterPCR (f : Byte) : Nat := 2 + (if f.val / 16 % 2 = 1 then 6 else 0)

/-- The cursor after the `// OPCR` block: 6 more when bit 0x08 is set. -/
def cursorAfterOPCR (f : Byte) : Nat :=
  cursorAfterPCR f + (if f.val / 8 % 2 = 1 then 6 else 0)

/-- The cursor after the `// Splicing countdown` block: 1 more when bit 0x04 is set. -/
def cursorAfterSplice (f : Byte) : Nat :=
  cursorAfterOPCR f + (if f.val / 4 % 2 = 1 then 1 else 0)

/-- The extension field after its length byte and flags byte have been read. -/
def extHead (lb g : Byte) : PacketAdaptationExtensionField :=
  { Length := lb.val
    HasLegalTimeWindow := decide (g.val &&& 0x80 > 0)
    HasPiecewiseRate := decide (g.val &&& 0x40 > 0)
    HasSeamlessSplice := decide (g.val &&& 0x20 > 0) }

/-- The field `a` with its `AdaptationFieldLength` replaced by `x`. -/
def withLength (x : Nat) (a : MpegTsHeaderAdaptationField) : MpegTsHeaderAdaptationField :=
  { a with AdaptationFieldLength := x }

/-! ## Basic facts about slices and the header decoder -/

theorem index_zero (b : Byte) (rest spare : List Byte) :
    Slice.index { elems := b :: rest, spare := spare } 0 = .ok b := by
  simp [Slice.index]

theorem index_nil (spare : List Byte) (k : Nat) :
    Slice.index { elems := [], spare := spare } k = .error .runtimePanic := rfl

theorem index_eq_ok_iff (s : Slice) (k : Nat) (b : Byte) :
    s.index k = .ok b ↔ s.elems[k]? = some b := by
  unfold Slice.index
  cases h : s.elems[k]? <;> simp

theorem index_eq_panic_iff (s : Slice) (k : Nat) :
    s.index k = .error .runtimePanic ↔ s.len ≤ k := by
  unfold Slice.index Slice.len
  cases h : s.elems[k]? with
  | none => simpa using h
  | some b =>
    have := List.getElem?_eq_some.1 h
    obtain ⟨hk, -⟩ := this
    simp; omega

theorem index_ne_sync (s : Slice) (k : Nat) :
    s.index k ≠ .error .ErrPacketMustStartWithASyncByte := by
  unfold Slice.index
  cases s.elems[k]? <;> simp

/-- On four bytes or more the header decoder returns, with every field a function of
bytes 0 to 3. -/
theorem parsePacketHeader_cons (b0 b1 b2 b3 : Byte) (rest spare : List Byte) :
    parsePacketHeader { elems := b0 :: b1 :: b2 :: b3 :: rest, spare := spare } =
      .ok (headerOf b0 b1 b2 b3) := by
  simp [parsePacketHeader, Slice.index, bind, Except.bind, pure, Except.pure, headerOf]

/-- Below four bytes the header decoder panics on an index. -/
theorem parsePacketHeader_short (input : Slice) (h : input.len < 4) :
    parsePacketHeader input = .error .runtimePanic := by
  obtain ⟨elems, spare⟩ := input
  simp only [Slice.len] at h
  match elems, h with
  | [], _ => rfl
  | [_], _ => rfl
  | [_, _], _ => rfl
  | [_, _, _], _ => rfl
  | _ :: _ :: _ :: _ :: _, h => simp at h; omega

/-- The 8-bit shift loses the five high bits of the packet identifier: the decoded
`Pid` is byte 2 alone. -/
theorem headerOf_Pid (b0 b1 b2 b3 : Byte) : (headerOf b0 b1 b2 b3).Pid = b2.val := by
  simp only [headerOf, u8, u16]
  have h1 : (b1.val &&& 0x1F) <<< 8 % 256 = 0 := by
    rw [Nat.shiftLeft_eq]
    omega
  rw [h1, Nat.zero_or]
  have := b2.isLt
  omega

theorem headerOf_control (b0 b1 b2 b3 : Byte) :
    (headerOf b0 b1 b2 b3).AdaptionFieldControl = (b3.val >>> 4) &&& 0x03 := rfl

theorem control_lt_four (b3 : Byte) : (b3.val >>> 4) &&& 0x03 < 4 := by
  have := Nat.and_pow_two_sub_one_eq_mod (b3.val >>> 4) 2
  simp only [Nat.reducePow, Nat.add_one_sub_one] at this
  omega

theorem sliceFrom_four (b0 b1 b2 b3 : Byte) (rest spare : List Byte) :
    Slice.sliceFrom { elems := b0 :: b1 :: b2 :: b3 :: rest, spare := spare } 4 =
      .ok { elems := rest, spare := spare } := by
  simp [Slice.sliceFrom, Slice.len]

/-! ## The packet assembler, case by case -/

theorem parsePacket_nil (spare : List Byte) :
    parsePacket { elems := [], spare := spare } = .error .runtimePanic := rfl

theorem parsePacket_bad_sync (b0 : Byte) (rest spare : List Byte) (h : b0.val ≠ syncByte) :
    parsePacket { elems := b0 :: rest, spare := spare } =
      .error .ErrPacketMustStartWithASyncByte := by
  simp [parsePacket, index_zero, bind, Except.bind, h, throw, throwThe, MonadExceptOf.throw]

theorem parsePacket_short (b0 : Byte) (rest spare : List Byte) (h : b0.val = syncByte)
    (hlen : rest.length < 3) :
    parsePacket { elems := b0 :: rest, spare := spare } = .error .runtimePanic := by
  have hs : parsePacketHeader { elems := b0 :: rest, spare := spare } =
      .error .runtimePanic :=
    parsePacketHeader_short _ (by simp [Slice.len]; omega)
  simp [parsePacket, index_zero, bind, Except.bind, h, hs]

theorem parsePacket_control0 (b0 b1 b2 b3 : Byte) (rest spare : List Byte)
    (h : b0.val = syncByte) (hc : (b3.val >>> 4) &&& 0x03 = 0) :
    parsePacket { elems := b0 :: b1 :: b2 :: b3 :: rest, spare := spare } =
      .ok { Bytes := { elems := b0 :: b1 :: b2 :: b3 :: rest, spare := spare }
            Header := headerOf b0 b1 b2 b3
            AdaptationField := none
            Payload := none } := by
  unfold parsePacket
  simp only [index_zero, parsePacketHeader_cons, headerOf_control, bind, Except.bind, h, hc,
    pure, Except.pure, ne_eq, not_true_eq_false, ite_false, ↓reduceIte]
  rfl

theorem parsePacket_control1 (b0 b1 b2 b3 : Byte) (rest spare : List Byte)
    (h : b0.val = syncByte) (hc : (b3.val >>> 4) &&& 0x03 = 1) :
    parsePacket { elems := b0 :: b1 :: b2 :: b3 :: rest, spare := spare } =
      .ok { Bytes := { elems := b0 :: b1 :: b2 :: b3 :: rest, spare := spare }
            Header := headerOf b0 b1 b2 b3
            AdaptationField := none
            Payload := some { elems := rest, spare := spare } } := by
  unfold parsePacket
  simp only [index_zero, parsePacketHeader_cons, headerOf_control, bind, Except.bind, h, hc,
    pure, Except.pure, ne_eq, not_true_eq_false, ite_false, ↓reduceIte, payloadOffset,
    Nat.add_zero, sliceFrom_four, Bool.false_eq_true]

theorem parsePacket_control2 (b0 b1 b2 b3 : Byte) (rest spare : List Byte)
    (h : b0.val = syncByte) (hc : (b3.val >>> 4) &&& 0x03 = 2) :
    parsePacket { elems := b0 :: b1 :: b2 :: b3 :: rest, spare := spare } =
      (parsePacketAdaptationField { elems := rest, spare := spare }).map fun a =>
        { Bytes := { elems := b0 :: b1 :: b2 :: b3 :: rest, spare := spare }
          Header := headerOf b0 b1 b2 b3
          AdaptationField := some a
          Payload := none } := by
  unfold parsePacket
  simp only [index_zero, parsePacketHeader_cons, headerOf_control, bind, Except.bind, h, hc,
    pure, Except.pure, ne_eq, not_true_eq_false, ite_false, ↓reduceIte, sliceFrom_four,
    Except.map]
  cases hr : parsePacketAdaptationField { elems := rest, spare := spare } <;> simp [hr]

theorem parsePacket_control3 (b0 b1 b2 b3 : Byte) (rest spare : List Byte)
    (h : b0.val = syncByte) (hc : (b3.val >>> 4) &&& 0x03 = 3) :
    parsePacket { elems := b0 :: b1 :: b2 :: b3 :: rest, spare := spare } =
      (parsePacketAdaptationField { elems := rest, spare := spare }).bind fun a =>
        (Slice.sliceFrom { elems := b0 :: b1 :: b2 :: b3 :: rest, spare := spare }
          (4 + (1 + a.AdaptationFieldLength))).map fun p =>
        { Bytes := { elems := b0 :: b1 :: b2 :: b3 :: rest, spare := spare }
          Header := headerOf b0 b1 b2 b3
          AdaptationField := some a
          Payload := some p } := by
  unfold parsePacket
  simp only [index_zero, parsePacketHeader_cons, headerOf_control, bind, Except.bind, h, hc,
    pure, Except.pure, ne_eq, not_true_eq_false, ite_false, ↓reduceIte, sliceFrom_four,
    Except.map, payloadOffset]
  cases hr : parsePacketAdaptationField { elems := rest, spare := spare } with
  | error e => simp [hr]
  | ok a =>
    simp only [hr]
    cases hs : Slice.sliceFrom { elems := b0 :: b1 :: b2 :: b3 :: rest, spare := spare }
      (4 + (1 + a.AdaptationFieldLength)) <;> simp [hs]

theorem bind_eq_ok {α β : Type} (x : Except Failure α) (f : α → Except Failure β) (b : β) :
    (x >>= f) = .ok b ↔ ∃ a, x = .ok a ∧ f a = .ok b := by
  cases x <;> simp [bind, Except.bind]

theorem pure_eq_ok {α : Type} (a b : α) :
    (pure a : Except Failure α) = .ok b ↔ a = b := by
  simp [pure, Except.pure]

/-! ## What each decoding step changes -/

theorem readPCR_inv (i : Slice) (a : MpegTsHeaderAdaptationField) (offset : Nat)
    (r : MpegTsHeaderAdaptationField × Nat) (h : readPCR i a offset = .ok r) :
    (a.HasPCR = false ∧ r = (a, offset)) ∨
    (a.HasPCR = true ∧ ∃ s c, i.sliceFrom offset = .ok s ∧ parsePCR s = .ok c ∧
      r = ({ a with PCR := some c }, offset + 6)) := by
  unfold readPCR at h
  split at h
  · right
    simp only [bind_eq_ok, pure_eq_ok] at h
    obtain ⟨s, hs, c, hc, rfl⟩ := h
    exact ⟨by assumption, s, c, hs, hc, rfl⟩
  · left
    simp only [pure_eq_ok] at h
    exact ⟨by simp_all, h.symm⟩

theorem readOPCR_inv (i : Slice) (a : MpegTsHeaderAdaptationField) (offset : Nat)
    (r : MpegTsHeaderAdaptationField × Nat) (h : readOPCR i a offset = .ok r) :
    (a.HasOPCR = false ∧ r = (a, offset)) ∨
    (a.HasOPCR = true ∧ ∃ s c, i.sliceFrom offset = .ok s ∧ parsePCR s = .ok c ∧
      r = ({ a with OPCR := some c }, offset + 6)) := by
  unfold readOPCR at h
  split at h
  · right
    simp only [bind_eq_ok, pure_eq_ok] at h
    obtain ⟨s, hs, c, hc, rfl⟩ := h
    exact ⟨by assumption, s, c, hs, hc, rfl⟩
  · left
    simp only [pure_eq_ok] at h
    exact ⟨by simp_all, h.symm⟩

theorem readSpliceCountdown_inv (i : Slice) (a : MpegTsHeaderAdaptationField)
    (offset : Nat) (r : MpegTsHeaderAdaptationField × Nat)
    (h : readSpliceCountdown i a offset = .ok r) :
    (a.HasSplicingCountdown = false ∧ r = (a, offset)) ∨
    (a.HasSplicingCountdown = true ∧ ∃ b, i.index offset = .ok b ∧
      r = ({ a with SpliceCountdown := b.val }, offset + 1)) := by
  unfold readSpliceCountdown at h
  split at h
  · right
    simp only [bind_eq_ok, pure_eq_ok] at h
    obtain ⟨b, hb, rfl⟩ := h
    exact ⟨by assumption, b, hb, rfl⟩
  · left
    simp only [pure_eq_ok] at h
    exact ⟨by simp_all, h.symm⟩

theorem readTransportPrivateData_inv (i : Slice) (a : MpegTsHeaderAdaptationField)
    (offset : Nat) (r : MpegTsHeaderAdaptationField × Nat)
    (h : readTransportPrivateData i a offset = .ok r) :
    (a.HasTransportPrivateData = false ∧ r = (a, offset)) ∨
    (a.HasTransportPrivateData = true ∧ ∃ b, i.index offset = .ok b ∧
      ((b.val = 0 ∧ r = ({ a with TransportPrivateDataLength := 0 }, offset + 1)) ∨
       (0 < b.val ∧ ∃ d, i.sliceFromTo (offset + 1) (offset + 1 + b.val) = .ok d ∧
          r = ({ a with TransportPrivateDataLength := b.val, TransportPrivateData := some d },
            offset + 1 + b.val)))) := by
  unfold readTransportPrivateData at h
  split at h
  · right
    simp only [bind_eq_ok] at h
    obtain ⟨b, hb, h⟩ := h
    refine ⟨by assumption, b, hb, ?_⟩
    split at h
    · right
      simp only [bind_eq_ok, pure_eq_ok] at h
      obtain ⟨d, hd, rfl⟩ := h
      exact ⟨by assumption, d, hd, rfl⟩
    · left
      simp only [pure_eq_ok] at h
      have h0 : b.val = 0 := by omega
      refine ⟨h0, ?_⟩
      rw [← h, h0]
  · left
    simp only [pure_eq_ok] at h
    exact ⟨by simp_all, h.symm⟩

theorem readAdaptationExtension_frame (i : Slice) (a : MpegTsHeaderAdaptationField)
    (offset : Nat) (r : MpegTsHeaderAdaptationField)
    (h : readAdaptationExtension i a offset = .ok r) :
    (a.HasAdaptationExtensionField = false ∧ r = a) ∨
    (a.HasAdaptationExtensionField = true ∧
      ∃ e, r = { a with AdaptationExtensionField := some e }) := by
  unfold readAdaptationExtension at h
  split at h
  · right
    simp only [bind_eq_ok] at h
    obtain ⟨l, hl, h⟩ := h
    refine ⟨by assumption, ?_⟩
    split at h
    · simp only [bind_eq_ok, pure_eq_ok] at h
      obtain ⟨g, -, r1, -, r2, -, e, -, rfl⟩ := h
      exact ⟨e, rfl⟩
    · simp only [pure_eq_ok] at h
      exact ⟨_, h.symm⟩
  · left
    simp only [pure_eq_ok] at h
    exact ⟨by simp_all, h.symm⟩

/-! ## The adaptation field decoder, case by case -/

theorem sameHead_refl (a : MpegTsHeaderAdaptationField) : sameHead a a := by
  simp [sameHead]

theorem sameHead_trans {a b c : MpegTsHeaderAdaptationField} (h1 : sameHead a b)
    (h2 : sameHead b c) : sameHead a c := by
  simp only [sameHead] at *
  omega

theorem readPCR_sameHead {i : Slice} {a : MpegTsHeaderAdaptationField} {offset : Nat}
    {r : MpegTsHeaderAdaptationField × Nat} (h : readPCR i a offset = .ok r) :
    sameHead a r.1 := by
  rcases readPCR_inv i a offset r h with ⟨-, rfl⟩ | ⟨-, s, c, -, -, rfl⟩ <;> simp [sameHead]

theorem readOPCR_sameHead {i : Slice} {a : MpegTsHeaderAdaptationField} {offset : Nat}
    {r : MpegTsHeaderAdaptationField × Nat} (h : readOPCR i a offset = .ok r) :
    sameHead a r.1 := by
  rcases readOPCR_inv i a offset r h with ⟨-, rfl⟩ | ⟨-, s, c, -, -, rfl⟩ <;> simp [sameHead]

theorem readSpliceCountdown_sameHead {i : Slice} {a : MpegTsHeaderAdaptationField}
    {offset : Nat} {r : MpegTsHeaderAdaptationField × Nat}
    (h : readSpliceCountdown i a offset = .ok r) : sameHead a r.1 := by
  rcases readSpliceCountdown_inv i a offset r h with ⟨-, rfl⟩ | ⟨-, b, -, rfl⟩ <;>
    simp [sameHead]

theorem readTransportPrivateData_sameHead {i : Slice} {a : MpegTsHeaderAdaptationField}
    {offset : Nat} {r : MpegTsHeaderAdaptationField × Nat}
    (h : readTransportPrivateData i a offset = .ok r) : sameHead a r.1 := by
  rcases readTransportPrivateData_inv i a offset r h with
    ⟨-, rfl⟩ | ⟨-, b, -, ⟨-, rfl⟩ | ⟨-, d, -, rfl⟩⟩ <;> simp [sameHead]

theorem readAdaptationExtension_sameHead {i : Slice} {a : MpegTsHeaderAdaptationField}
    {offset : Nat} {r : MpegTsHeaderAdaptationField}
    (h : readAdaptationExtension i a offset = .ok r) : sameHead a r := by
  rcases readAdaptationExtension_frame i a offset r h with ⟨-, rfl⟩ | ⟨-, e, rfl⟩ <;>
    simp [sameHead]

theorem parsePacketAdaptationField_nil (spare : List Byte) :
    parsePacketAdaptationField { elems := [], spare := spare } = .error .runtimePanic := rfl

theorem parsePacketAdaptationField_zero (l : Byte) (rest spare : List Byte)
    (hl : l.val = 0) :
    parsePacketAdaptationField { elems := l :: rest, spare := spare } = .ok {} := by
  unfold parsePacketAdaptationField
  simp only [index_zero, bind, Except.bind, hl, Nat.lt_irrefl, ↓reduceIte, pure, Except.pure,
    gt_iff_lt]

theorem parsePacketAdaptationField_single (l : Byte) (spare : List Byte)
    (hl : 0 < l.val) :
    parsePacketAdaptationField { elems := [l], spare := spare } = .error .runtimePanic := by
  unfold parsePacketAdaptationField
  simp only [index_zero, bind, Except.bind, hl, ↓reduceIte, gt_iff_lt]
  rfl

theorem parsePacketAdaptationField_cons (l flags : Byte) (rest spare : List Byte)
    (hl : 0 < l.val) :
    parsePacketAdaptationField { elems := l :: flags :: rest, spare := spare } =
      (readPCR { elems := l :: flags :: rest, spare := spare } (afHead l flags) 2 >>= fun r1 =>
       readOPCR { elems := l :: flags :: rest, spare := spare } r1.1 r1.2 >>= fun r2 =>
       readSpliceCountdown { elems := l :: flags :: rest, spare := spare } r2.1 r2.2
        >>= fun r3 =>
       readTransportPrivateData { elems := l :: flags :: rest, spare := spare } r3.1 r3.2
        >>= fun r4 =>
       readAdaptationExtension { elems := l :: flags :: rest, spare := spare } r4.1 r4.2) := by
  have h1 : Slice.index { elems := l :: flags :: rest, spare := spare } (0 + 1) = .ok flags := by
    simp [Slice.index]
  unfold parsePacketAdaptationField
  simp only [index_zero, h1, bind, Except.bind, hl, ↓reduceIte, gt_iff_lt]
  rfl

/-- A decoded adaptation field carries the length byte, and when that is not zero the
eight flag fields computed from the flags byte. -/
theorem parsePacketAdaptationField_head (l : Byte) (rest spare : List Byte)
    (a : MpegTsHeaderAdaptationField)
    (h : parsePacketAdaptationField { elems := l :: rest, spare := spare } = .ok a) :
    a.AdaptationFieldLength = l.val ∧
    (0 < l.val → ∃ flags rest2, rest = flags :: rest2 ∧ sameHead (afHead l flags) a) := by
  rcases Nat.eq_zero_or_pos l.val with hl | hl
  · rw [parsePacketAdaptationField_zero l rest spare hl] at h
    cases h
    exact ⟨hl.symm, fun h0 => absurd h0 (by omega)⟩
  · cases rest with
    | nil =>
      rw [parsePacketAdaptationField_single l spare hl] at h
      cases h
    | cons flags rest2 =>
      rw [parsePacketAdaptationField_cons l flags rest2 spare hl] at h
      simp only [bind_eq_ok] at h
      obtain ⟨r1, h1, r2, h2, r3, h3, r4, h4, h5⟩ := h
      have hs : sameHead (afHead l flags) a :=
        sameHead_trans (readPCR_sameHead h1) (sameHead_trans (readOPCR_sameHead h2)
          (sameHead_trans (readSpliceCountdown_sameHead h3)
            (sameHead_trans (readTransportPrivateData_sameHead h4)
              (readAdaptationExtension_sameHead h5))))
      exact ⟨hs.1, fun _ => ⟨flags, rest2, rfl, hs⟩⟩

/-! ## Decoding steps never return the sync-byte error -/

theorem noSync_ok {α : Type} (a : α) : NoSyncError (.ok a : Except Failure α) := by
  simp [NoSyncError]

theorem noSync_pure {α : Type} (a : α) : NoSyncError (pure a : Except Failure α) := by
  simp [NoSyncError, pure, Except.pure]

theorem noSync_panic {α : Type} : NoSyncError (.error .runtimePanic : Except Failure α) := by
  simp [NoSyncError]

theorem noSync_bind {α β : Type} (x : Except Failure α) (f : α → Except Failure β)
    (hx : NoSyncError x) (hf : ∀ a, NoSyncError (f a)) : NoSyncError (x >>= f) := by
  cases x with
  | error e => simpa [NoSyncError, bind, Except.bind] using hx
  | ok a => simpa [bind, Except.bind] using hf a

theorem noSync_index (s : Slice) (k : Nat) : NoSyncError (s.index k) :=
  index_ne_sync s k

theorem noSync_sliceFrom (s : Slice) (k : Nat) : NoSyncError (s.sliceFrom k) := by
  unfold Slice.sliceFrom
  split
  · exact noSync_ok _
  · exact noSync_panic

theorem noSync_sliceFromTo (s : Slice) (lo hi : Nat) : NoSyncError (s.sliceFromTo lo hi) := by
  unfold Slice.sliceFromTo
  split
  · exact noSync_ok _
  · exact noSync_panic

theorem noSync_parsePCR (i : Slice) : NoSyncError (parsePCR i) := by
  unfold parsePCR
  repeat (first | exact noSync_pure _ | (apply noSync_bind _ _ (noSync_index _ _); intro _))

theorem noSync_parsePTSOrDTS (i : Slice) : NoSyncError (parsePTSOrDTS i) := by
  unfold parsePTSOrDTS
  repeat (first | exact noSync_pure _ | (apply noSync_bind _ _ (noSync_index _ _); intro _))

theorem noSync_readPCR (i : Slice) (a : MpegTsHeaderAdaptationField) (offset : Nat) :
    NoSyncError (readPCR i a offset) := by
  unfold readPCR
  split
  · apply noSync_bind _ _ (noSync_sliceFrom _ _); intro _
    apply noSync_bind _ _ (noSync_parsePCR _); intro _
    exact noSync_pure _
  · exact noSync_pure _

theorem noSync_readOPCR (i : Slice) (a : MpegTsHeaderAdaptationField) (offset : Nat) :
    NoSyncError (readOPCR i a offset) := by
  unfold readOPCR
  split
  · apply noSync_bind _ _ (noSync_sliceFrom _ _); intro _
    apply noSync_bind _ _ (noSync_parsePCR _); intro _
    exact noSync_pure _
  · exact noSync_pure _

theorem noSync_readSpliceCountdown (i : Slice) (a : MpegTsHeaderAdaptationField)
    (offset : Nat) : NoSyncError (readSpliceCountdown i a offset) := by
  unfold readSpliceCountdown
  split
  · apply noSync_bind _ _ (noSync_index _ _); intro _
    exact noSync_pure _
  · exact noSync_pure _

theorem noSync_readTransportPrivateData (i : Slice) (a : MpegTsHeaderAdaptationField)
    (offset : Nat) : NoSyncError (readTransportPrivateData i a offset) := by
  unfold readTransportPrivateData
  split
  · apply noSync_bind _ _ (noSync_index _ _); intro _
    dsimp only
    split
    · apply noSync_bind _ _ (noSync_sliceFromTo _ _ _); intro _
      exact noSync_pure _
    · exact noSync_pure _
  · exact noSync_pure _

theorem noSync_readLegalTimeWindow (i : Slice) (e : PacketAdaptationExtensionField)
    (offset : Nat) : NoSyncError (readLegalTimeWindow i e offset) := by
  unfold readLegalTimeWindow
  split
  · apply noSync_bind _ _ (noSync_index _ _); intro _
    apply noSync_bind _ _ (noSync_index _ _); intro _
    exact noSync_pure _
  · exact noSync_pure _

theorem noSync_readPiecewiseRate (i : Slice) (e : PacketAdaptationExtensionField)
    (offset : Nat) : NoSyncError (readPiecewiseRate i e offset) := by
  unfold readPiecewiseRate
  split
  · apply noSync_bind _ _ (noSync_index _ _); intro _
    apply noSync_bind _ _ (noSync_index _ _); intro _
    apply noSync_bind _ _ (noSync_index _ _); intro _
    exact noSync_pure _
  · exact noSync_pure _

theorem noSync_readSeamlessSplice (i : Slice) (e : PacketAdaptationExtensionField)
    (offset : Nat) : NoSyncError (readSeamlessSplice i e offset) := by
  unfold readSeamlessSplice
  split
  · apply noSync_bind _ _ (noSync_index _ _); intro _
    apply noSync_bind _ _ (noSync_sliceFrom _ _); intro _
    apply noSync_bind _ _ (noSync_parsePTSOrDTS _); intro _
    exact noSync_pure _
  · exact noSync_pure _

theorem noSync_readAdaptationExtension (i : Slice) (a : MpegTsHeaderAdaptationField)
    (offset : Nat) : NoSyncError (readAdaptationExtension i a offset) := by
  unfold readAdaptationExtension
  split
  · apply noSync_bind _ _ (noSync_index _ _); intro _
    dsimp only
    split
    · apply noSync_bind _ _ (noSync_index _ _); intro _
      apply noSync_bind _ _ (noSync_readLegalTimeWindow _ _ _); intro _
      apply noSync_bind _ _ (noSync_readPiecewiseRate _ _ _); intro _
      apply noSync_bind _ _ (noSync_readSeamlessSplice _ _ _); intro _
      exact noSync_pure _
    · exact noSync_pure _
  · exact noSync_pure _

theorem noSync_parsePacketAdaptationField (i : Slice) :
    NoSyncError (parsePacketAdaptationField i) := by
  unfold parsePacketAdaptationField
  apply noSync_bind _ _ (noSync_index _ _); intro _
  dsimp only
  split
  · apply noSync_bind _ _ (noSync_index _ _); intro _
    apply noSync_bind _ _ (noSync_readPCR _ _ _); intro _
    apply noSync_bind _ _ (noSync_readOPCR _ _ _); intro _
    apply noSync_bind _ _ (noSync_readSpliceCountdown _ _ _); intro _
    apply noSync_bind _ _ (noSync_readTransportPrivateData _ _ _); intro _
    exact noSync_readAdaptationExtension _ _ _
  · exact noSync_pure _

/-- A packet that `parsePacket` returns: its header comes from bytes 0 to 3, byte 0 is
the sync byte, and the control bits select the adaptation field and the payload. -/
theorem parsePacket_ok_inv (input : Slice) (p : Packet) (h : parsePacket input = .ok p) :
    ∃ b0 b1 b2 b3 rest, input.elems = b0 :: b1 :: b2 :: b3 :: rest ∧ b0.val = syncByte ∧
      p.Header = headerOf b0 b1 b2 b3 ∧ p.Bytes = input ∧
      (((b3.val >>> 4) &&& 0x03 = 0 ∧ p.AdaptationField = none ∧ p.Payload = none) ∨
       ((b3.val >>> 4) &&& 0x03 = 1 ∧ p.AdaptationField = none ∧
          p.Payload = some { elems := rest, spare := input.spare }) ∨
       ((b3.val >>> 4) &&& 0x03 = 2 ∧ p.Payload = none ∧
          ∃ a, parsePacketAdaptationField { elems := rest, spare := input.spare } = .ok a ∧
            p.AdaptationField = some a) ∨
       ((b3.val >>> 4) &&& 0x03 = 3 ∧
          ∃ a, parsePacketAdaptationField { elems := rest, spare := input.spare } = .ok a ∧
            p.AdaptationField = some a ∧ 1 + a.AdaptationFieldLength ≤ rest.length ∧
            p.Payload = some { elems := rest.drop (1 + a.AdaptationFieldLength),
                               spare := input.spare })) := by
  obtain ⟨elems, spare⟩ := input
  cases elems with
  | nil => rw [parsePacket_nil] at h; cases h
  | cons b0 tl =>
    by_cases hs : b0.val = syncByte
    swap
    · rw [parsePacket_bad_sync b0 tl spare hs] at h; cases h
    by_cases hlen : tl.length < 3
    · rw [parsePacket_short b0 tl spare hs hlen] at h; cases h
    match tl, hlen with
    | [], hlen => simp at hlen
    | [_], hlen => simp at hlen
    | [_, _], hlen => simp at hlen
    | b1 :: b2 :: b3 :: rest, _ =>
      refine ⟨b0, b1, b2, b3, rest, rfl, hs, ?_⟩
      have hc := control_lt_four b3
      generalize hcv : (b3.val >>> 4) &&& 0x03 = c at hc
      have hc4 : c = 0 ∨ c = 1 ∨ c = 2 ∨ c = 3 := by omega
      rcases hc4 with rfl | rfl | rfl | rfl
      · rw [parsePacket_control0 b0 b1 b2 b3 rest spare hs hcv] at h
        cases h
        simp
      · rw [parsePacket_control1 b0 b1 b2 b3 rest spare hs hcv] at h
        cases h
        simp
      · rw [parsePacket_control2 b0 b1 b2 b3 rest spare hs hcv] at h
        cases hr : parsePacketAdaptationField { elems := rest, spare := spare } with
        | error e => rw [hr] at h; cases h
        | ok a =>
          rw [hr] at h
          cases h
          simp
      · rw [parsePacket_control3 b0 b1 b2 b3 rest spare hs hcv] at h
        cases hr : parsePacketAdaptationField { elems := rest, spare := spare } with
        | error e => rw [hr] at h; cases h
        | ok a =>
          rw [hr] at h
          simp only [Except.bind, Slice.sliceFrom, Slice.len, List.length_cons] at h
          split at h
          · cases h
            refine ⟨rfl, rfl, ?_⟩
            refine Or.inr (Or.inr (Or.inr ⟨rfl, a, rfl, rfl, by omega, ?_⟩))
            have : 4 + (1 + a.AdaptationFieldLength) = (1 + a.AdaptationFieldLength) + 4 := by
              omega
            simp [this]
          · cases h

theorem noSync_parsePacketHeader (input : Slice) : NoSyncError (parsePacketHeader input) := by
  unfold parsePacketHeader
  repeat (first | exact noSync_pure _ | (apply noSync_bind _ _ (noSync_index _ _); intro _))

/-- Once byte 0 is the sync byte, `parsePacket` cannot end with the sync-byte error: it
returns a packet or panics. -/
theorem noSync_parsePacket (b0 : Byte) (rest spare : List Byte) (hs : b0.val = syncByte) :
    NoSyncError (parsePacket { elems := b0 :: rest, spare := spare }) := by
  unfold parsePacket
  simp only [index_zero, bind, Except.bind, hs, ne_eq, not_true_eq_false, ↓reduceIte]
  apply noSync_bind (parsePacketHeader { elems := b0 :: rest, spare := spare }) _
    (noSync_parsePacketHeader _)
  intro hd
  apply noSync_bind
  · split
    · apply noSync_bind _ _ (noSync_sliceFrom _ _); intro _
      apply noSync_bind _ _ (noSync_parsePacketAdaptationField _); intro _
      exact noSync_pure _
    · exact noSync_pure _
  · intro af
    apply noSync_bind
    · split
      · apply noSync_bind _ _ (noSync_sliceFrom _ _); intro _
        exact noSync_pure _
      · exact noSync_pure _
    · intro _
      exact noSync_pure _

/-- A call that does not end with the sync-byte error returns or panics. -/
theorem noSync_cases {α : Type} (x : Except Failure α) (h : NoSyncError x) :
    (∃ a, x = .ok a) ∨ x = .error .runtimePanic := by
  cases x with
  | ok a => exact Or.inl ⟨a, rfl⟩
  | error e =>
    cases e with
    | ErrPacketMustStartWithASyncByte => exact absurd rfl h
    | runtimePanic => exact Or.inr rfl

/-- With control 11 and a length byte `l` such that 4 + 1 + l exceeds the input
length, `parsePacket` panics: in the adaptation field decoder, or else on the payload
slice. -/
theorem parsePacket_control3_panic (b0 b1 b2 b3 l : Byte) (rest spare : List Byte)
    (hs : b0.val = syncByte) (hc : (b3.val >>> 4) &&& 0x03 = 3)
    (hlen : (b0 :: b1 :: b2 :: b3 :: l :: rest).length < 4 + 1 + l.val) :
    parsePacket { elems := b0 :: b1 :: b2 :: b3 :: l :: rest, spare := spare } =
      .error .runtimePanic := by
  rcases noSync_cases _ (noSync_parsePacket b0 (b1 :: b2 :: b3 :: l :: rest) spare hs) with
    ⟨p, hp⟩ | hpanic
  · exfalso
    obtain ⟨c0, c1, c2, c3, tl, he, -, -, -, hcases⟩ := parsePacket_ok_inv _ p hp
    simp only [List.cons.injEq] at he
    obtain ⟨rfl, rfl, rfl, rfl, rfl⟩ := he
    rcases hcases with ⟨h0, -⟩ | ⟨h0, -⟩ | ⟨h0, -⟩ | ⟨-, a, ha, -, hle, -⟩
    · omega
    · omega
    · omega
    · have := (parsePacketAdaptationField_head l rest spare a ha).1
      simp only [List.length_cons] at hlen hle
      omega
  · exact hpanic

theorem index_succ (b : Byte) (rest spare : List Byte) (k : Nat) :
    Slice.index { elems := b :: rest, spare := spare } (k + 1) =
      Slice.index { elems := rest, spare := spare } k := by
  simp [Slice.index]

theorem and_two_pow_ne_zero_iff (n k : Nat) : n &&& 2 ^ k ≠ 0 ↔ n / 2 ^ k % 2 = 1 := by
  have key : n.testBit k = true ↔ n / 2 ^ k % 2 = 1 := by
    rw [Nat.testBit_to_div_mod]; simp
  rw [← key]
  constructor
  · intro h
    obtain ⟨j, hj⟩ := Nat.ne_zero_implies_bit_true h
    rw [Nat.testBit_and, Nat.testBit_two_pow] at hj
    simp only [Bool.and_eq_true, decide_eq_true_eq] at hj
    obtain ⟨h1, rfl⟩ := hj
    exact h1
  · intro h hz
    have : (n &&& 2 ^ k).testBit k = true := by
      rw [Nat.testBit_and, Nat.testBit_two_pow_self, h]; rfl
    rw [hz] at this
    simp at this

/-- An `|` of a multiple of `2 ^ k` with a value below `2 ^ k` is their sum. -/
theorem or_eq_add_of_dvd (a x k : Nat) (ha : a % 2 ^ k = 0) (hx : x < 2 ^ k) :
    a ||| x = a + x := by
  have h1 : a = 2 ^ k * (a / 2 ^ k) := by
    have := Nat.div_add_mod a (2 ^ k)
    rw [ha, Nat.add_zero] at this
    exact this.symm
  rw [h1, ← Nat.mul_add_lt_is_or hx]

theorem pcr48_eq (b0 b1 b2 b3 b4 b5 : Byte) :
    pcr48 b0 b1 b2 b3 b4 b5 =
      b0.val * 2 ^ 40 + b1.val * 2 ^ 32 + b2.val * 2 ^ 24 + b3.val * 2 ^ 16
        + b4.val * 2 ^ 8 + b5.val := by
  have h0 := b0.isLt
  have h1 := b1.isLt
  have h2 := b2.isLt
  have h3 := b3.isLt
  have h4 := b4.isLt
  have h5 := b5.isLt
  unfold pcr48
  simp only [Nat.shiftLeft_eq]
  rw [or_eq_add_of_dvd (b0.val * 2 ^ 40) (b1.val * 2 ^ 32) 40 (by omega) (by omega),
      or_eq_add_of_dvd _ (b2.val * 2 ^ 24) 32 (by omega) (by omega),
      or_eq_add_of_dvd _ (b3.val * 2 ^ 16) 24 (by omega) (by omega),
      or_eq_add_of_dvd _ (b4.val * 2 ^ 8) 16 (by omega) (by omega),
      or_eq_add_of_dvd _ b5.val 8 (by omega) (by omega)]

theorem parsePCR_cons (b0 b1 b2 b3 b4 b5 : Byte) (rest spare : List Byte) :
    parsePCR { elems := b0 :: b1 :: b2 :: b3 :: b4 :: b5 :: rest, spare := spare } =
      .ok { Base := pcr48 b0 b1 b2 b3 b4 b5 >>> 15
            Extension := pcr48 b0 b1 b2 b3 b4 b5 &&& 0x1ff } := by
  unfold parsePCR
  simp only [index_zero, index_succ]
  rfl

theorem parsePCR_short (i : Slice) (h : i.len < 6) : parsePCR i = .error .runtimePanic := by
  obtain ⟨elems, spare⟩ := i
  simp only [Slice.len] at h
  match elems, h with
  | [], _ => rfl
  | [_], _ => rfl
  | [_, _], _ => rfl
  | [_, _, _], _ => rfl
  | [_, _, _, _], _ => rfl
  | [_, _, _, _, _], _ => rfl
  | _ :: _ :: _ :: _ :: _ :: _ :: _, h => simp at h; omega

/-- The 48-bit field read back from an encoded PCR. -/
theorem pcr48_encodePCR (v : Nat) (hv : v < 2 ^ 48) :
    pcr48 (Fin.ofNat (v / 2 ^ 40)) (Fin.ofNat (v / 2 ^ 32)) (Fin.ofNat (v / 2 ^ 24))
      (Fin.ofNat (v / 2 ^ 16)) (Fin.ofNat (v / 2 ^ 8)) (Fin.ofNat v) = v := by
  rw [pcr48_eq]
  simp only [Fin.ofNat, Nat.reducePow, Nat.reduceAdd] at hv ⊢
  omega

/-- Decoding the six bytes of an encoded PCR gives back the base and the extension. -/
theorem parsePCR_encodePCR (base reserved ext : Nat) (hb : base < 2 ^ 33)
    (hr : reserved < 2 ^ 6) (he : ext < 2 ^ 9) (rest spare : List Byte) :
    parsePCR { elems := encodePCR base reserved ext ++ rest, spare := spare } =
      .ok { Base := base, Extension := ext } := by
  have hv : base * 2 ^ 15 + reserved * 2 ^ 9 + ext < 2 ^ 48 := by omega
  have e9 : ∀ n : Nat, n &&& 0x1ff = n % 2 ^ 9 := fun n => Nat.and_pow_two_sub_one_eq_mod n 9
  unfold encodePCR
  simp only [List.cons_append, List.nil_append]
  rw [parsePCR_cons, pcr48_encodePCR _ hv, Nat.shiftRight_eq_div_pow, e9]
  congr 2
  · omega
  · omega

/-! ## The gates, from the flags byte -/

theorem afHead_HasPCR (l f : Byte) : (afHead l f).HasPCR = true ↔ f.val / 16 % 2 = 1 := by
  have := and_two_pow_ne_zero_iff f.val 4
  simp only [Nat.reducePow] at this
  simpa [afHead, MpegTsHeaderAdaptationField.HasPCR] using this

theorem afHead_HasOPCR (l f : Byte) : (afHead l f).HasOPCR = true ↔ f.val / 8 % 2 = 1 := by
  have := and_two_pow_ne_zero_iff f.val 3
  simp only [Nat.reducePow] at this
  simpa [afHead, MpegTsHeaderAdaptationField.HasOPCR] using this

theorem afHead_HasSplicingCountdown (l f : Byte) :
    (afHead l f).HasSplicingCountdown = true ↔ f.val / 4 % 2 = 1 := by
  have := and_two_pow_ne_zero_iff f.val 2
  simp only [Nat.reducePow] at this
  simpa [afHead, MpegTsHeaderAdaptationField.HasSplicingCountdown] using this

theorem afHead_HasTransportPrivateData (l f : Byte) :
    (afHead l f).HasTransportPrivateData = true ↔ f.val / 2 % 2 = 1 := by
  have := and_two_pow_ne_zero_iff f.val 1
  simp only [Nat.reducePow] at this
  simpa [afHead, MpegTsHeaderAdaptationField.HasTransportPrivateData] using this

theorem afHead_HasAdaptationExtensionField (l f : Byte) :
    (afHead l f).HasAdaptationExtensionField = true ↔ f.val % 2 = 1 := by
  simp [afHead, MpegTsHeaderAdaptationField.HasAdaptationExtensionField]

/-- The five gates depend only on the flag fields. -/
theorem sameHead_gates {a b : MpegTsHeaderAdaptationField} (h : sameHead a b) :
    b.HasPCR = a.HasPCR ∧ b.HasOPCR = a.HasOPCR ∧
    b.HasSplicingCountdown = a.HasSplicingCountdown ∧
    b.HasTransportPrivateData = a.HasTransportPrivateData ∧
    b.HasAdaptationExtensionField = a.HasAdaptationExtensionField := by
  obtain ⟨-, -, -, -, h1, h2, h3, h4, h5⟩ := h
  simp [MpegTsHeaderAdaptationField.HasPCR, MpegTsHeaderAdaptationField.HasOPCR,
    MpegTsHeaderAdaptationField.HasSplicingCountdown,
    MpegTsHeaderAdaptationField.HasTransportPrivateData,
    MpegTsHeaderAdaptationField.HasAdaptationExtensionField, h1, h2, h3, h4, h5]

/-! ## Steps whose gate is clear -/

theorem readPCR_of_false (i : Slice) (a : MpegTsHeaderAdaptationField) (offset : Nat)
    (h : a.HasPCR = false) : readPCR i a offset = .ok (a, offset) := by
  simp [readPCR, h, pure, Except.pure]

theorem readOPCR_of_false (i : Slice) (a : MpegTsHeaderAdaptationField) (offset : Nat)
    (h : a.HasOPCR = false) : readOPCR i a offset = .ok (a, offset) := by
  simp [readOPCR, h, pure, Except.pure]

theorem readSpliceCountdown_of_false (i : Slice) (a : MpegTsHeaderAdaptationField)
    (offset : Nat) (h : a.HasSplicingCountdown = false) :
    readSpliceCountdown i a offset = .ok (a, offset) := by
  simp [readSpliceCountdown, h, pure, Except.pure]

theorem readTransportPrivateData_of_false (i : Slice) (a : MpegTsHeaderAdaptationField)
    (offset : Nat) (h : a.HasTransportPrivateData = false) :
    readTransportPrivateData i a offset = .ok (a, offset) := by
  simp [readTransportPrivateData, h, pure, Except.pure]

theorem readAdaptationExtension_of_false (i : Slice) (a : MpegTsHeaderAdaptationField)
    (offset : Nat) (h : a.HasAdaptationExtensionField = false) :
    readAdaptationExtension i a offset = .ok a := by
  simp [readAdaptationExtension, h, pure, Except.pure]

theorem readPCR_of_true (i s : Slice) (a : MpegTsHeaderAdaptationField) (offset : Nat)
    (c : ClockReference) (h : a.HasPCR = true) (hs : i.sliceFrom offset = .ok s)
    (hc : parsePCR s = .ok c) :
    readPCR i a offset = .ok ({ a with PCR := some c }, offset + 6) := by
  simp [readPCR, h, hs, hc, bind, Except.bind, pure, Except.pure]

theorem readOPCR_of_true (i s : Slice) (a : MpegTsHeaderAdaptationField) (offset : Nat)
    (c : ClockReference) (h : a.HasOPCR = true) (hs : i.sliceFrom offset = .ok s)
    (hc : parsePCR s = .ok c) :
    readOPCR i a offset = .ok ({ a with OPCR := some c }, offset + 6) := by
  simp [readOPCR, h, hs, hc, bind, Except.bind, pure, Except.pure]

/-- Slicing off a prefix of the elements. -/
theorem sliceFrom_append (pre xs spare : List Byte) :
    Slice.sliceFrom { elems := pre ++ xs, spare := spare } pre.length =
      .ok { elems := xs, spare := spare } := by
  simp [Slice.sliceFrom, Slice.len]

/-! ## The clock fields are left alone by the later steps -/

theorem readOPCR_PCR {i : Slice} {a : MpegTsHeaderAdaptationField} {offset : Nat}
    {r : MpegTsHeaderAdaptationField × Nat} (h : readOPCR i a offset = .ok r) :
    r.1.PCR = a.PCR := by
  rcases readOPCR_inv i a offset r h with ⟨-, rfl⟩ | ⟨-, s, c, -, -, rfl⟩ <;> rfl

theorem readSpliceCountdown_clocks {i : Slice} {a : MpegTsHeaderAdaptationField}
    {offset : Nat} {r : MpegTsHeaderAdaptationField × Nat}
    (h : readSpliceCountdown i a offset = .ok r) : r.1.PCR = a.PCR ∧ r.1.OPCR = a.OPCR := by
  rcases readSpliceCountdown_inv i a offset r h with ⟨-, rfl⟩ | ⟨-, b, -, rfl⟩ <;>
    exact ⟨rfl, rfl⟩

theorem readTransportPrivateData_clocks {i : Slice} {a : MpegTsHeaderAdaptationField}
    {offset : Nat} {r : MpegTsHeaderAdaptationField × Nat}
    (h : readTransportPrivateData i a offset = .ok r) :
    r.1.PCR = a.PCR ∧ r.1.OPCR = a.OPCR := by
  rcases readTransportPrivateData_inv i a offset r h with
    ⟨-, rfl⟩ | ⟨-, b, -, ⟨-, rfl⟩ | ⟨-, d, -, rfl⟩⟩ <;> exact ⟨rfl, rfl⟩

theorem readAdaptationExtension_clocks {i : Slice} {a : MpegTsHeaderAdaptationField}
    {offset : Nat} {r : MpegTsHeaderAdaptationField}
    (h : readAdaptationExtension i a offset = .ok r) : r.PCR = a.PCR ∧ r.OPCR = a.OPCR := by
  rcases readAdaptationExtension_frame i a offset r h with ⟨-, rfl⟩ | ⟨-, e, rfl⟩ <;>
    exact ⟨rfl, rfl⟩

theorem ok_bind {α β : Type} (a : α) (f : α → Except Failure β) :
    ((.ok a : Except Failure α) >>= f) = f a := rfl

/-- With no optional sub-field flagged, the decoder returns after the flags byte. -/
theorem parsePacketAdaptationField_no_optional (l f : Byte) (rest spare : List Byte)
    (hl : 0 < l.val) (hf : f.val % 32 = 0) :
    parsePacketAdaptationField { elems := l :: f :: rest, spare := spare } =
      .ok (afHead l f) := by
  have g1 : (afHead l f).HasPCR = false := by
    rw [Bool.eq_false_iff, Ne, afHead_HasPCR]; omega
  have g2 : (afHead l f).HasOPCR = false := by
    rw [Bool.eq_false_iff, Ne, afHead_HasOPCR]; omega
  have g3 : (afHead l f).HasSplicingCountdown = false := by
    rw [Bool.eq_false_iff, Ne, afHead_HasSplicingCountdown]; omega
  have g4 : (afHead l f).HasTransportPrivateData = false := by
    rw [Bool.eq_false_iff, Ne, afHead_HasTransportPrivateData]; omega
  have g5 : (afHead l f).HasAdaptationExtensionField = false := by
    rw [Bool.eq_false_iff, Ne, afHead_HasAdaptationExtensionField]; omega
  rw [parsePacketAdaptationField_cons l f rest spare hl, readPCR_of_false _ _ _ g1, ok_bind,
    readOPCR_of_false _ _ _ g2, ok_bind, readSpliceCountdown_of_false _ _ _ g3, ok_bind,
    readTransportPrivateData_of_false _ _ _ g4, ok_bind,
    readAdaptationExtension_of_false _ _ _ g5]

/-! ## Encoded clock references -/

theorem encodePCR_length (base reserved ext : Nat) :
    (encodePCR base reserved ext).length = 6 := rfl

/-- The `// PCR` block on a field that carries an encoded PCR when bit 0x10 is set. -/
theorem readPCR_encoded (l f : Byte) (base reserved ext : Nat) (hb : base < 2 ^ 33)
    (hr : reserved < 2 ^ 6) (he : ext < 2 ^ 9) (tail spare : List Byte) :
    readPCR
      { elems := l :: f ::
          ((if f.val / 16 % 2 = 1 then encodePCR base reserved ext else []) ++ tail)
        spare := spare } (afHead l f) 2 =
      .ok ({ afHead l f with
              PCR := if f.val / 16 % 2 = 1 then some { Base := base, Extension := ext }
                     else none },
           (l :: f ::
              (if f.val / 16 % 2 = 1 then encodePCR base reserved ext else [])).length) := by
  by_cases hf : f.val / 16 % 2 = 1
  · simp only [hf, ↓reduceIte]
    have hs := sliceFrom_append [l, f] (encodePCR base reserved ext ++ tail) spare
    exact readPCR_of_true _ _ _ 2 _ ((afHead_HasPCR l f).2 hf) hs
      (parsePCR_encodePCR base reserved ext hb hr he tail spare)
  · simp only [hf, ↓reduceIte]
    have hg : (afHead l f).HasPCR = false := by
      rw [Bool.eq_false_iff, Ne, afHead_HasPCR]; exact hf
    exact readPCR_of_false _ _ _ hg

/-- The `// OPCR` block on a field that carries an encoded OPCR, after `pre.length`
bytes, when bit 0x08 is set. -/
theorem readOPCR_encoded (l f : Byte) (a : MpegTsHeaderAdaptationField)
    (hh : sameHead (afHead l f) a)
    (base reserved ext : Nat) (hb : base < 2 ^ 33)
    (hr : reserved < 2 ^ 6) (he : ext < 2 ^ 9) (pre tail spare : List Byte) :
    readOPCR
      { elems := pre ++
          ((if f.val / 8 % 2 = 1 then encodePCR base reserved ext else []) ++ tail)
        spare := spare } a pre.length =
      .ok ({ a with
              OPCR := if f.val / 8 % 2 = 1 then some { Base := base, Extension := ext }
                      else a.OPCR },
           pre.length +
             (if f.val / 8 % 2 = 1 then encodePCR base reserved ext else []).length) := by
  have hgate := (sameHead_gates hh).2.1
  by_cases hf : f.val / 8 % 2 = 1
  · simp only [hf, ↓reduceIte]
    have hs := sliceFrom_append pre (encodePCR base reserved ext ++ tail) spare
    exact readOPCR_of_true _ _ _ _ _ (hgate.trans ((afHead_HasOPCR l f).2 hf)) hs
      (parsePCR_encodePCR base reserved ext hb hr he tail spare)
  · simp only [hf, ↓reduceIte]
    have hg : a.HasOPCR = false := by
      rw [hgate, Bool.eq_false_iff, Ne, afHead_HasOPCR]; exact hf
    exact readOPCR_of_false _ _ _ hg

/-! ## C1: the packet identifier -/

/-- C1 (defect in the code): the header bytes 47 0F FF 10 carry the 13-bit packet
identifier 4095 = ((0x0F & 0x1F) << 8) | 0xFF, and `parsePacketHeader` returns
`Pid = 255`; on every input of at least 4 bytes the decoded `Pid` is byte 2 alone,
because `(input[1] & 0x1F) << 8` is computed on 8 bits. -/
theorem parsePacketHeader_Pid_drops_high_bits :
    ((parsePacketHeader { elems := [0x47, 0x0F, 0xFF, 0x10] }).map (fun h => h.Pid)
        = .ok 255 ∧
      ((0x0F &&& 0x1F) <<< 8 ||| 0xFF : Nat) = 4095) ∧
    ∀ (b0 b1 b2 b3 : Byte) (rest spare : List Byte),
      (parsePacketHeader { elems := b0 :: b1 :: b2 :: b3 :: rest, spare := spare }).map
        (fun h => h.Pid) = .ok b2.val := by
  refine ⟨by decide, ?_⟩
  intro b0 b1 b2 b3 rest spare
  rw [parsePacketHeader_cons]
  simp only [Except.map, headerOf_Pid]

/-! ## C2: the sync byte -/

/-- C2: on a non-empty input `parsePacket` returns the error
`ErrPacketMustStartWithASyncByte` (and so no packet) exactly when byte 0 is not 0x47,
and every packet it returns has `Header.SyncByte = 0x47`. -/
theorem parsePacket_sync_error_iff (b0 : Byte) (rest spare : List Byte) :
    (parsePacket { elems := b0 :: rest, spare := spare } =
        .error .ErrPacketMustStartWithASyncByte ↔ b0.val ≠ 0x47) ∧
    (∀ p, parsePacket { elems := b0 :: rest, spare := spare } = .ok p →
        p.Header.SyncByte = 0x47) := by
  constructor
  · constructor
    · intro h hs
      exact noSync_parsePacket b0 rest spare hs h
    · intro hs
      exact parsePacket_bad_sync b0 rest spare hs
  · intro p hp
    obtain ⟨c0, c1, c2, c3, tl, he, hs, hh, -⟩ := parsePacket_ok_inv _ p hp
    simp only [List.cons.injEq] at he
    rw [hh]
    simp only [headerOf]
    rw [hs]
    rfl

/-- C2, at concrete inputs: a 188-byte input starting with 0x00 fails with the
sync-byte error, and a packet starting with 0x47 decodes with `SyncByte = 0x47`. -/
theorem parsePacket_sync_error_iff_witness :
    parsePacket { elems := 0x00 :: List.replicate 187 0 } =
      .error .ErrPacketMustStartWithASyncByte ∧
    ((parsePacket { elems := [0x47, 0x00, 0x11, 0x10, 0xAA] }).map
      (fun p => p.Header.SyncByte)) = .ok 0x47 :=
  ⟨(parsePacket_sync_error_iff 0x00 (List.replicate 187 0) []).1.2 (by decide), by decide⟩

/-! ## C3: the field-presence control -/

/-- C3: in every packet that `parsePacket` returns, the header is the one decoded from
the input, its 2-bit control is at most 3, the adaptation field is present exactly
when the control is 2 or 3, and the payload is present exactly when it is 1 or 3. -/
theorem parsePacket_presence (input : Slice) (p : Packet)
    (h : parsePacket input = .ok p) :
    parsePacketHeader input = .ok p.Header ∧
    p.Header.AdaptionFieldControl ≤ 3 ∧
    (p.AdaptationField.isSome = true ↔
      p.Header.AdaptionFieldControl = 2 ∨ p.Header.AdaptionFieldControl = 3) ∧
    (p.Payload.isSome = true ↔
      p.Header.AdaptionFieldControl = 1 ∨ p.Header.AdaptionFieldControl = 3) := by
  obtain ⟨b0, b1, b2, b3, rest, he, -, hh, -, hcases⟩ := parsePacket_ok_inv input p h
  obtain ⟨elems, spare⟩ := input
  simp only at he
  subst he
  rw [parsePacketHeader_cons, hh, headerOf_control]
  refine ⟨rfl, ?_⟩
  rcases hcases with ⟨hc, ha, hp⟩ | ⟨hc, ha, hp⟩ | ⟨hc, hp, a, -, ha⟩ | ⟨hc, a, -, ha, -, hp⟩ <;>
    simp [hc, ha, hp]

/-- C3, at one input for each control value: 00 gives neither part, 01 the payload
only, 10 the adaptation field only, 11 both. -/
theorem parsePacket_presence_witness :
    ((parsePacket { elems := [0x47, 0, 0, 0x00, 0, 9] }).map
        (fun p => (p.AdaptationField.isSome, p.Payload.isSome)) = .ok (false, false) ∧
     (parsePacket { elems := [0x47, 0, 0, 0x10, 0, 9] }).map
        (fun p => (p.AdaptationField.isSome, p.Payload.isSome)) = .ok (false, true) ∧
     (parsePacket { elems := [0x47, 0, 0, 0x20, 0, 9] }).map
        (fun p => (p.AdaptationField.isSome, p.Payload.isSome)) = .ok (true, false) ∧
     (parsePacket { elems := [0x47, 0, 0, 0x30, 0, 9] }).map
        (fun p => (p.AdaptationField.isSome, p.Payload.isSome)) = .ok (true, true)) ∧
    ((some ({} : MpegTsHeaderAdaptationField)).isSome = true ↔
      (headerOf 0x47 0 0 0x30).AdaptionFieldControl = 2 ∨
      (headerOf 0x47 0 0 0x30).AdaptionFieldControl = 3) :=
  ⟨by decide,
   (parsePacket_presence { elems := [0x47, 0, 0, 0x30, 0, 9] }
      { Bytes := { elems := [0x47, 0, 0, 0x30, 0, 9] }
        Header := headerOf 0x47 0 0 0x30
        AdaptationField := some {}
        Payload := some { elems := [9] } } (by decide)).2.2.1⟩

/-! ## C4: the payload -/

/-- C4: in a packet that `parsePacket` returns with control 01 or 11, the payload is
the input from offset 4 + (adaptation field present ? 1 + AdaptationFieldLength : 0),
an offset within the input; and a 188-byte input that starts with the sync byte and
has control 01 is decoded, with the 184 bytes after the header as payload. -/
theorem parsePacket_payload_suffix :
    (∀ (input : Slice) (p : Packet), parsePacket input = .ok p →
      (p.Header.AdaptionFieldControl = 1 ∨ p.Header.AdaptionFieldControl = 3) →
      4 + (match p.AdaptationField with
           | some a => 1 + a.AdaptationFieldLength
           | none => 0) ≤ input.len ∧
      p.Payload = some
        { elems := input.elems.drop
            (4 + (match p.AdaptationField with
                  | some a => 1 + a.AdaptationFieldLength
                  | none => 0))
          spare := input.spare }) ∧
    (∀ (b0 b1 b2 b3 : Byte) (rest spare : List Byte), b0.val = 0x47 →
      (b3.val >>> 4) &&& 0x03 = 1 → rest.length = 184 →
      ∃ p, parsePacket { elems := b0 :: b1 :: b2 :: b3 :: rest, spare := spare } = .ok p ∧
        p.AdaptationField = none ∧
        p.Payload = some { elems := rest, spare := spare }) := by
  constructor
  · intro input p h hctl
    obtain ⟨b0, b1, b2, b3, rest, he, -, hh, -, hcases⟩ := parsePacket_ok_inv input p h
    obtain ⟨elems, spare⟩ := input
    simp only at he
    subst he
    rw [hh, headerOf_control] at hctl
    rcases hcases with ⟨hc, ha, hp⟩ | ⟨hc, ha, hp⟩ | ⟨hc, hp, a, -, ha⟩ |
        ⟨hc, a, -, ha, hle, hp⟩
    · omega
    · simp [ha, hp, Slice.len]
    · omega
    · rw [ha, hp]
      simp only [Slice.len, List.length_cons]
      refine ⟨by omega, ?_⟩
      have : 4 + (1 + a.AdaptationFieldLength) = (1 + a.AdaptationFieldLength) + 4 := by
        omega
      simp [this]
  · intro b0 b1 b2 b3 rest spare hs hc _
    exact ⟨_, parsePacket_control1 b0 b1 b2 b3 rest spare hs hc, rfl, rfl⟩

/-- C4, at concrete inputs: a payload-only packet and a packet with a 2-byte
adaptation field. -/
theorem parsePacket_payload_suffix_witness :
    (parsePacket { elems := [0x47, 0, 0, 0x10, 7, 8, 9] }).map (fun p => p.Payload) =
      .ok (some { elems := [7, 8, 9] }) ∧
    (parsePacket { elems := [0x47, 0, 0, 0x30, 2, 0, 0xFF, 8, 9] }).map (fun p => p.Payload) =
      .ok (some { elems := [8, 9] }) ∧
    (∃ p, parsePacket { elems := 0x47 :: 0 :: 0 :: 0x10 :: List.replicate 184 1 } = .ok p ∧
        p.AdaptationField = none ∧
        p.Payload = some { elems := List.replicate 184 1 }) :=
  ⟨by decide, by decide,
   parsePacket_payload_suffix.2 0x47 0 0 0x10 (List.replicate 184 1) [] (by decide)
     (by decide) (by rw [List.length_replicate])⟩

/-! ## C5: a length byte that exceeds the input -/

/-- C5 as stated fails: the 10-byte input with control 11 and length byte 150 ends in
a run-time panic, not in a returned error, and the same bytes with control 10 are
decoded into a packet. -/
theorem parsePacket_truncated_counterexample :
    parsePacket { elems := [0x47, 0, 0, 0x30, 150, 0, 0, 0, 0, 0] } =
      .error .runtimePanic ∧
    (parsePacket { elems := [0x47, 0, 0, 0x20, 150, 0, 0, 0, 0, 0] }).map
      (fun p => p.AdaptationField.map (fun a => a.AdaptationFieldLength)) =
      .ok (some 150) := by
  decide

/-- C5, amended: when the input begins with the sync byte and its length byte `l`
makes 4 + 1 + l exceed the input length, `parsePacket` never ends with a returned
error; with control 11 it ends in a run-time panic, and with control 10 it returns a
packet exactly when the adaptation field decoder returns on the bytes after the
header. -/
theorem parsePacket_truncated (b0 b1 b2 b3 l : Byte) (rest spare : List Byte)
    (hs : b0.val = 0x47)
    (hlen : (b0 :: b1 :: b2 :: b3 :: l :: rest).length < 4 + 1 + l.val) :
    NoSyncError (parsePacket { elems := b0 :: b1 :: b2 :: b3 :: l :: rest, spare := spare }) ∧
    ((b3.val >>> 4) &&& 0x03 = 3 →
      parsePacket { elems := b0 :: b1 :: b2 :: b3 :: l :: rest, spare := spare } =
        .error .runtimePanic) ∧
    ((b3.val >>> 4) &&& 0x03 = 2 →
      ((∃ p, parsePacket { elems := b0 :: b1 :: b2 :: b3 :: l :: rest, spare := spare } =
          .ok p) ↔
        ∃ a, parsePacketAdaptationField { elems := l :: rest, spare := spare } = .ok a)) := by
  have hns := noSync_parsePacket b0 (b1 :: b2 :: b3 :: l :: rest) spare hs
  refine ⟨hns, ?_, ?_⟩
  · intro hc
    exact parsePacket_control3_panic b0 b1 b2 b3 l rest spare hs hc hlen
  · intro hc
    rw [parsePacket_control2 b0 b1 b2 b3 (l :: rest) spare hs hc]
    cases parsePacketAdaptationField { elems := l :: rest, spare := spare } <;>
      simp [Except.map]

/-- C5, amended, at the 10-byte input with control 11 and length byte 150. -/
theorem parsePacket_truncated_witness :
    parsePacket { elems := [0x47, 0, 0, 0x30, 150, 0, 0, 0, 0, 0] } = .error .runtimePanic :=
  (parsePacket_truncated 0x47 0 0 0x30 150 [0, 0, 0, 0, 0] [] (by decide) (by decide)).2.1
    (by decide)

/-! ## C6: inputs shorter than the header -/

/-- C6 as stated fails: on three bytes `parsePacketHeader` panics on an index, on the
empty input `parsePacket` panics, and on a short input with a wrong first byte
`parsePacket` returns the sync-byte error; no size error is returned. -/
theorem parsePacketHeader_short_counterexample :
    parsePacketHeader { elems := [0x47, 0x00, 0x11] } = .error .runtimePanic ∧
    parsePacket { elems := [] } = .error .runtimePanic ∧
    parsePacket { elems := [0x47, 0x00, 0x11] } = .error .runtimePanic ∧
    parsePacket { elems := [0x00, 0x00] } = .error .ErrPacketMustStartWithASyncByte := by
  decide

/-- C6, amended: on an input shorter than 4 bytes `parsePacketHeader` ends in a
run-time panic, and `parsePacket` ends in a run-time panic when the input is empty or
begins with 0x47 and returns the sync-byte error otherwise; on an input of at least 4
bytes `parsePacketHeader` returns a header. -/
theorem parsePacketHeader_short_or_header :
    (∀ input : Slice, input.len < 4 →
      parsePacketHeader input = .error .runtimePanic ∧
      parsePacket input =
        (match input.elems with
         | [] => .error .runtimePanic
         | b :: _ => if b.val = 0x47 then .error .runtimePanic
                     else .error .ErrPacketMustStartWithASyncByte)) ∧
    (∀ input : Slice, 4 ≤ input.len → ∃ h, parsePacketHeader input = .ok h) := by
  constructor
  · intro input hlen
    refine ⟨parsePacketHeader_short input hlen, ?_⟩
    obtain ⟨elems, spare⟩ := input
    cases elems with
    | nil => rfl
    | cons b tl =>
      simp only [Slice.len, List.length_cons] at hlen
      by_cases hs : b.val = 0x47
      · simp only [hs, ↓reduceIte]
        exact parsePacket_short b tl spare hs (by omega)
      · simp only [hs, ↓reduceIte]
        exact parsePacket_bad_sync b tl spare hs
  · intro input hlen
    obtain ⟨elems, spare⟩ := input
    match elems, hlen with
    | b0 :: b1 :: b2 :: b3 :: rest, _ => exact ⟨_, parsePacketHeader_cons b0 b1 b2 b3 rest spare⟩
    | [], h => simp [Slice.len] at h
    | [_], h => simp [Slice.len] at h
    | [_, _], h => simp [Slice.len] at h
    | [_, _, _], h => simp [Slice.len] at h

/-- C6, amended, at a 2-byte input and at a 4-byte input. -/
theorem parsePacketHeader_short_or_header_witness :
    parsePacketHeader { elems := [0x47, 0x1F] } = .error .runtimePanic ∧
    (∃ h, parsePacketHeader { elems := [0x47, 0x1F, 0xFF, 0x10] } = .ok h) :=
  ⟨(parsePacketHeader_short_or_header.1 { elems := [0x47, 0x1F] } (by decide)).1,
   parsePacketHeader_short_or_header.2 { elems := [0x47, 0x1F, 0xFF, 0x10] } (by decide)⟩

/-! ## C7: 188-byte inputs -/

/-- C7 as stated fails: the 188-byte input 47 00 00 30 C8 00 ... 00 (control 11, length
byte 200) ends in a run-time panic: the payload slice would start at 205. -/
theorem parsePacket_188_counterexample :
    parsePacket { elems := 0x47 :: 0 :: 0 :: 0x30 :: 200 :: List.replicate 183 0 } =
      .error .runtimePanic :=
  parsePacket_control3_panic 0x47 0 0 0x30 200 (List.replicate 183 0) [] (by decide)
    (by decide) (by rw [List.length_cons, List.length_cons, List.length_cons,
      List.length_cons, List.length_cons, List.length_replicate]; decide)

/-- C7, amended: on a 188-byte input whose first byte is 0x47, `parsePacket` ends with
a packet or with a run-time panic and never with a returned error; it returns a packet
when the control is 00 or 01, and it panics when the control is 11 and the length byte
is above 183. -/
theorem parsePacket_188 (b0 b1 b2 b3 l : Byte) (rest spare : List Byte)
    (hs : b0.val = 0x47) (hlen : (b0 :: b1 :: b2 :: b3 :: l :: rest).length = 188) :
    ((∃ p, parsePacket { elems := b0 :: b1 :: b2 :: b3 :: l :: rest, spare := spare } = .ok p) ∨
      parsePacket { elems := b0 :: b1 :: b2 :: b3 :: l :: rest, spare := spare } =
        .error .runtimePanic) ∧
    ((b3.val >>> 4) &&& 0x03 = 0 ∨ (b3.val >>> 4) &&& 0x03 = 1 →
      ∃ p, parsePacket { elems := b0 :: b1 :: b2 :: b3 :: l :: rest, spare := spare } = .ok p) ∧
    ((b3.val >>> 4) &&& 0x03 = 3 → 183 < l.val →
      parsePacket { elems := b0 :: b1 :: b2 :: b3 :: l :: rest, spare := spare } =
        .error .runtimePanic) := by
  refine ⟨noSync_cases _ (noSync_parsePacket b0 _ spare hs), ?_, ?_⟩
  · rintro (hc | hc)
    · exact ⟨_, parsePacket_control0 b0 b1 b2 b3 (l :: rest) spare hs hc⟩
    · exact ⟨_, parsePacket_control1 b0 b1 b2 b3 (l :: rest) spare hs hc⟩
  · intro hc hl
    exact parsePacket_control3_panic b0 b1 b2 b3 l rest spare hs hc (by omega)

/-- C7, amended, at a 188-byte payload-only packet and at the 188-byte packet with
control 11 and length byte 200. -/
theorem parsePacket_188_witness :
    (∃ p, parsePacket { elems := 0x47 :: 0 :: 0 :: 0x10 :: 7 :: List.replicate 183 0 } =
      .ok p) ∧
    parsePacket { elems := 0x47 :: 0 :: 0 :: 0x30 :: 200 :: List.replicate 183 0 } =
      .error .runtimePanic :=
  ⟨(parsePacket_188 0x47 0 0 0x10 7 (List.replicate 183 0) [] (by decide)
      (by rw [List.length_cons, List.length_cons, List.length_cons,
        List.length_cons, List.length_cons, List.length_replicate])).2.1
      (Or.inr (by decide)),
   (parsePacket_188 0x47 0 0 0x30 200 (List.replicate 183 0) [] (by decide)
      (by rw [List.length_cons, List.length_cons, List.length_cons,
        List.length_cons, List.length_cons, List.length_replicate])).2.2
      (by decide) (by decide)⟩

/-! ## C8: the header fields -/

/-- C8: on an input of at least 4 bytes `parsePacketHeader` returns a header whose
`SyncByte` is byte 0, whose three indicators are bits 7, 6 and 5 of byte 1, and whose
scrambling control, field control and continuity counter are bits 7-6, 5-4 and 3-0 of
byte 3; the indicators are at most 1, the controls at most 3, the counter at most 15. -/
theorem parsePacketHeader_fields (b0 b1 b2 b3 : Byte) (rest spare : List Byte) :
    ∃ h, parsePacketHeader { elems := b0 :: b1 :: b2 :: b3 :: rest, spare := spare } = .ok h ∧
      h.SyncByte = b0.val ∧
      h.TransportErrorIndicator = b1.val / 128 ∧
      h.PayloadUnitStartIndicator = b1.val / 64 % 2 ∧
      h.TransportPriority = b1.val / 32 % 2 ∧
      h.TransportScramblingControl = b3.val / 64 ∧
      h.AdaptionFieldControl = b3.val / 16 % 4 ∧
      h.ContinuityCounter = b3.val % 16 ∧
      h.TransportErrorIndicator ≤ 1 ∧ h.PayloadUnitStartIndicator ≤ 1 ∧
      h.TransportPriority ≤ 1 ∧ h.TransportScramblingControl ≤ 3 ∧
      h.AdaptionFieldControl ≤ 3 ∧ h.ContinuityCounter ≤ 15 := by
  refine ⟨_, parsePacketHeader_cons b0 b1 b2 b3 rest spare, ?_⟩
  have h1 := b1.isLt
  have h3 := b3.isLt
  have e1 : ∀ n : Nat, n &&& 1 = n % 2 := fun n => Nat.and_pow_two_sub_one_eq_mod n 1
  have e3 : ∀ n : Nat, n &&& 3 = n % 4 := fun n => Nat.and_pow_two_sub_one_eq_mod n 2
  have e15 : ∀ n : Nat, n &&& 15 = n % 16 := fun n => Nat.and_pow_two_sub_one_eq_mod n 4
  simp only [headerOf, Nat.shiftRight_eq_div_pow, e1, e3, e15, Nat.reducePow, true_and]
  omega

/-! ## C9: the PCR and OPCR round trip -/

/-- C9: take a base below 2^33, 6 reserved bits of any value and an extension below
2^9 for the PCR, and likewise for the OPCR; build an adaptation field with a non-zero
length byte and flags byte `f`, followed by the encoded PCR when bit 0x10 of `f` is
set, then the encoded OPCR when bit 0x08 is set, then any bytes. Every adaptation
field the decoder returns on it carries exactly that base and extension in `PCR` and
in `OPCR` (and none where the bit is clear), and the decoder does return when no
other sub-field is flagged (low three bits of `f` clear). -/
theorem parsePacketAdaptationField_PCR_roundtrip (l f : Byte) (hl : 0 < l.val)
    (base reserved ext obase oreserved oext : Nat)
    (hb : base < 2 ^ 33) (hr : reserved < 2 ^ 6) (he : ext < 2 ^ 9)
    (hob : obase < 2 ^ 33) (hor : oreserved < 2 ^ 6) (hoe : oext < 2 ^ 9)
    (rest spare : List Byte) :
    (f.val % 8 = 0 →
      ∃ a, parsePacketAdaptationField
        { elems := l :: f ::
            ((if f.val / 16 % 2 = 1 then encodePCR base reserved ext else []) ++
              ((if f.val / 8 % 2 = 1 then encodePCR obase oreserved oext else []) ++ rest))
          spare := spare } = .ok a) ∧
    ∀ a, parsePacketAdaptationField
        { elems := l :: f ::
            ((if f.val / 16 % 2 = 1 then encodePCR base reserved ext else []) ++
              ((if f.val / 8 % 2 = 1 then encodePCR obase oreserved oext else []) ++ rest))
          spare := spare } = .ok a →
      a.PCR = (if f.val / 16 % 2 = 1 then some { Base := base, Extension := ext }
               else none) ∧
      a.OPCR = (if f.val / 8 % 2 = 1 then some { Base := obase, Extension := oext }
                else none) := by
  have h1 := readPCR_encoded l f base reserved ext hb hr he
    ((if f.val / 8 % 2 = 1 then encodePCR obase oreserved oext else []) ++ rest) spare
  have hh1 : sameHead (afHead l f) { afHead l f with
      PCR := if f.val / 16 % 2 = 1 then some { Base := base, Extension := ext }
             else none } := readPCR_sameHead h1
  have h2 := readOPCR_encoded l f _ hh1 obase oreserved oext hob hor hoe
    (l :: f :: (if f.val / 16 % 2 = 1 then encodePCR base reserved ext else [])) rest spare
  simp only [List.cons_append] at h2
  have hh2 := sameHead_trans hh1 (readOPCR_sameHead h2)
  have hcons := parsePacketAdaptationField_cons l f
    ((if f.val / 16 % 2 = 1 then encodePCR base reserved ext else []) ++
      ((if f.val / 8 % 2 = 1 then encodePCR obase oreserved oext else []) ++ rest)) spare hl
  rw [h1, ok_bind] at hcons
  simp only at hcons
  rw [h2, ok_bind] at hcons
  simp only at hcons
  rw [hcons]
  obtain ⟨-, -, g3, g4, g5⟩ := sameHead_gates hh2
  constructor
  · intro hf
    have k3 : (afHead l f).HasSplicingCountdown = false := by
      rw [Bool.eq_false_iff, Ne, afHead_HasSplicingCountdown]; omega
    have k4 : (afHead l f).HasTransportPrivateData = false := by
      rw [Bool.eq_false_iff, Ne, afHead_HasTransportPrivateData]; omega
    have k5 : (afHead l f).HasAdaptationExtensionField = false := by
      rw [Bool.eq_false_iff, Ne, afHead_HasAdaptationExtensionField]; omega
    rw [readSpliceCountdown_of_false _ _ _ (g3.trans k3), ok_bind,
      readTransportPrivateData_of_false _ _ _ (g4.trans k4), ok_bind,
      readAdaptationExtension_of_false _ _ _ (g5.trans k5)]
    exact ⟨_, rfl⟩
  · intro a ha
    simp only [bind_eq_ok] at ha
    obtain ⟨r3, h3, r4, h4, h5⟩ := ha
    obtain ⟨p3, o3⟩ := readSpliceCountdown_clocks h3
    obtain ⟨p4, o4⟩ := readTransportPrivateData_clocks h4
    obtain ⟨p5, o5⟩ := readAdaptationExtension_clocks h5
    rw [p5, p4, p3, o5, o4, o3]
    exact ⟨rfl, rfl⟩

/-- C9, at base 2^33 - 1 with extension 511 (reserved bits all set) for the PCR and
base 0 with extension 0 for the OPCR: twelve bytes FF .. FF 00 .. 00 after the flags
byte 0x18. -/
theorem parsePacketAdaptationField_PCR_roundtrip_witness :
    ∃ a, parsePacketAdaptationField
        { elems := [13, 0x18, 0xFF, 0xFF, 0xFF, 0xFF, 0xFF, 0xFF, 0, 0, 0, 0, 0, 0] } = .ok a ∧
      a.PCR = some { Base := 2 ^ 33 - 1, Extension := 511 } ∧
      a.OPCR = some { Base := 0, Extension := 0 } := by
  have T := parsePacketAdaptationField_PCR_roundtrip 13 0x18 (by decide)
    (2 ^ 33 - 1) 63 511 0 0 0 (by decide) (by decide) (by decide) (by decide) (by decide)
    (by decide) [] []
  obtain ⟨a, ha⟩ := T.1 (by decide)
  exact ⟨a, ha, (T.2 a ha).1, (T.2 a ha).2⟩

/-! ## C10: the flags byte -/

/-- C10: for an adaptation field with a non-zero length byte and flags byte `f`, each
of the eight decoded flag fields is non-zero exactly when its mask bit is set in `f`
(0x80, 0x40, 0x20, 0x10, 0x08, 0x04, 0x02, 0x01 from `DiscontinuityIndicator` to
`AdaptationFieldExtensionFlag`), and each of the five gates that guard the optional
sub-fields is true exactly when its bit is set; the decoder does return when the low
five bits of `f` are clear. -/
theorem parsePacketAdaptationField_flag_gates (l f : Byte) (rest spare : List Byte)
    (hl : 0 < l.val) :
    (f.val % 32 = 0 →
      ∃ a, parsePacketAdaptationField { elems := l :: f :: rest, spare := spare } = .ok a) ∧
    ∀ a, parsePacketAdaptationField { elems := l :: f :: rest, spare := spare } = .ok a →
      (a.DiscontinuityIndicator ≠ 0 ↔ f.val / 128 % 2 = 1) ∧
      (a.RandomAccessIndicator ≠ 0 ↔ f.val / 64 % 2 = 1) ∧
      (a.ElementaryStreamPriorityIndicator ≠ 0 ↔ f.val / 32 % 2 = 1) ∧
      (a.PCRFlag ≠ 0 ↔ f.val / 16 % 2 = 1) ∧
      (a.OPCRFlag ≠ 0 ↔ f.val / 8 % 2 = 1) ∧
      (a.SplicingPointFlag ≠ 0 ↔ f.val / 4 % 2 = 1) ∧
      (a.TrasportPrivateDataFlag ≠ 0 ↔ f.val / 2 % 2 = 1) ∧
      (a.AdaptationFieldExtensionFlag ≠ 0 ↔ f.val % 2 = 1) ∧
      (a.HasPCR = true ↔ f.val / 16 % 2 = 1) ∧
      (a.HasOPCR = true ↔ f.val / 8 % 2 = 1) ∧
      (a.HasSplicingCountdown = true ↔ f.val / 4 % 2 = 1) ∧
      (a.HasTransportPrivateData = true ↔ f.val / 2 % 2 = 1) ∧
      (a.HasAdaptationExtensionField = true ↔ f.val % 2 = 1) := by
  constructor
  · intro hf
    exact ⟨_, parsePacketAdaptationField_no_optional l f rest spare hl hf⟩
  · intro a ha
    obtain ⟨-, hh⟩ := parsePacketAdaptationField_head l (f :: rest) spare a ha
    obtain ⟨f2, rest2, he, hs⟩ := hh hl
    simp only [List.cons.injEq] at he
    obtain ⟨rfl, rfl⟩ := he
    obtain ⟨g1, g2, g3, g4, g5⟩ := sameHead_gates hs
    obtain ⟨-, e7, e6, e5, e4, e3, e2, e1, e0⟩ := hs
    have b7 := and_two_pow_ne_zero_iff f.val 7
    have b6 := and_two_pow_ne_zero_iff f.val 6
    have b5 := and_two_pow_ne_zero_iff f.val 5
    have b4 := and_two_pow_ne_zero_iff f.val 4
    have b3 := and_two_pow_ne_zero_iff f.val 3
    have b2 := and_two_pow_ne_zero_iff f.val 2
    have b1 := and_two_pow_ne_zero_iff f.val 1
    have b0 := and_two_pow_ne_zero_iff f.val 0
    simp only [Nat.reducePow, Nat.div_one] at b7 b6 b5 b4 b3 b2 b1 b0
    rw [e7, e6, e5, e4, e3, e2, e1, e0, g1, g2, g3, g4, g5]
    exact ⟨b7, b6, b5, b4, b3, b2, b1, b0, afHead_HasPCR l f, afHead_HasOPCR l f,
      afHead_HasSplicingCountdown l f, afHead_HasTransportPrivateData l f,
      afHead_HasAdaptationExtensionField l f⟩

/-- C10, at the flags bytes 0xA0 (bits 0x80 and 0x20) and 0x50 (bits 0x40 and 0x10,
followed by a PCR). -/
theorem parsePacketAdaptationField_flag_gates_witness :
    (∃ a, parsePacketAdaptationField { elems := [1, 0xA0] } = .ok a) ∧
    (parsePacketAdaptationField { elems := [7, 0x50, 0, 0, 0, 0, 0, 0] }).map
      (fun a => (a.RandomAccessIndicator, a.PCRFlag, a.OPCRFlag)) = .ok (0x40, 0x10, 0) :=
  ⟨(parsePacketAdaptationField_flag_gates 1 0xA0 [] [] (by decide)).1 (by decide),
   by decide⟩

/-! ## What each decoding step leaves alone -/

theorem readPCR_frame {i : Slice} {a : MpegTsHeaderAdaptationField} {offset : Nat}
    {r : MpegTsHeaderAdaptationField × Nat} (h : readPCR i a offset = .ok r) :
    r.1.OPCR = a.OPCR ∧ r.1.SpliceCountdown = a.SpliceCountdown ∧
    r.1.TransportPrivateDataLength = a.TransportPrivateDataLength ∧
    r.1.TransportPrivateData = a.TransportPrivateData ∧
    r.1.AdaptationExtensionField = a.AdaptationExtensionField := by
  rcases readPCR_inv i a offset r h with ⟨-, rfl⟩ | ⟨-, s, c, -, -, rfl⟩ <;>
    exact ⟨rfl, rfl, rfl, rfl, rfl⟩

theorem readOPCR_frame {i : Slice} {a : MpegTsHeaderAdaptationField} {offset : Nat}
    {r : MpegTsHeaderAdaptationField × Nat} (h : readOPCR i a offset = .ok r) :
    r.1.PCR = a.PCR ∧ r.1.SpliceCountdown = a.SpliceCountdown ∧
    r.1.TransportPrivateDataLength = a.TransportPrivateDataLength ∧
    r.1.TransportPrivateData = a.TransportPrivateData ∧
    r.1.AdaptationExtensionField = a.AdaptationExtensionField := by
  rcases readOPCR_inv i a offset r h with ⟨-, rfl⟩ | ⟨-, s, c, -, -, rfl⟩ <;>
    exact ⟨rfl, rfl, rfl, rfl, rfl⟩

theorem readSpliceCountdown_frame {i : Slice} {a : MpegTsHeaderAdaptationField}
    {offset : Nat} {r : MpegTsHeaderAdaptationField × Nat}
    (h : readSpliceCountdown i a offset = .ok r) :
    r.1.PCR = a.PCR ∧ r.1.OPCR = a.OPCR ∧
    r.1.TransportPrivateDataLength = a.TransportPrivateDataLength ∧
    r.1.TransportPrivateData = a.TransportPrivateData ∧
    r.1.AdaptationExtensionField = a.AdaptationExtensionField := by
  rcases readSpliceCountdown_inv i a offset r h with ⟨-, rfl⟩ | ⟨-, b, -, rfl⟩ <;>
    exact ⟨rfl, rfl, rfl, rfl, rfl⟩

theorem readTransportPrivateData_frame {i : Slice} {a : MpegTsHeaderAdaptationField}
    {offset : Nat} {r : MpegTsHeaderAdaptationField × Nat}
    (h : readTransportPrivateData i a offset = .ok r) :
    r.1.PCR = a.PCR ∧ r.1.OPCR = a.OPCR ∧ r.1.SpliceCountdown = a.SpliceCountdown ∧
    r.1.AdaptationExtensionField = a.AdaptationExtensionField := by
  rcases readTransportPrivateData_inv i a offset r h with
    ⟨-, rfl⟩ | ⟨-, b, -, ⟨-, rfl⟩ | ⟨-, d, -, rfl⟩⟩ <;> exact ⟨rfl, rfl, rfl, rfl⟩

theorem readAdaptationExtension_rest {i : Slice} {a : MpegTsHeaderAdaptationField}
    {offset : Nat} {r : MpegTsHeaderAdaptationField}
    (h : readAdaptationExtension i a offset = .ok r) :
    r.PCR = a.PCR ∧ r.OPCR = a.OPCR ∧ r.SpliceCountdown = a.SpliceCountdown ∧
    r.TransportPrivateDataLength = a.TransportPrivateDataLength ∧
    r.TransportPrivateData = a.TransportPrivateData := by
  rcases readAdaptationExtension_frame i a offset r h with ⟨-, rfl⟩ | ⟨-, e, rfl⟩ <;>
    exact ⟨rfl, rfl, rfl, rfl, rfl⟩

/-! ## The chain of steps behind a decoded adaptation field -/

/-- A decoded adaptation field with a non-zero length byte comes from the five blocks
run in order, each starting at the cursor that the flag bits before it determine. -/
theorem parsePacketAdaptationField_chain (l f : Byte) (rest spare : List Byte)
    (a : MpegTsHeaderAdaptationField) (hl : 0 < l.val)
    (h : parsePacketAdaptationField { elems := l :: f :: rest, spare := spare } = .ok a) :
    ∃ a1 a2 a3 r4,
      readPCR { elems := l :: f :: rest, spare := spare } (afHead l f) 2 =
        .ok (a1, cursorAfterPCR f) ∧
      readOPCR { elems := l :: f :: rest, spare := spare } a1 (cursorAfterPCR f) =
        .ok (a2, cursorAfterOPCR f) ∧
      readSpliceCountdown { elems := l :: f :: rest, spare := spare } a2 (cursorAfterOPCR f) =
        .ok (a3, cursorAfterSplice f) ∧
      readTransportPrivateData { elems := l :: f :: rest, spare := spare } a3
        (cursorAfterSplice f) = .ok r4 ∧
      readAdaptationExtension { elems := l :: f :: rest, spare := spare } r4.1 r4.2 = .ok a ∧
      sameHead (afHead l f) a1 ∧ sameHead (afHead l f) a2 ∧ sameHead (afHead l f) a3 ∧
      sameHead (afHead l f) r4.1 ∧ sameHead (afHead l f) a := by
  rw [parsePacketAdaptationField_cons l f rest spare hl] at h
  simp only [bind_eq_ok] at h
  obtain ⟨⟨a1, o1⟩, h1, ⟨a2, o2⟩, h2, ⟨a3, o3⟩, h3, r4, h4, h5⟩ := h
  simp only at h2 h3 h4 h5
  have s1 : sameHead (afHead l f) a1 := readPCR_sameHead h1
  have s2 : sameHead (afHead l f) a2 := sameHead_trans s1 (readOPCR_sameHead h2)
  have s3 : sameHead (afHead l f) a3 := sameHead_trans s2 (readSpliceCountdown_sameHead h3)
  have s4 : sameHead (afHead l f) r4.1 :=
    sameHead_trans s3 (readTransportPrivateData_sameHead h4)
  have s5 : sameHead (afHead l f) a := sameHead_trans s4 (readAdaptationExtension_sameHead h5)
  have e1 : o1 = cursorAfterPCR f := by
    unfold cursorAfterPCR
    rcases readPCR_inv _ _ _ _ h1 with ⟨hg, hr⟩ | ⟨hg, s, c, -, -, hr⟩
    · have : ¬ (f.val / 16 % 2 = 1) := by
        rw [← afHead_HasPCR l f, hg]; simp
      simp only [Prod.mk.injEq] at hr
      simp [this, hr.2]
    · have : f.val / 16 % 2 = 1 := (afHead_HasPCR l f).1 hg
      simp only [Prod.mk.injEq] at hr
      simp [this, hr.2]
  subst e1
  have e2 : o2 = cursorAfterOPCR f := by
    unfold cursorAfterOPCR
    have hgate := (sameHead_gates s1).2.1
    rcases readOPCR_inv _ _ _ _ h2 with ⟨hg, hr⟩ | ⟨hg, s, c, -, -, hr⟩
    · have : ¬ (f.val / 8 % 2 = 1) := by
        rw [← afHead_HasOPCR l f, ← hgate, hg]; simp
      simp only [Prod.mk.injEq] at hr
      simp [this, hr.2]
    · have : f.val / 8 % 2 = 1 := (afHead_HasOPCR l f).1 (hgate ▸ hg)
      simp only [Prod.mk.injEq] at hr
      simp [this, hr.2]
  subst e2
  have e3 : o3 = cursorAfterSplice f := by
    unfold cursorAfterSplice
    have hgate := (sameHead_gates s2).2.2.1
    rcases readSpliceCountdown_inv _ _ _ _ h3 with ⟨hg, hr⟩ | ⟨hg, b, -, hr⟩
    · have : ¬ (f.val / 4 % 2 = 1) := by
        rw [← afHead_HasSplicingCountdown l f, ← hgate, hg]; simp
      simp only [Prod.mk.injEq] at hr
      simp [this, hr.2]
    · have : f.val / 4 % 2 = 1 := (afHead_HasSplicingCountdown l f).1 (hgate ▸ hg)
      simp only [Prod.mk.injEq] at hr
      simp [this, hr.2]
  subst e3
  exact ⟨a1, a2, a3, r4, h1, h2, h3, h4, h5, s1, s2, s3, s4, s5⟩

/-! ## Where each optional sub-field is read -/

theorem afHead_optional_default (l f : Byte) :
    (afHead l f).PCR = none ∧ (afHead l f).OPCR = none ∧ (afHead l f).SpliceCountdown = 0 ∧
    (afHead l f).TransportPrivateDataLength = 0 ∧ (afHead l f).TransportPrivateData = none ∧
    (afHead l f).AdaptationExtensionField = none :=
  ⟨rfl, rfl, rfl, rfl, rfl, rfl⟩

/-- The PCR is decoded from the bytes at index 2 exactly when bit 0x10 is set. -/
theorem layout_PCR (l f : Byte) (rest spare : List Byte) (a : MpegTsHeaderAdaptationField)
    (hl : 0 < l.val)
    (h : parsePacketAdaptationField { elems := l :: f :: rest, spare := spare } = .ok a) :
    if f.val / 16 % 2 = 1 then
      ∃ s c, Slice.sliceFrom { elems := l :: f :: rest, spare := spare } 2 = .ok s ∧
        parsePCR s = .ok c ∧ a.PCR = some c
    else a.PCR = none := by
  obtain ⟨a1, a2, a3, r4, h1, h2, h3, h4, h5, -⟩ :=
    parsePacketAdaptationField_chain l f rest spare a hl h
  have e : a.PCR = a1.PCR := by
    rw [(readAdaptationExtension_rest h5).1, (readTransportPrivateData_frame h4).1,
      (readSpliceCountdown_frame h3).1, (readOPCR_frame h2).1]
  rw [e]
  rcases readPCR_inv _ _ _ _ h1 with ⟨hg, hr⟩ | ⟨hg, s, c, hs, hc, hr⟩
  · have hb : ¬ (f.val / 16 % 2 = 1) := by
      rw [← afHead_HasPCR l f, hg]; simp
    simp only [Prod.mk.injEq] at hr
    rw [if_neg hb, hr.1]
    rfl
  · have hb : f.val / 16 % 2 = 1 := (afHead_HasPCR l f).1 hg
    simp only [Prod.mk.injEq] at hr
    rw [if_pos hb, hr.1]
    exact ⟨s, c, hs, hc, rfl⟩

/-- The OPCR is decoded from the bytes at the cursor after the PCR exactly when bit
0x08 is set. -/
theorem layout_OPCR (l f : Byte) (rest spare : List Byte) (a : MpegTsHeaderAdaptationField)
    (hl : 0 < l.val)
    (h : parsePacketAdaptationField { elems := l :: f :: rest, spare := spare } = .ok a) :
    if f.val / 8 % 2 = 1 then
      ∃ s c, Slice.sliceFrom { elems := l :: f :: rest, spare := spare } (cursorAfterPCR f) =
          .ok s ∧ parsePCR s = .ok c ∧ a.OPCR = some c
    else a.OPCR = none := by
  obtain ⟨a1, a2, a3, r4, h1, h2, h3, h4, h5, s1, -⟩ :=
    parsePacketAdaptationField_chain l f rest spare a hl h
  have e : a.OPCR = a2.OPCR := by
    rw [(readAdaptationExtension_rest h5).2.1, (readTransportPrivateData_frame h4).2.1,
      (readSpliceCountdown_frame h3).2.1]
  have e1 : a1.OPCR = none := by rw [(readPCR_frame h1).1]; rfl
  have hgate := (sameHead_gates s1).2.1
  rw [e]
  rcases readOPCR_inv _ _ _ _ h2 with ⟨hg, hr⟩ | ⟨hg, s, c, hs, hc, hr⟩
  · have hb : ¬ (f.val / 8 % 2 = 1) := by
      rw [← afHead_HasOPCR l f, ← hgate, hg]; simp
    simp only [Prod.mk.injEq] at hr
    rw [if_neg hb, hr.1, e1]
  · have hb : f.val / 8 % 2 = 1 := (afHead_HasOPCR l f).1 (hgate ▸ hg)
    simp only [Prod.mk.injEq] at hr
    rw [if_pos hb, hr.1]
    exact ⟨s, c, hs, hc, rfl⟩

/-- The splice countdown is the value of the byte at the cursor after the OPCR exactly
when bit 0x04 is set. -/
theorem layout_splice (l f : Byte) (rest spare : List Byte)
    (a : MpegTsHeaderAdaptationField) (hl : 0 < l.val)
    (h : parsePacketAdaptationField { elems := l :: f :: rest, spare := spare } = .ok a) :
    if f.val / 4 % 2 = 1 then
      ∃ b, Slice.index { elems := l :: f :: rest, spare := spare } (cursorAfterOPCR f) =
          .ok b ∧ a.SpliceCountdown = b.val
    else a.SpliceCountdown = 0 := by
  obtain ⟨a1, a2, a3, r4, h1, h2, h3, h4, h5, s1, s2, -⟩ :=
    parsePacketAdaptationField_chain l f rest spare a hl h
  have e : a.SpliceCountdown = a3.SpliceCountdown := by
    rw [(readAdaptationExtension_rest h5).2.2.1, (readTransportPrivateData_frame h4).2.2.1]
  have e2 : a2.SpliceCountdown = 0 := by
    rw [(readOPCR_frame h2).2.1, (readPCR_frame h1).2.1]; rfl
  have hgate := (sameHead_gates s2).2.2.1
  rw [e]
  rcases readSpliceCountdown_inv _ _ _ _ h3 with ⟨hg, hr⟩ | ⟨hg, b, hb0, hr⟩
  · have hb : ¬ (f.val / 4 % 2 = 1) := by
      rw [← afHead_HasSplicingCountdown l f, ← hgate, hg]; simp
    simp only [Prod.mk.injEq] at hr
    rw [if_neg hb, hr.1, e2]
  · have hb : f.val / 4 % 2 = 1 := (afHead_HasSplicingCountdown l f).1 (hgate ▸ hg)
    simp only [Prod.mk.injEq] at hr
    rw [if_pos hb, hr.1]
    exact ⟨b, hb0, rfl⟩

/-- The private data: when bit 0x02 is set, the byte at the cursor after the splice
countdown is its length `n` and the `n` bytes after it are the block (no block when
`n` is 0); the extension step then starts after them. When the bit is clear nothing is
read and the extension step starts at the same cursor. -/
theorem layout_private (l f : Byte) (rest spare : List Byte)
    (a : MpegTsHeaderAdaptationField) (hl : 0 < l.val)
    (h : parsePacketAdaptationField { elems := l :: f :: rest, spare := spare } = .ok a) :
    ∃ a4,
      sameHead (afHead l f) a4 ∧ a4.AdaptationExtensionField = none ∧
      if f.val / 2 % 2 = 1 then
        ∃ n, Slice.index { elems := l :: f :: rest, spare := spare } (cursorAfterSplice f) =
            .ok n ∧ a.TransportPrivateDataLength = n.val ∧
          (if 0 < n.val then
            ∃ d, Slice.sliceFromTo { elems := l :: f :: rest, spare := spare }
                (cursorAfterSplice f + 1) (cursorAfterSplice f + 1 + n.val) = .ok d ∧
              a.TransportPrivateData = some d
           else a.TransportPrivateData = none) ∧
          readAdaptationExtension { elems := l :: f :: rest, spare := spare } a4
            (cursorAfterSplice f + 1 + n.val) = .ok a
      else
        a.TransportPrivateDataLength = 0 ∧ a.TransportPrivateData = none ∧
        readAdaptationExtension { elems := l :: f :: rest, spare := spare } a4
          (cursorAfterSplice f) = .ok a := by
  obtain ⟨a1, a2, a3, r4, h1, h2, h3, h4, h5, s1, s2, s3, s4, -⟩ :=
    parsePacketAdaptationField_chain l f rest spare a hl h
  have e1 : a.TransportPrivateDataLength = r4.1.TransportPrivateDataLength :=
    (readAdaptationExtension_rest h5).2.2.2.1
  have e2 : a.TransportPrivateData = r4.1.TransportPrivateData :=
    (readAdaptationExtension_rest h5).2.2.2.2
  have z1 : a3.TransportPrivateDataLength = 0 := by
    rw [(readSpliceCountdown_frame h3).2.2.1, (readOPCR_frame h2).2.2.1,
      (readPCR_frame h1).2.2.1]; rfl
  have z2 : a3.TransportPrivateData = none := by
    rw [(readSpliceCountdown_frame h3).2.2.2.1, (readOPCR_frame h2).2.2.2.1,
      (readPCR_frame h1).2.2.2.1]; rfl
  have z3 : r4.1.AdaptationExtensionField = none := by
    rw [(readTransportPrivateData_frame h4).2.2.2, (readSpliceCountdown_frame h3).2.2.2.2,
      (readOPCR_frame h2).2.2.2.2, (readPCR_frame h1).2.2.2.2]; rfl
  have hgate := (sameHead_gates s3).2.2.2.1
  refine ⟨r4.1, s4, z3, ?_⟩
  rw [e1, e2]
  rcases readTransportPrivateData_inv _ _ _ _ h4 with
    ⟨hg, hr⟩ | ⟨hg, n, hn, ⟨hz, hr⟩ | ⟨hpos, d, hd, hr⟩⟩
  · have hb : ¬ (f.val / 2 % 2 = 1) := by
      rw [← afHead_HasTransportPrivateData l f, ← hgate, hg]; simp
    rw [if_neg hb]
    rw [hr] at h5 ⊢
    exact ⟨z1, z2, h5⟩
  · have hb : f.val / 2 % 2 = 1 := (afHead_HasTransportPrivateData l f).1 (hgate ▸ hg)
    rw [if_pos hb]
    rw [hr] at h5 ⊢
    refine ⟨n, hn, hz.symm, ?_, ?_⟩
    · rw [if_neg (by omega)]
      exact z2
    · simpa [hz] using h5
  · have hb : f.val / 2 % 2 = 1 := (afHead_HasTransportPrivateData l f).1 (hgate ▸ hg)
    rw [if_pos hb]
    rw [hr] at h5 ⊢
    refine ⟨n, hn, rfl, ?_, h5⟩
    rw [if_pos hpos]
    exact ⟨d, hd, rfl⟩

theorem and_two_pow_pos_iff (n k : Nat) : 0 < n &&& 2 ^ k ↔ n / 2 ^ k % 2 = 1 := by
  rw [← and_two_pow_ne_zero_iff]
  omega

/-- The 15-bit legal time window offset assembled from two bytes. -/
theorem ltwOffset_eq (b0 b1 : Byte) :
    u16 (u16 (b0.val &&& 0x7f) <<< 8) ||| u16 b1.val = b0.val % 128 * 256 + b1.val := by
  have h0 := b0.isLt
  have h1 := b1.isLt
  have e : b0.val &&& 0x7f = b0.val % 2 ^ 7 := Nat.and_pow_two_sub_one_eq_mod b0.val 7
  rw [e]
  simp only [u16, Nat.shiftLeft_eq, Nat.reducePow]
  have a1 : b0.val % 128 % 65536 = b0.val % 128 := by omega
  have a2 : b0.val % 128 * 256 % 65536 = b0.val % 128 * 256 := by omega
  have a3 : b1.val % 65536 = b1.val := by omega
  rw [a1, a2, a3]
  exact or_eq_add_of_dvd _ _ 8 (by omega) (by omega)

/-- The 22-bit piecewise rate assembled from three bytes. -/
theorem piecewiseRate_eq (b0 b1 b2 : Byte) :
    ((b0.val &&& 0x3f) <<< 16 ||| b1.val <<< 8 ||| b2.val) % 2 ^ 32 =
      b0.val % 64 * 65536 + b1.val * 256 + b2.val := by
  have h0 := b0.isLt
  have h1 := b1.isLt
  have h2 := b2.isLt
  have e : b0.val &&& 0x3f = b0.val % 2 ^ 6 := Nat.and_pow_two_sub_one_eq_mod b0.val 6
  rw [e]
  simp only [Nat.shiftLeft_eq, Nat.reducePow]
  rw [or_eq_add_of_dvd (b0.val % 64 * 65536) (b1.val * 256) 16 (by omega) (by omega),
    or_eq_add_of_dvd _ b2.val 8 (by omega) (by omega)]
  omega

set_option maxRecDepth 100000 in
/-- The splice type: the high four bits of a byte. -/
theorem spliceType_eq (b0 : Byte) : u8 (b0.val &&& 0xf0) >>> 4 = b0.val / 16 := by
  revert b0
  decide

/-! ## The extension field, step by step -/

theorem readLegalTimeWindow_inv (i : Slice) (e : PacketAdaptationExtensionField)
    (offset : Nat) (r : PacketAdaptationExtensionField × Nat)
    (h : readLegalTimeWindow i e offset = .ok r) :
    (e.HasLegalTimeWindow = false ∧ r = (e, offset)) ∨
    (e.HasLegalTimeWindow = true ∧ ∃ b0 b1, i.index offset = .ok b0 ∧
      i.index (offset + 1) = .ok b1 ∧
      r = ({ e with
              LegalTimeWindowIsValid := decide (b0.val &&& 0x80 > 0)
              LegalTimeWindowOffset := u16 (u16 (b0.val &&& 0x7f) <<< 8) ||| u16 b1.val },
           offset + 2)) := by
  unfold readLegalTimeWindow at h
  split at h
  · right
    simp only [bind_eq_ok, pure_eq_ok] at h
    obtain ⟨b0, h0, b1, h1, rfl⟩ := h
    exact ⟨by assumption, b0, b1, h0, h1, rfl⟩
  · left
    simp only [pure_eq_ok] at h
    exact ⟨by simp_all, h.symm⟩

theorem readPiecewiseRate_inv (i : Slice) (e : PacketAdaptationExtensionField)
    (offset : Nat) (r : PacketAdaptationExtensionField × Nat)
    (h : readPiecewiseRate i e offset = .ok r) :
    (e.HasPiecewiseRate = false ∧ r = (e, offset)) ∨
    (e.HasPiecewiseRate = true ∧ ∃ b0 b1 b2, i.index offset = .ok b0 ∧
      i.index (offset + 1) = .ok b1 ∧ i.index (offset + 2) = .ok b2 ∧
      r = ({ e with
              PiecewiseRate := ((b0.val &&& 0x3f) <<< 16 ||| b1.val <<< 8 ||| b2.val)
                % 2 ^ 32 },
           offset + 3)) := by
  unfold readPiecewiseRate at h
  split at h
  · right
    simp only [bind_eq_ok, pure_eq_ok] at h
    obtain ⟨b0, h0, b1, h1, b2, h2, rfl⟩ := h
    exact ⟨by assumption, b0, b1, b2, h0, h1, h2, rfl⟩
  · left
    simp only [pure_eq_ok] at h
    exact ⟨by simp_all, h.symm⟩

theorem readSeamlessSplice_inv (i : Slice) (e : PacketAdaptationExtensionField)
    (offset : Nat) (r : PacketAdaptationExtensionField)
    (h : readSeamlessSplice i e offset = .ok r) :
    (e.HasSeamlessSplice = false ∧ r = e) ∨
    (e.HasSeamlessSplice = true ∧ ∃ b0 s c, i.index offset = .ok b0 ∧
      i.sliceFrom offset = .ok s ∧ parsePTSOrDTS s = .ok c ∧
      r = { e with SpliceType := u8 (b0.val &&& 0xf0) >>> 4, DTSNextAccessUnit := some c }) := by
  unfold readSeamlessSplice at h
  split at h
  · right
    simp only [bind_eq_ok, pure_eq_ok] at h
    obtain ⟨b0, h0, s, hs, c, hc, rfl⟩ := h
    exact ⟨by assumption, b0, s, c, h0, hs, hc, rfl⟩
  · left
    simp only [pure_eq_ok] at h
    exact ⟨by simp_all, h.symm⟩

/-- The `// Adaptation extension` block, taken apart: nothing when the gate is clear;
otherwise a length byte, and when that is not zero a flags byte and the three gated
sub-blocks, each continuing from the cursor the previous one left. -/
theorem readAdaptationExtension_inv (i : Slice) (a : MpegTsHeaderAdaptationField)
    (offset : Nat) (r : MpegTsHeaderAdaptationField)
    (h : readAdaptationExtension i a offset = .ok r) :
    (a.HasAdaptationExtensionField = false ∧ r = a) ∨
    (a.HasAdaptationExtensionField = true ∧ ∃ lb, i.index offset = .ok lb ∧
      ((lb.val = 0 ∧ r = { a with AdaptationExtensionField := some { Length := 0 } }) ∨
       (0 < lb.val ∧ ∃ g r1 r2 e3, i.index (offset + 1) = .ok g ∧
          readLegalTimeWindow i (extHead lb g) (offset + 1 + 1) = .ok r1 ∧
          readPiecewiseRate i r1.1 r1.2 = .ok r2 ∧
          readSeamlessSplice i r2.1 r2.2 = .ok e3 ∧
          r = { a with AdaptationExtensionField := some e3 }))) := by
  unfold readAdaptationExtension at h
  split at h
  · right
    simp only [bind_eq_ok] at h
    obtain ⟨lb, hlb, h⟩ := h
    refine ⟨by assumption, lb, hlb, ?_⟩
    split at h
    · right
      simp only [bind_eq_ok, pure_eq_ok] at h
      obtain ⟨g, hg, r1, h1, r2, h2, e3, h3, rfl⟩ := h
      exact ⟨by assumption, g, r1, r2, e3, hg, h1, h2, h3, rfl⟩
    · left
      simp only [pure_eq_ok] at h
      have h0 : lb.val = 0 := by omega
      refine ⟨h0, ?_⟩
      rw [← h, h0]
  · left
    simp only [pure_eq_ok] at h
    exact ⟨by simp_all, h.symm⟩

theorem extHead_gates (lb g : Byte) :
    ((extHead lb g).HasLegalTimeWindow = true ↔ g.val / 128 % 2 = 1) ∧
    ((extHead lb g).HasPiecewiseRate = true ↔ g.val / 64 % 2 = 1) ∧
    ((extHead lb g).HasSeamlessSplice = true ↔ g.val / 32 % 2 = 1) := by
  have b7 := and_two_pow_pos_iff g.val 7
  have b6 := and_two_pow_pos_iff g.val 6
  have b5 := and_two_pow_pos_iff g.val 5
  simp only [Nat.reducePow] at b7 b6 b5
  simp only [extHead, decide_eq_true_eq, gt_iff_lt]
  exact ⟨b7, b6, b5⟩

/-- The legal time window sub-block on an extension field that has only its length and
gates set. -/
theorem readLegalTimeWindow_spec (i : Slice) (lb g : Byte) (offset : Nat)
    (r : PacketAdaptationExtensionField × Nat)
    (h : readLegalTimeWindow i (extHead lb g) offset = .ok r) :
    r.2 = offset + (if g.val / 128 % 2 = 1 then 2 else 0) ∧
    r.1.Length = lb.val ∧
    (r.1.HasLegalTimeWindow = true ↔ g.val / 128 % 2 = 1) ∧
    (r.1.HasPiecewiseRate = true ↔ g.val / 64 % 2 = 1) ∧
    (r.1.HasSeamlessSplice = true ↔ g.val / 32 % 2 = 1) ∧
    r.1.PiecewiseRate = 0 ∧ r.1.SpliceType = 0 ∧ r.1.DTSNextAccessUnit = none ∧
    (if g.val / 128 % 2 = 1 then
      ∃ b0 b1, i.index offset = .ok b0 ∧ i.index (offset + 1) = .ok b1 ∧
        (r.1.LegalTimeWindowIsValid = true ↔ b0.val / 128 % 2 = 1) ∧
        r.1.LegalTimeWindowOffset = b0.val % 128 * 256 + b1.val
     else r.1.LegalTimeWindowIsValid = false ∧ r.1.LegalTimeWindowOffset = 0) := by
  obtain ⟨g7, g6, g5⟩ := extHead_gates lb g
  rcases readLegalTimeWindow_inv i _ offset r h with ⟨hg, rfl⟩ | ⟨hg, b0, b1, h0, h1, rfl⟩
  · have hb : ¬ (g.val / 128 % 2 = 1) := by rw [← g7, hg]; simp
    simp only [if_neg hb, Nat.add_zero, true_and]
    exact ⟨rfl, g7, g6, g5, rfl, rfl, rfl, rfl, rfl⟩
  · have hb : g.val / 128 % 2 = 1 := g7.1 hg
    simp only [if_pos hb, true_and]
    refine ⟨rfl, g7, g6, g5, rfl, rfl, rfl, b0, b1, h0, h1, ?_, ltwOffset_eq b0 b1⟩
    have b7 := and_two_pow_pos_iff b0.val 7
    simp only [Nat.reducePow] at b7
    simp only [decide_eq_true_eq, gt_iff_lt]
    exact b7

/-- The piecewise rate sub-block: what it reads and what it leaves alone. -/
theorem readPiecewiseRate_spec (i : Slice) (e : PacketAdaptationExtensionField)
    (offset : Nat) (r : PacketAdaptationExtensionField × Nat)
    (h : readPiecewiseRate i e offset = .ok r) :
    r.2 = offset + (if e.HasPiecewiseRate = true then 3 else 0) ∧
    r.1.Length = e.Length ∧
    r.1.HasLegalTimeWindow = e.HasLegalTimeWindow ∧
    r.1.HasPiecewiseRate = e.HasPiecewiseRate ∧
    r.1.HasSeamlessSplice = e.HasSeamlessSplice ∧
    r.1.LegalTimeWindowIsValid = e.LegalTimeWindowIsValid ∧
    r.1.LegalTimeWindowOffset = e.LegalTimeWindowOffset ∧
    r.1.SpliceType = e.SpliceType ∧ r.1.DTSNextAccessUnit = e.DTSNextAccessUnit ∧
    (if e.HasPiecewiseRate = true then
      ∃ c0 c1 c2, i.index offset = .ok c0 ∧ i.index (offset + 1) = .ok c1 ∧
        i.index (offset + 2) = .ok c2 ∧
        r.1.PiecewiseRate = c0.val % 64 * 65536 + c1.val * 256 + c2.val
     else r.1.PiecewiseRate = e.PiecewiseRate) := by
  rcases readPiecewiseRate_inv i e offset r h with
    ⟨hg, rfl⟩ | ⟨hg, c0, c1, c2, h0, h1, h2, rfl⟩
  · simp [hg]
  · simp only [hg, if_true, true_and]
    exact ⟨c0, c1, c2, h0, h1, h2, piecewiseRate_eq c0 c1 c2⟩

/-- The seamless splice sub-block: what it reads and what it leaves alone. -/
theorem readSeamlessSplice_spec (i : Slice) (e : PacketAdaptationExtensionField)
    (offset : Nat) (r : PacketAdaptationExtensionField)
    (h : readSeamlessSplice i e offset = .ok r) :
    r.Length = e.Length ∧
    r.HasLegalTimeWindow = e.HasLegalTimeWindow ∧
    r.HasPiecewiseRate = e.HasPiecewiseRate ∧
    r.HasSeamlessSplice = e.HasSeamlessSplice ∧
    r.LegalTimeWindowIsValid = e.LegalTimeWindowIsValid ∧
    r.LegalTimeWindowOffset = e.LegalTimeWindowOffset ∧
    r.PiecewiseRate = e.PiecewiseRate ∧
    (if e.HasSeamlessSplice = true then
      ∃ d0 s c, i.index offset = .ok d0 ∧ i.sliceFrom offset = .ok s ∧
        parsePTSOrDTS s = .ok c ∧ r.SpliceType = d0.val / 16 ∧
        r.DTSNextAccessUnit = some c
     else r.SpliceType = e.SpliceType ∧ r.DTSNextAccessUnit = e.DTSNextAccessUnit) := by
  rcases readSeamlessSplice_inv i e offset r h with ⟨hg, rfl⟩ | ⟨hg, d0, s, c, h0, hs, hc, rfl⟩
  · simp [hg]
  · simp only [hg, if_true, true_and]
    exact ⟨d0, s, c, h0, hs, hc, spliceType_eq d0, rfl⟩

/-- A slice `s[lo:hi]` that Go accepts has `hi - lo` elements. -/
theorem sliceFromTo_len (s d : Slice) (lo hi : Nat) (h : s.sliceFromTo lo hi = .ok d) :
    d.len = hi - lo := by
  unfold Slice.sliceFromTo at h
  split at h
  · rename_i hc
    injection h with h
    subst h
    simp only [Slice.len, Slice.cap, List.length_take, List.length_drop, List.length_append]
      at hc ⊢
    omega
  · cases h

theorem sliceFromTo_panic (s : Slice) (lo hi : Nat) (h : s.cap < hi) :
    s.sliceFromTo lo hi = .error .runtimePanic := by
  unfold Slice.sliceFromTo
  rw [if_neg (by omega)]

theorem sliceFromTo_ok (s : Slice) (lo hi : Nat) (h1 : lo ≤ hi) (h2 : hi ≤ s.cap) :
    ∃ d, s.sliceFromTo lo hi = .ok d := by
  unfold Slice.sliceFromTo
  rw [if_pos ⟨h1, h2⟩]
  exact ⟨_, rfl⟩

/-- The extension field: when bit 0x01 is set, its length byte is the byte at the
cursor after the private data; when the bit is clear there is no extension field. -/
theorem layout_extension (l f : Byte) (rest spare : List Byte)
    (a : MpegTsHeaderAdaptationField) (hl : 0 < l.val)
    (h : parsePacketAdaptationField { elems := l :: f :: rest, spare := spare } = .ok a) :
    if f.val % 2 = 1 then
      ∃ lb e, Slice.index { elems := l :: f :: rest, spare := spare }
          (cursorAfterSplice f +
            (if f.val / 2 % 2 = 1 then 1 + a.TransportPrivateDataLength else 0)) = .ok lb ∧
        a.AdaptationExtensionField = some e ∧ e.Length = lb.val
    else a.AdaptationExtensionField = none := by
  obtain ⟨a4, s4, z4, hp⟩ := layout_private l f rest spare a hl h
  have hgate := (sameHead_gates s4).2.2.2.2
  have key : ∀ off, readAdaptationExtension { elems := l :: f :: rest, spare := spare } a4 off =
      .ok a →
      if f.val % 2 = 1 then
        ∃ lb e, Slice.index { elems := l :: f :: rest, spare := spare } off = .ok lb ∧
          a.AdaptationExtensionField = some e ∧ e.Length = lb.val
      else a.AdaptationExtensionField = none := by
    intro off hx
    rcases readAdaptationExtension_inv _ _ _ _ hx with
      ⟨hg, hr⟩ | ⟨hg, lb, hlb, ⟨hz, hr⟩ | ⟨hpos, g, r1, r2, e3, hg2, h1, h2, h3, hr⟩⟩
    · have hb : ¬ (f.val % 2 = 1) := by
        rw [← afHead_HasAdaptationExtensionField l f, ← hgate, hg]; simp
      rw [if_neg hb, hr, z4]
    · have hb : f.val % 2 = 1 := (afHead_HasAdaptationExtensionField l f).1 (hgate ▸ hg)
      rw [if_pos hb, hr]
      exact ⟨lb, _, hlb, rfl, hz.symm⟩
    · have hb : f.val % 2 = 1 := (afHead_HasAdaptationExtensionField l f).1 (hgate ▸ hg)
      rw [if_pos hb, hr]
      refine ⟨lb, e3, hlb, rfl, ?_⟩
      obtain ⟨-, l1, -⟩ := readLegalTimeWindow_spec _ lb g _ r1 h1
      obtain ⟨-, l2, -⟩ := readPiecewiseRate_spec _ _ _ r2 h2
      obtain ⟨l3, -⟩ := readSeamlessSplice_spec _ _ _ e3 h3
      rw [l3, l2, l1]
  by_cases hb : f.val / 2 % 2 = 1
  · rw [if_pos hb] at hp
    obtain ⟨n, -, hn, -, hx⟩ := hp
    rw [if_pos hb, hn]
    have e : cursorAfterSplice f + (1 + n.val) = cursorAfterSplice f + 1 + n.val := by omega
    rw [e]
    exact key _ hx
  · rw [if_neg hb] at hp
    rw [if_neg hb, Nat.add_zero]
    exact key _ hp.2.2

/-- With only the private-data bit set among the five sub-field bits, the decoder
reads the length byte at index 2 and, when it is not zero, slices that many bytes
after it. -/
theorem parsePacketAdaptationField_private_only (l f n : Byte) (rest spare : List Byte)
    (hl : 0 < l.val) (hf : f.val % 32 = 2) :
    parsePacketAdaptationField { elems := l :: f :: n :: rest, spare := spare } =
      if 0 < n.val then
        (Slice.sliceFromTo { elems := l :: f :: n :: rest, spare := spare } 3 (3 + n.val)).map
          fun d => { afHead l f with
                      TransportPrivateDataLength := n.val, TransportPrivateData := some d }
      else .ok (afHead l f) := by
  have g1 : (afHead l f).HasPCR = false := by
    rw [Bool.eq_false_iff, Ne, afHead_HasPCR]; omega
  have g2 : (afHead l f).HasOPCR = false := by
    rw [Bool.eq_false_iff, Ne, afHead_HasOPCR]; omega
  have g3 : (afHead l f).HasSplicingCountdown = false := by
    rw [Bool.eq_false_iff, Ne, afHead_HasSplicingCountdown]; omega
  have g4 : (afHead l f).HasTransportPrivateData = true := by
    rw [afHead_HasTransportPrivateData]; omega
  have g5 : (afHead l f).HasAdaptationExtensionField = false := by
    rw [Bool.eq_false_iff, Ne, afHead_HasAdaptationExtensionField]; omega
  have hi : Slice.index { elems := l :: f :: n :: rest, spare := spare } 2 = .ok n := by
    rw [index_succ, index_succ, index_zero]
  rw [parsePacketAdaptationField_cons l f _ spare hl, readPCR_of_false _ _ _ g1, ok_bind,
    readOPCR_of_false _ _ _ g2, ok_bind, readSpliceCountdown_of_false _ _ _ g3, ok_bind]
  simp only
  unfold readTransportPrivateData
  rw [if_pos g4, hi, ok_bind]
  simp only
  by_cases hn : 0 < n.val
  · rw [if_pos hn, if_pos hn]
    cases hd : Slice.sliceFromTo { elems := l :: f :: n :: rest, spare := spare } (2 + 1)
        (2 + 1 + n.val) with
    | error e => rfl
    | ok d =>
      simp only [ok_bind, Except.map]
      exact readAdaptationExtension_of_false _ _ _ g5
  · rw [if_neg hn, if_neg hn]
    have h0 : n.val = 0 := by omega
    have g6 : ({ afHead l f with TransportPrivateDataLength := n.val } :
        MpegTsHeaderAdaptationField).HasAdaptationExtensionField = false := g5
    refine (readAdaptationExtension_of_false
      { elems := l :: f :: n :: rest, spare := spare } _ (2 + 1) g6).trans ?_
    rw [h0]
    rfl

set_option maxRecDepth 100000 in
/-- A byte masked with one bit is 0 or the mask. -/
theorem mask_values (f : Byte) :
    f.val &&& 0x80 = 128 * (f.val / 128 % 2) ∧ f.val &&& 0x40 = 64 * (f.val / 64 % 2) ∧
    f.val &&& 0x20 = 32 * (f.val / 32 % 2) ∧ f.val &&& 0x10 = 16 * (f.val / 16 % 2) ∧
    f.val &&& 0x08 = 8 * (f.val / 8 % 2) ∧ f.val &&& 0x04 = 4 * (f.val / 4 % 2) ∧
    f.val &&& 0x02 = 2 * (f.val / 2 % 2) ∧ f.val &&& 0x01 = f.val % 2 := by
  revert f
  decide

/-! ## Reads after byte 0 do not depend on byte 0 -/

theorem index_head_indep (b b2 : Byte) (xs sp : List Byte) (k : Nat) (h : 1 ≤ k) :
    Slice.index { elems := b2 :: xs, spare := sp } k =
      Slice.index { elems := b :: xs, spare := sp } k := by
  obtain ⟨j, rfl⟩ : ∃ j, k = j + 1 := ⟨k - 1, by omega⟩
  rw [index_succ, index_succ]

theorem sliceFrom_head_indep (b b2 : Byte) (xs sp : List Byte) (k : Nat) (h : 1 ≤ k) :
    Slice.sliceFrom { elems := b2 :: xs, spare := sp } k =
      Slice.sliceFrom { elems := b :: xs, spare := sp } k := by
  obtain ⟨j, rfl⟩ : ∃ j, k = j + 1 := ⟨k - 1, by omega⟩
  simp [Slice.sliceFrom, Slice.len]

theorem sliceFromTo_head_indep (b b2 : Byte) (xs sp : List Byte) (lo hi : Nat)
    (h : 1 ≤ lo) :
    Slice.sliceFromTo { elems := b2 :: xs, spare := sp } lo hi =
      Slice.sliceFromTo { elems := b :: xs, spare := sp } lo hi := by
  obtain ⟨j, rfl⟩ : ∃ j, lo = j + 1 := ⟨lo - 1, by omega⟩
  unfold Slice.sliceFromTo
  by_cases hc : j + 1 ≤ hi
  · obtain ⟨m, rfl⟩ : ∃ m, hi = m + 1 := ⟨hi - 1, by omega⟩
    simp [Slice.cap]
  · have h1 : ¬ (j + 1 ≤ hi ∧ hi ≤ Slice.cap { elems := b2 :: xs, spare := sp }) :=
      fun hh => hc hh.1
    have h2 : ¬ (j + 1 ≤ hi ∧ hi ≤ Slice.cap { elems := b :: xs, spare := sp }) :=
      fun hh => hc hh.1
    rw [if_neg h1, if_neg h2]

/-! ## The cursor only moves forward -/

theorem readPCR_cursor {i : Slice} {a : MpegTsHeaderAdaptationField} {offset : Nat}
    {r : MpegTsHeaderAdaptationField × Nat} (h : readPCR i a offset = .ok r) :
    offset ≤ r.2 := by
  rcases readPCR_inv i a offset r h with ⟨-, rfl⟩ | ⟨-, s, c, -, -, rfl⟩ <;> simp

theorem readOPCR_cursor {i : Slice} {a : MpegTsHeaderAdaptationField} {offset : Nat}
    {r : MpegTsHeaderAdaptationField × Nat} (h : readOPCR i a offset = .ok r) :
    offset ≤ r.2 := by
  rcases readOPCR_inv i a offset r h with ⟨-, rfl⟩ | ⟨-, s, c, -, -, rfl⟩ <;> simp

theorem readSpliceCountdown_cursor {i : Slice} {a : MpegTsHeaderAdaptationField}
    {offset : Nat} {r : MpegTsHeaderAdaptationField × Nat}
    (h : readSpliceCountdown i a offset = .ok r) : offset ≤ r.2 := by
  rcases readSpliceCountdown_inv i a offset r h with ⟨-, rfl⟩ | ⟨-, b, -, rfl⟩ <;> simp

theorem readTransportPrivateData_cursor {i : Slice} {a : MpegTsHeaderAdaptationField}
    {offset : Nat} {r : MpegTsHeaderAdaptationField × Nat}
    (h : readTransportPrivateData i a offset = .ok r) : offset ≤ r.2 := by
  rcases readTransportPrivateData_inv i a offset r h with
    ⟨-, rfl⟩ | ⟨-, b, -, ⟨-, rfl⟩ | ⟨-, d, -, rfl⟩⟩ <;> simp
  omega

theorem readLegalTimeWindow_cursor {i : Slice} {e : PacketAdaptationExtensionField}
    {offset : Nat} {r : PacketAdaptationExtensionField × Nat}
    (h : readLegalTimeWindow i e offset = .ok r) : offset ≤ r.2 := by
  rcases readLegalTimeWindow_inv i e offset r h with ⟨-, rfl⟩ | ⟨-, b0, b1, -, -, rfl⟩ <;> simp

theorem readPiecewiseRate_cursor {i : Slice} {e : PacketAdaptationExtensionField}
    {offset : Nat} {r : PacketAdaptationExtensionField × Nat}
    (h : readPiecewiseRate i e offset = .ok r) : offset ≤ r.2 := by
  rcases readPiecewiseRate_inv i e offset r h with
    ⟨-, rfl⟩ | ⟨-, b0, b1, b2, -, -, -, rfl⟩ <;> simp

/-! ## Each step, with another byte 0 and another length -/

theorem map_ok {α β : Type} (g : α → β) (a : α) :
    Except.map g (.ok a : Except Failure α) = .ok (g a) := rfl

theorem map_error {α β : Type} (g : α → β) (e : Failure) :
    Except.map g (.error e : Except Failure α) = .error e := rfl

theorem error_bind {α β : Type} (e : Failure) (f : α → Except Failure β) :
    ((.error e : Except Failure α) >>= f) = .error e := rfl

theorem readPCR_head_indep (b b2 : Byte) (xs sp : List Byte)
    (a : MpegTsHeaderAdaptationField) (x offset : Nat) (h : 1 ≤ offset) :
    readPCR { elems := b2 :: xs, spare := sp } (withLength x a) offset =
      (readPCR { elems := b :: xs, spare := sp } a offset).map
        (fun r => (withLength x r.1, r.2)) := by
  unfold readPCR
  have hg : (withLength x a).HasPCR = a.HasPCR := rfl
  rw [hg, sliceFrom_head_indep b b2 xs sp offset h]
  by_cases hc : a.HasPCR = true
  · rw [if_pos hc, if_pos hc]
    cases Slice.sliceFrom { elems := b :: xs, spare := sp } offset with
    | error e => rfl
    | ok s =>
      rw [ok_bind, ok_bind]
      cases parsePCR s with
      | error e => rfl
      | ok c => rfl
  · rw [if_neg hc, if_neg hc]
    rfl

theorem readOPCR_head_indep (b b2 : Byte) (xs sp : List Byte)
    (a : MpegTsHeaderAdaptationField) (x offset : Nat) (h : 1 ≤ offset) :
    readOPCR { elems := b2 :: xs, spare := sp } (withLength x a) offset =
      (readOPCR { elems := b :: xs, spare := sp } a offset).map
        (fun r => (withLength x r.1, r.2)) := by
  unfold readOPCR
  have hg : (withLength x a).HasOPCR = a.HasOPCR := rfl
  rw [hg, sliceFrom_head_indep b b2 xs sp offset h]
  by_cases hc : a.HasOPCR = true
  · rw [if_pos hc, if_pos hc]
    cases Slice.sliceFrom { elems := b :: xs, spare := sp } offset with
    | error e => rfl
    | ok s =>
      rw [ok_bind, ok_bind]
      cases parsePCR s with
      | error e => rfl
      | ok c => rfl
  · rw [if_neg hc, if_neg hc]
    rfl

theorem readSpliceCountdown_head_indep (b b2 : Byte) (xs sp : List Byte)
    (a : MpegTsHeaderAdaptationField) (x offset : Nat) (h : 1 ≤ offset) :
    readSpliceCountdown { elems := b2 :: xs, spare := sp } (withLength x a) offset =
      (readSpliceCountdown { elems := b :: xs, spare := sp } a offset).map
        (fun r => (withLength x r.1, r.2)) := by
  unfold readSpliceCountdown
  have hg : (withLength x a).HasSplicingCountdown = a.HasSplicingCountdown := rfl
  rw [hg, index_head_indep b b2 xs sp offset h]
  by_cases hc : a.HasSplicingCountdown = true
  · rw [if_pos hc, if_pos hc]
    cases Slice.index { elems := b :: xs, spare := sp } offset with
    | error e => rfl
    | ok s => rfl
  · rw [if_neg hc, if_neg hc]
    rfl

theorem readTransportPrivateData_head_indep (b b2 : Byte) (xs sp : List Byte)
    (a : MpegTsHeaderAdaptationField) (x offset : Nat) (h : 1 ≤ offset) :
    readTransportPrivateData { elems := b2 :: xs, spare := sp } (withLength x a) offset =
      (readTransportPrivateData { elems := b :: xs, spare := sp } a offset).map
        (fun r => (withLength x r.1, r.2)) := by
  unfold readTransportPrivateData
  have hg : (withLength x a).HasTransportPrivateData = a.HasTransportPrivateData := rfl
  rw [hg, index_head_indep b b2 xs sp offset h]
  by_cases hc : a.HasTransportPrivateData = true
  · rw [if_pos hc, if_pos hc]
    cases Slice.index { elems := b :: xs, spare := sp } offset with
    | error e => rfl
    | ok n =>
      rw [ok_bind, ok_bind]
      simp only
      by_cases hn : 0 < n.val
      · have hn2 : (withLength x a).TransportPrivateDataLength = a.TransportPrivateDataLength :=
          rfl
        rw [if_pos hn, if_pos hn,
          sliceFromTo_head_indep b b2 xs sp (offset + 1) (offset + 1 + n.val) (by omega)]
        cases Slice.sliceFromTo { elems := b :: xs, spare := sp } (offset + 1)
            (offset + 1 + n.val) with
        | error e => rfl
        | ok d => rfl
      · rw [if_neg hn, if_neg hn]
        rfl
  · rw [if_neg hc, if_neg hc]
    rfl

theorem readLegalTimeWindow_head_indep (b b2 : Byte) (xs sp : List Byte)
    (e : PacketAdaptationExtensionField) (offset : Nat) (h : 1 ≤ offset) :
    readLegalTimeWindow { elems := b2 :: xs, spare := sp } e offset =
      readLegalTimeWindow { elems := b :: xs, spare := sp } e offset := by
  unfold readLegalTimeWindow
  rw [index_head_indep b b2 xs sp offset h,
    index_head_indep b b2 xs sp (offset + 1) (by omega)]

theorem readPiecewiseRate_head_indep (b b2 : Byte) (xs sp : List Byte)
    (e : PacketAdaptationExtensionField) (offset : Nat) (h : 1 ≤ offset) :
    readPiecewiseRate { elems := b2 :: xs, spare := sp } e offset =
      readPiecewiseRate { elems := b :: xs, spare := sp } e offset := by
  unfold readPiecewiseRate
  rw [index_head_indep b b2 xs sp offset h,
    index_head_indep b b2 xs sp (offset + 1) (by omega),
    index_head_indep b b2 xs sp (offset + 2) (by omega)]

theorem readSeamlessSplice_head_indep (b b2 : Byte) (xs sp : List Byte)
    (e : PacketAdaptationExtensionField) (offset : Nat) (h : 1 ≤ offset) :
    readSeamlessSplice { elems := b2 :: xs, spare := sp } e offset =
      readSeamlessSplice { elems := b :: xs, spare := sp } e offset := by
  unfold readSeamlessSplice
  rw [index_head_indep b b2 xs sp offset h, sliceFrom_head_indep b b2 xs sp offset h]

theorem readAdaptationExtension_head_indep (b b2 : Byte) (xs sp : List Byte)
    (a : MpegTsHeaderAdaptationField) (x offset : Nat) (h : 1 ≤ offset) :
    readAdaptationExtension { elems := b2 :: xs, spare := sp } (withLength x a) offset =
      (readAdaptationExtension { elems := b :: xs, spare := sp } a offset).map
        (withLength x) := by
  unfold readAdaptationExtension
  have hg : (withLength x a).HasAdaptationExtensionField = a.HasAdaptationExtensionField :=
    rfl
  rw [hg, index_head_indep b b2 xs sp offset h]
  by_cases hc : a.HasAdaptationExtensionField = true
  · rw [if_pos hc, if_pos hc]
    cases Slice.index { elems := b :: xs, spare := sp } offset with
    | error e => rfl
    | ok lb =>
      rw [ok_bind, ok_bind]
      try simp only
      by_cases hn : 0 < lb.val
      · rw [if_pos hn, if_pos hn,
          index_head_indep b b2 xs sp (offset + 1) (by omega)]
        cases Slice.index { elems := b :: xs, spare := sp } (offset + 1) with
        | error e => rfl
        | ok g =>
          rw [ok_bind, ok_bind]
          try simp only
          rw [readLegalTimeWindow_head_indep b b2 xs sp _ (offset + 1 + 1) (by omega)]
          cases h1 : readLegalTimeWindow { elems := b :: xs, spare := sp }
              { Length := lb.val
                HasLegalTimeWindow := decide (g.val &&& 0x80 > 0)
                HasPiecewiseRate := decide (g.val &&& 0x40 > 0)
                HasSeamlessSplice := decide (g.val &&& 0x20 > 0) } (offset + 1 + 1) with
          | error e => rfl
          | ok r1 =>
            have c1 := readLegalTimeWindow_cursor h1
            rw [ok_bind, ok_bind]
            try simp only
            rw [readPiecewiseRate_head_indep b b2 xs sp r1.1 r1.2 (by omega)]
            cases h2 : readPiecewiseRate { elems := b :: xs, spare := sp } r1.1 r1.2 with
            | error e => rfl
            | ok r2 =>
              have c2 := readPiecewiseRate_cursor h2
              rw [ok_bind, ok_bind]
              try simp only
              rw [readSeamlessSplice_head_indep b b2 xs sp r2.1 r2.2 (by omega)]
              cases readSeamlessSplice { elems := b :: xs, spare := sp } r2.1 r2.2 with
              | error e => rfl
              | ok e3 => rfl
      · rw [if_neg hn, if_neg hn]
        rfl
  · rw [if_neg hc, if_neg hc]
    rfl

/-- Binding after a mapped call. -/
theorem bind_map_congr {α β : Type} (x : Except Failure α) (g : α → α)
    (f1 f2 : α → Except Failure β) (k : β → β)
    (h : ∀ r, x = .ok r → f2 (g r) = (f1 r).map k) :
    (x.map g >>= f2) = (x >>= f1).map k := by
  cases x with
  | error e => rfl
  | ok r => exact h r rfl

/-- The length byte is used only to tell zero from non-zero: with another non-zero
length byte the decoder ends the same way, and a decoded field differs only in
`AdaptationFieldLength`. -/
theorem parsePacketAdaptationField_length_indep (l l2 f : Byte) (rest spare : List Byte)
    (hl : 0 < l.val) (hl2 : 0 < l2.val) :
    parsePacketAdaptationField { elems := l2 :: f :: rest, spare := spare } =
      (parsePacketAdaptationField { elems := l :: f :: rest, spare := spare }).map
        (withLength l2.val) := by
  rw [parsePacketAdaptationField_cons l f rest spare hl,
    parsePacketAdaptationField_cons l2 f rest spare hl2]
  have e0 : afHead l2 f = withLength l2.val (afHead l f) := rfl
  rw [e0, readPCR_head_indep l l2 (f :: rest) spare (afHead l f) l2.val 2 (by omega)]
  apply bind_map_congr
  intro r1 h1
  have c1 := readPCR_cursor h1
  simp only
  rw [readOPCR_head_indep l l2 (f :: rest) spare r1.1 l2.val r1.2 (by omega)]
  apply bind_map_congr
  intro r2 h2
  have c2 := readOPCR_cursor h2
  simp only
  rw [readSpliceCountdown_head_indep l l2 (f :: rest) spare r2.1 l2.val r2.2 (by omega)]
  apply bind_map_congr
  intro r3 h3
  have c3 := readSpliceCountdown_cursor h3
  simp only
  rw [readTransportPrivateData_head_indep l l2 (f :: rest) spare r3.1 l2.val r3.2
    (by omega)]
  apply bind_map_congr
  intro r4 h4
  have c4 := readTransportPrivateData_cursor h4
  simp only
  exact readAdaptationExtension_head_indep l l2 (f :: rest) spare r4.1 l2.val r4.2
    (by omega)

theorem sliceFrom_ok_len (s t : Slice) (k : Nat) (h : s.sliceFrom k = .ok t) :
    k ≤ s.len ∧ t.len = s.len - k := by
  unfold Slice.sliceFrom at h
  split at h
  · rename_i hc
    injection h with h
    subst h
    exact ⟨hc, by simp [Slice.len]⟩
  · cases h

theorem parsePCR_ok_len (s : Slice) (c : ClockReference) (h : parsePCR s = .ok c) :
    6 ≤ s.len := by
  by_contra hlt
  rw [parsePCR_short s (by omega)] at h
  cases h

theorem index_ok_lt (s : Slice) (k : Nat) (b : Byte) (h : s.index k = .ok b) : k < s.len := by
  by_contra hge
  rw [(index_eq_panic_iff s k).2 (by omega)] at h
  cases h

/-- The PCR, the OPCR and the splice countdown of a decoded field lie within the
input: the cursor after them is at most its length. -/
theorem cursorAfterSplice_le_len (l f : Byte) (rest spare : List Byte)
    (a : MpegTsHeaderAdaptationField) (hl : 0 < l.val)
    (h : parsePacketAdaptationField { elems := l :: f :: rest, spare := spare } = .ok a) :
    cursorAfterSplice f ≤ (l :: f :: rest).length := by
  obtain ⟨a1, a2, a3, r4, h1, h2, h3, -⟩ :=
    parsePacketAdaptationField_chain l f rest spare a hl h
  have hlen : Slice.len { elems := l :: f :: rest, spare := spare } = (l :: f :: rest).length :=
    rfl
  have b1 : cursorAfterPCR f ≤ (l :: f :: rest).length := by
    rcases readPCR_inv _ _ _ _ h1 with ⟨-, hr⟩ | ⟨-, s, c, hs, hc, hr⟩
    · simp only [Prod.mk.injEq] at hr
      rw [hr.2]
      simp only [List.length_cons]
      omega
    · simp only [Prod.mk.injEq] at hr
      obtain ⟨k1, k2⟩ := sliceFrom_ok_len _ s _ hs
      have k3 := parsePCR_ok_len s c hc
      rw [hr.2, ← hlen]
      omega
  have b2 : cursorAfterOPCR f ≤ (l :: f :: rest).length := by
    rcases readOPCR_inv _ _ _ _ h2 with ⟨-, hr⟩ | ⟨-, s, c, hs, hc, hr⟩
    · simp only [Prod.mk.injEq] at hr
      rw [hr.2]
      exact b1
    · simp only [Prod.mk.injEq] at hr
      obtain ⟨k1, k2⟩ := sliceFrom_ok_len _ s _ hs
      have k3 := parsePCR_ok_len s c hc
      rw [hr.2, ← hlen]
      omega
  rcases readSpliceCountdown_inv _ _ _ _ h3 with ⟨-, hr⟩ | ⟨-, b, hb, hr⟩
  · simp only [Prod.mk.injEq] at hr
    rw [hr.2]
    exact b2
  · simp only [Prod.mk.injEq] at hr
    have k1 := index_ok_lt _ _ b hb
    rw [hr.2, ← hlen]
    omega

/-! ## Steps that are sure to return -/

theorem parsePCR_ok_of_len (s : Slice) (h : 6 ≤ s.len) : ∃ c, parsePCR s = .ok c := by
  obtain ⟨elems, spare⟩ := s
  simp only [Slice.len] at h
  match elems, h with
  | b0 :: b1 :: b2 :: b3 :: b4 :: b5 :: rest, _ => exact ⟨_, parsePCR_cons b0 b1 b2 b3 b4 b5 rest spare⟩
  | [], h => simp at h
  | [_], h => simp at h
  | [_, _], h => simp at h
  | [_, _, _], h => simp at h
  | [_, _, _, _], h => simp at h
  | [_, _, _, _, _], h => simp at h

theorem sliceFrom_ok (s : Slice) (k : Nat) (h : k ≤ s.len) :
    ∃ t, s.sliceFrom k = .ok t ∧ t.len = s.len - k := by
  unfold Slice.sliceFrom
  rw [if_pos h]
  exact ⟨_, rfl, by simp [Slice.len]⟩

theorem index_ok_of_lt (s : Slice) (k : Nat) (h : k < s.len) : ∃ b, s.index k = .ok b := by
  cases hx : s.index k with
  | ok b => exact ⟨b, rfl⟩
  | error e =>
    exfalso
    cases e with
    | ErrPacketMustStartWithASyncByte => exact index_ne_sync s k hx
    | runtimePanic =>
      have := (index_eq_panic_iff s k).1 hx
      omega

/-- The `// PCR` block returns when the six bytes at the cursor are in the input, and
moves the cursor by 6 exactly when its gate is set. -/
theorem readPCR_ok_of_len (i : Slice) (a : MpegTsHeaderAdaptationField) (offset : Nat)
    (h : a.HasPCR = true → offset + 6 ≤ i.len) :
    ∃ a1, readPCR i a offset = .ok (a1, offset + (if a.HasPCR = true then 6 else 0)) := by
  by_cases hg : a.HasPCR = true
  · obtain ⟨s, hs, hlen⟩ := sliceFrom_ok i offset (by have := h hg; omega)
    obtain ⟨c, hc⟩ := parsePCR_ok_of_len s (by have := h hg; omega)
    rw [if_pos hg]
    exact ⟨_, readPCR_of_true i s a offset c hg hs hc⟩
  · rw [if_neg hg]
    exact ⟨a, readPCR_of_false i a offset (by simpa using hg)⟩

/-- The `// OPCR` block returns when the six bytes at the cursor are in the input. -/
theorem readOPCR_ok_of_len (i : Slice) (a : MpegTsHeaderAdaptationField) (offset : Nat)
    (h : a.HasOPCR = true → offset + 6 ≤ i.len) :
    ∃ a1, readOPCR i a offset = .ok (a1, offset + (if a.HasOPCR = true then 6 else 0)) := by
  by_cases hg : a.HasOPCR = true
  · obtain ⟨s, hs, hlen⟩ := sliceFrom_ok i offset (by have := h hg; omega)
    obtain ⟨c, hc⟩ := parsePCR_ok_of_len s (by have := h hg; omega)
    rw [if_pos hg]
    exact ⟨_, readOPCR_of_true i s a offset c hg hs hc⟩
  · rw [if_neg hg]
    exact ⟨a, readOPCR_of_false i a offset (by simpa using hg)⟩

/-- The `// Splicing countdown` block returns when the byte at the cursor is in the
input. -/
theorem readSpliceCountdown_ok_of_len (i : Slice) (a : MpegTsHeaderAdaptationField)
    (offset : Nat) (h : a.HasSplicingCountdown = true → offset < i.len) :
    ∃ a1, readSpliceCountdown i a offset =
      .ok (a1, offset + (if a.HasSplicingCountdown = true then 1 else 0)) := by
  by_cases hg : a.HasSplicingCountdown = true
  · obtain ⟨b, hb⟩ := index_ok_of_lt i offset (h hg)
    rw [if_pos hg]
    refine ⟨{ a with SpliceCountdown := b.val }, ?_⟩
    unfold readSpliceCountdown
    rw [if_pos hg, hb]
    rfl
  · rw [if_neg hg]
    exact ⟨a, readSpliceCountdown_of_false i a offset (by simpa using hg)⟩

/-- The `// Transport private data` block on a length byte of value 0: the length is
recorded, no block is sliced and the cursor moves by one. -/
theorem readTransportPrivateData_of_zero (i : Slice) (a : MpegTsHeaderAdaptationField)
    (offset : Nat) (n : Byte) (hg : a.HasTransportPrivateData = true)
    (hn : i.index offset = .ok n) (hz : n.val = 0) :
    readTransportPrivateData i a offset =
      .ok ({ a with TransportPrivateDataLength := 0 }, offset + 1) := by
  unfold readTransportPrivateData
  rw [if_pos hg, hn, ok_bind]
  simp only
  rw [if_neg (by omega), hz]
  rfl

/-- When the private-data bit is set and the byte at the cursor after the splice
countdown is in the input with value 0, the PCR, the OPCR and the countdown before it
are in the input too, so the decoder reaches the extension block, one byte further,
with private-data length 0 and no data block. -/
theorem parsePacketAdaptationField_private_zero (l f n : Byte) (rest spare : List Byte)
    (hl : 0 < l.val) (hf : f.val / 2 % 2 = 1)
    (hn : Slice.index { elems := l :: f :: rest, spare := spare } (cursorAfterSplice f) =
      .ok n) (hz : n.val = 0) :
    ∃ a4, sameHead (afHead l f) a4 ∧ a4.TransportPrivateDataLength = 0 ∧
      a4.TransportPrivateData = none ∧ a4.AdaptationExtensionField = none ∧
      parsePacketAdaptationField { elems := l :: f :: rest, spare := spare } =
        readAdaptationExtension { elems := l :: f :: rest, spare := spare } a4
          (cursorAfterSplice f + 1) := by
  have hlt := index_ok_lt _ _ n hn
  have hc2 : cursorAfterOPCR f ≤ cursorAfterSplice f := by
    unfold cursorAfterSplice; omega
  have hc1 : cursorAfterPCR f ≤ cursorAfterOPCR f := by
    unfold cursorAfterOPCR; omega
  -- PCR
  have e1 : 2 + (if (afHead l f).HasPCR = true then 6 else 0) = cursorAfterPCR f := by
    unfold cursorAfterPCR
    rw [if_congr (afHead_HasPCR l f) rfl rfl]
  obtain ⟨a1, h1⟩ := readPCR_ok_of_len { elems := l :: f :: rest, spare := spare }
    (afHead l f) 2 (by
      intro hg
      rw [if_pos hg] at e1
      omega)
  rw [e1] at h1
  have s1 : sameHead (afHead l f) a1 := readPCR_sameHead h1
  -- OPCR
  have e2 : cursorAfterPCR f + (if a1.HasOPCR = true then 6 else 0) = cursorAfterOPCR f := by
    unfold cursorAfterOPCR
    rw [(sameHead_gates s1).2.1, if_congr (afHead_HasOPCR l f) rfl rfl]
  obtain ⟨a2, h2⟩ := readOPCR_ok_of_len { elems := l :: f :: rest, spare := spare }
    a1 (cursorAfterPCR f) (by
      intro hg
      rw [if_pos hg] at e2
      omega)
  rw [e2] at h2
  have s2 : sameHead (afHead l f) a2 := sameHead_trans s1 (readOPCR_sameHead h2)
  -- splice countdown
  have e3 : cursorAfterOPCR f + (if a2.HasSplicingCountdown = true then 1 else 0) =
      cursorAfterSplice f := by
    unfold cursorAfterSplice
    rw [(sameHead_gates s2).2.2.1, if_congr (afHead_HasSplicingCountdown l f) rfl rfl]
  obtain ⟨a3, h3⟩ := readSpliceCountdown_ok_of_len
    { elems := l :: f :: rest, spare := spare } a2 (cursorAfterOPCR f) (by
      intro hg
      rw [if_pos hg] at e3
      omega)
  rw [e3] at h3
  have s3 : sameHead (afHead l f) a3 := sameHead_trans s2 (readSpliceCountdown_sameHead h3)
  -- private data
  have g4 : a3.HasTransportPrivateData = true := by
    rw [(sameHead_gates s3).2.2.2.1, afHead_HasTransportPrivateData]; exact hf
  have h4 := readTransportPrivateData_of_zero { elems := l :: f :: rest, spare := spare }
    a3 (cursorAfterSplice f) n g4 hn hz
  have s4 : sameHead (afHead l f) { a3 with TransportPrivateDataLength := 0 } :=
    sameHead_trans s3 (readTransportPrivateData_sameHead h4)
  have z2 : a3.TransportPrivateData = none := by
    rw [(readSpliceCountdown_frame h3).2.2.2.1, (readOPCR_frame h2).2.2.2.1,
      (readPCR_frame h1).2.2.2.1]; rfl
  have z3 : a3.AdaptationExtensionField = none := by
    rw [(readSpliceCountdown_frame h3).2.2.2.2, (readOPCR_frame h2).2.2.2.2,
      (readPCR_frame h1).2.2.2.2]; rfl
  refine ⟨{ a3 with TransportPrivateDataLength := 0 }, s4, rfl, z2, z3, ?_⟩
  rw [parsePacketAdaptationField_cons l f rest spare hl, h1, ok_bind]
  simp only
  rw [h2, ok_bind]
  simp only
  rw [h3, ok_bind]
  simp only
  rw [h4, ok_bind]

/-- The extension block panics when its gate is set and the cursor is at or beyond the
end of the input. -/
theorem readAdaptationExtension_panic (i : Slice) (a : MpegTsHeaderAdaptationField)
    (offset : Nat) (hg : a.HasAdaptationExtensionField = true) (h : i.len ≤ offset) :
    readAdaptationExtension i a offset = .error .runtimePanic := by
  unfold readAdaptationExtension
  rw [if_pos hg, (index_eq_panic_iff i offset).2 h]
  rfl

/-! ## C11: a zero length byte -/

/-- C11: when the length byte is 0, `parsePacketAdaptationField` returns the field
with `AdaptationFieldLength = 0`, every flag 0 and every optional sub-field absent,
whatever follows the length byte, and also when nothing follows it. -/
theorem parsePacketAdaptationField_zero_length (l : Byte) (rest spare : List Byte)
    (hl : l.val = 0) :
    ∃ a, parsePacketAdaptationField { elems := l :: rest, spare := spare } = .ok a ∧
      parsePacketAdaptationField { elems := [l], spare := spare } = .ok a ∧
      a = {} ∧
      a.AdaptationFieldLength = 0 ∧ a.DiscontinuityIndicator = 0 ∧
      a.RandomAccessIndicator = 0 ∧ a.ElementaryStreamPriorityIndicator = 0 ∧
      a.PCRFlag = 0 ∧ a.OPCRFlag = 0 ∧ a.SplicingPointFlag = 0 ∧
      a.TrasportPrivateDataFlag = 0 ∧ a.AdaptationFieldExtensionFlag = 0 ∧
      a.PCR = none ∧ a.OPCR = none ∧ a.SpliceCountdown = 0 ∧
      a.TransportPrivateDataLength = 0 ∧ a.TransportPrivateData = none ∧
      a.AdaptationExtensionField = none :=
  ⟨{}, parsePacketAdaptationField_zero l rest spare hl,
    parsePacketAdaptationField_zero l [] spare hl,
    rfl, rfl, rfl, rfl, rfl, rfl, rfl, rfl, rfl, rfl, rfl, rfl, rfl, rfl, rfl, rfl⟩

/-- C11, at the length byte 0 followed by FF FF, and alone. -/
theorem parsePacketAdaptationField_zero_length_witness :
    parsePacketAdaptationField { elems := [0, 0xFF, 0xFF] } = .ok {} ∧
    parsePacketAdaptationField { elems := [0] } = .ok {} :=
  match parsePacketAdaptationField_zero_length 0 [0xFF, 0xFF] [] (by decide) with
  | ⟨_, h1, h2, h3, _⟩ => ⟨h3 ▸ h1, h3 ▸ h2⟩

/-! ## C12: a private-data length that exceeds the adaptation field -/

/-- C12 as stated fails: the adaptation field 02 02 05 01 02 03 04 05 declares a total
length of 2 and a private-data length of 5, so the block ends at cursor 8 > 1 + 2, and
it is decoded, with the five bytes after the length byte as private data. -/
theorem privateData_length_counterexample :
    (parsePacketAdaptationField { elems := [2, 0x02, 5, 1, 2, 3, 4, 5] }).map
      (fun a => (a.AdaptationFieldLength, a.TransportPrivateDataLength,
        a.TransportPrivateData.map (fun d => d.elems))) =
      .ok (2, 5, some [1, 2, 3, 4, 5]) := by
  rfl

/-- C12, amended: for an adaptation field with a non-zero length byte `l` and the
private-data bit set, decoding never ends with a returned error and never compares the
private-data length `n` with `l`. Every field it returns has
`TransportPrivateDataLength = n`, the byte at the cursor after the splice countdown,
and, when `n > 0`, the `n` bytes after that byte as private data. When no other
sub-field is flagged, decoding returns if those `n` bytes lie within the capacity of
the slice and panics otherwise. -/
theorem privateData_length_not_checked (l f : Byte) (rest spare : List Byte)
    (hl : 0 < l.val) (hf : f.val / 2 % 2 = 1) :
    NoSyncError (parsePacketAdaptationField { elems := l :: f :: rest, spare := spare }) ∧
    (∀ a, parsePacketAdaptationField { elems := l :: f :: rest, spare := spare } = .ok a →
      ∃ n, Slice.index { elems := l :: f :: rest, spare := spare } (cursorAfterSplice f) =
          .ok n ∧ a.TransportPrivateDataLength = n.val ∧
        (0 < n.val →
          ∃ d, Slice.sliceFromTo { elems := l :: f :: rest, spare := spare }
              (cursorAfterSplice f + 1) (cursorAfterSplice f + 1 + n.val) = .ok d ∧
            a.TransportPrivateData = some d ∧ d.len = n.val)) ∧
    (f.val % 32 = 2 → ∀ (n : Byte) (rest2 : List Byte), rest = n :: rest2 → 0 < n.val →
      (n.val ≤ rest2.length + spare.length →
        ∃ a, parsePacketAdaptationField { elems := l :: f :: rest, spare := spare } = .ok a) ∧
      (rest2.length + spare.length < n.val →
        parsePacketAdaptationField { elems := l :: f :: rest, spare := spare } =
          .error .runtimePanic)) := by
  refine ⟨noSync_parsePacketAdaptationField _, ?_, ?_⟩
  · intro a ha
    obtain ⟨a4, -, -, hp⟩ := layout_private l f rest spare a hl ha
    rw [if_pos hf] at hp
    obtain ⟨n, hn, hlen, hd, -⟩ := hp
    refine ⟨n, hn, hlen, fun hpos => ?_⟩
    rw [if_pos hpos] at hd
    obtain ⟨d, hd1, hd2⟩ := hd
    refine ⟨d, hd1, hd2, ?_⟩
    rw [sliceFromTo_len _ d _ _ hd1]
    omega
  · intro h32 n rest2 hrest hpos
    subst hrest
    rw [parsePacketAdaptationField_private_only l f n rest2 spare hl h32, if_pos hpos]
    constructor
    · intro hcap
      obtain ⟨d, hd⟩ := sliceFromTo_ok { elems := l :: f :: n :: rest2, spare := spare } 3
        (3 + n.val) (by omega) (by simp only [Slice.cap, List.length_cons]; omega)
      rw [hd]
      exact ⟨_, rfl⟩
    · intro hcap
      rw [sliceFromTo_panic _ _ _ (by simp only [Slice.cap, List.length_cons]; omega)]
      rfl

/-- C12, amended, at the field 02 02 05 01 02 03 04 05 (decoded, although the block
ends beyond the declared length 2) and at the field 02 02 05 01 (a panic: the input
ends before the block). -/
theorem privateData_length_not_checked_witness :
    (∃ a, parsePacketAdaptationField { elems := [2, 0x02, 5, 1, 2, 3, 4, 5] } = .ok a) ∧
    parsePacketAdaptationField { elems := [2, 0x02, 5, 1] } = .error .runtimePanic :=
  ⟨((privateData_length_not_checked 2 0x02 [5, 1, 2, 3, 4, 5] [] (by decide)
      (by decide)).2.2 (by decide) 5 [1, 2, 3, 4, 5] rfl (by decide)).1 (by decide),
   ((privateData_length_not_checked 2 0x02 [5, 1] [] (by decide)
      (by decide)).2.2 (by decide) 5 [1] rfl (by decide)).2 (by decide)⟩

/-! ## C13: present but empty private data -/

/-- C13 as stated fails: the adaptation fields 03 03 00 and 03 03 00 05 have bit 0x02
set and the private-data length byte 0 (the byte at index 2), and decoding does not
succeed: the extension bit 0x01 is set too and the extension bytes are missing, so the
decoder ends in a run-time panic. -/
theorem privateData_present_empty_counterexample :
    Slice.index { elems := [3, 0x03, 0] } (cursorAfterSplice 0x03) = .ok 0 ∧
    parsePacketAdaptationField { elems := [3, 0x03, 0] } = .error .runtimePanic ∧
    Slice.index { elems := [3, 0x03, 0, 5] } (cursorAfterSplice 0x03) = .ok 0 ∧
    parsePacketAdaptationField { elems := [3, 0x03, 0, 5] } = .error .runtimePanic := by
  decide

/-- C13, amended: for an adaptation field with a non-zero length byte and bit 0x02 of
the flags byte `f` set, whose private-data length byte (the byte at the cursor after
the splice countdown) is 0: every decoded field reports private data present
(`TrasportPrivateDataFlag = 2`, gate true) with `TransportPrivateDataLength = 0` and no
data block, and the extension step starts one byte after the length byte. The decode
of the same bytes with bit 0x02 cleared has the flag 0 and the gate false, so the two
decoded fields differ. The decoder ends exactly as the extension step does: it returns
whenever the extension bit 0x01 is clear (for any PCR, OPCR and countdown bits), and
it panics when that bit is set and the input ends one byte after the length byte. -/
theorem privateData_present_empty (l f : Byte) (rest spare : List Byte)
    (hl : 0 < l.val) (hf : f.val / 2 % 2 = 1) :
    (∀ a n, parsePacketAdaptationField { elems := l :: f :: rest, spare := spare } = .ok a →
      Slice.index { elems := l :: f :: rest, spare := spare } (cursorAfterSplice f) = .ok n →
      n.val = 0 →
      a.TrasportPrivateDataFlag = 2 ∧ a.HasTransportPrivateData = true ∧
      a.TransportPrivateDataLength = 0 ∧ a.TransportPrivateData = none ∧
      ∃ a4, readAdaptationExtension { elems := l :: f :: rest, spare := spare } a4
        (cursorAfterSplice f + 1) = .ok a) ∧
    (∀ (f2 : Byte) a a2, f2.val + 2 = f.val →
      parsePacketAdaptationField { elems := l :: f :: rest, spare := spare } = .ok a →
      parsePacketAdaptationField { elems := l :: f2 :: rest, spare := spare } = .ok a2 →
      a2.TrasportPrivateDataFlag = 0 ∧ a2.HasTransportPrivateData = false ∧ a ≠ a2) ∧
    (f.val % 32 = 2 → ∀ (n : Byte) (rest2 : List Byte), rest = n :: rest2 → n.val = 0 →
      parsePacketAdaptationField { elems := l :: f :: rest, spare := spare } =
        .ok (afHead l f)) ∧
    (∀ n : Byte,
      Slice.index { elems := l :: f :: rest, spare := spare } (cursorAfterSplice f) = .ok n →
      n.val = 0 →
      (∃ a4, sameHead (afHead l f) a4 ∧ a4.TransportPrivateDataLength = 0 ∧
        a4.TransportPrivateData = none ∧
        parsePacketAdaptationField { elems := l :: f :: rest, spare := spare } =
          readAdaptationExtension { elems := l :: f :: rest, spare := spare } a4
            (cursorAfterSplice f + 1)) ∧
      (f.val % 2 = 0 →
        ∃ a, parsePacketAdaptationField { elems := l :: f :: rest, spare := spare } =
          .ok a) ∧
      (f.val % 2 = 1 → (l :: f :: rest).length ≤ cursorAfterSplice f + 1 →
        parsePacketAdaptationField { elems := l :: f :: rest, spare := spare } =
          .error .runtimePanic)) := by
  have flag : ∀ (g : Byte) (b : MpegTsHeaderAdaptationField),
      parsePacketAdaptationField { elems := l :: g :: rest, spare := spare } = .ok b →
      b.TrasportPrivateDataFlag = 2 * (g.val / 2 % 2) ∧
      b.HasTransportPrivateData = (afHead l g).HasTransportPrivateData := by
    intro g b hb
    obtain ⟨-, hh⟩ := parsePacketAdaptationField_head l (g :: rest) spare b hb
    obtain ⟨g2, rest2, he, hs⟩ := hh hl
    simp only [List.cons.injEq] at he
    obtain ⟨rfl, rfl⟩ := he
    refine ⟨?_, (sameHead_gates hs).2.2.2.1⟩
    rw [hs.2.2.2.2.2.2.2.1]
    exact (mask_values g).2.2.2.2.2.2.1
  refine ⟨?_, ?_, ?_, ?_⟩
  · intro a n ha hn hz
    obtain ⟨a4, -, -, hp⟩ := layout_private l f rest spare a hl ha
    rw [if_pos hf] at hp
    obtain ⟨m, hm, hlen, hd, hx⟩ := hp
    have hmn : m = n := by
      rw [hn] at hm
      injection hm with hm
      exact hm.symm
    subst hmn
    rw [if_neg (by omega)] at hd
    obtain ⟨h1, h2⟩ := flag f a ha
    refine ⟨by rw [h1, hf], ?_, by rw [hlen, hz], hd, a4, ?_⟩
    · rw [h2, afHead_HasTransportPrivateData]; exact hf
    · rw [hz] at hx
      exact hx
  · intro f2 a a2 hf2 ha ha2
    obtain ⟨h1, -⟩ := flag f a ha
    obtain ⟨k1, k2⟩ := flag f2 a2 ha2
    have hb2 : f2.val / 2 % 2 = 0 := by omega
    rw [hb2] at k1
    refine ⟨k1, ?_, ?_⟩
    · rw [k2, Bool.eq_false_iff, Ne, afHead_HasTransportPrivateData]; omega
    · intro hne
      rw [hne, k1, hf] at h1
      omega
  · intro h32 n rest2 hrest hz
    subst hrest
    rw [parsePacketAdaptationField_private_only l f n rest2 spare hl h32,
      if_neg (by omega)]
  · intro n hn hz
    obtain ⟨a4, s4, z1, z2, -, heq⟩ :=
      parsePacketAdaptationField_private_zero l f n rest spare hl hf hn hz
    have hgate := (sameHead_gates s4).2.2.2.2
    refine ⟨⟨a4, s4, z1, z2, heq⟩, ?_, ?_⟩
    · intro h0
      have hg : a4.HasAdaptationExtensionField = false := by
        rw [hgate, Bool.eq_false_iff, Ne, afHead_HasAdaptationExtensionField]; omega
      exact ⟨a4, heq.trans (readAdaptationExtension_of_false _ _ _ hg)⟩
    · intro h1 hlen
      have hg : a4.HasAdaptationExtensionField = true := by
        rw [hgate, afHead_HasAdaptationExtensionField]; exact h1
      exact heq.trans (readAdaptationExtension_panic _ _ _ hg hlen)

/-- C13, amended, at the field 03 02 00 FF (private data present with length 0, and a
different field when the flags byte is 00), at the field 09 12 .. 00 with a PCR before
the length byte (returns), and at the field 03 03 00 (panics). -/
theorem privateData_present_empty_witness :
    parsePacketAdaptationField { elems := [3, 0x02, 0, 0xFF] } = .ok (afHead 3 0x02) ∧
    parsePacketAdaptationField { elems := [3, 0x00, 0, 0xFF] } = .ok (afHead 3 0x00) ∧
    afHead 3 0x02 ≠ afHead 3 0x00 ∧
    (∃ a, parsePacketAdaptationField
      { elems := [9, 0x12, 0xFF, 0xFF, 0xFF, 0xFF, 0x80, 0x00, 0] } = .ok a) ∧
    parsePacketAdaptationField { elems := [3, 0x03, 0] } = .error .runtimePanic :=
  ⟨(privateData_present_empty 3 0x02 [0, 0xFF] [] (by decide) (by decide)).2.2.1
      (by decide) 0 [0xFF] rfl (by decide),
   by rfl,
   ((privateData_present_empty 3 0x02 [0, 0xFF] [] (by decide) (by decide)).2.1
      0x00 (afHead 3 0x02) (afHead 3 0x00) (by decide) (by rfl) (by rfl)).2.2,
   ((privateData_present_empty 9 0x12 [0xFF, 0xFF, 0xFF, 0xFF, 0x80, 0x00, 0] []
      (by decide) (by decide)).2.2.2 0 (by decide) (by decide)).2.1 (by decide),
   ((privateData_present_empty 3 0x03 [0] [] (by decide) (by decide)).2.2.2 0
      (by decide) (by decide)).2.2 (by decide) (by decide)⟩

/-! ## C14: the splice countdown -/

/-- C14 as stated fails: with the splice-point flag set and countdown byte 0xFF the
decoded `SpliceCountdown` is 255, not the two's-complement value 255 - 256 = -1. -/
theorem spliceCountdown_counterexample :
    (parsePacketAdaptationField { elems := [2, 0x04, 0xFF] }).map
      (fun a => (a.SpliceCountdown : Int)) = .ok 255 ∧ (255 : Int) ≠ 255 - 256 := by
  decide

/-- C14, amended: with the splice-point flag set, `SpliceCountdown` of every decoded
field is the unsigned value of the countdown byte (the byte at the cursor after the
PCR and OPCR), in [0, 255]: a byte b decodes to b, also when b >= 0x80. -/
theorem spliceCountdown_unsigned (l f : Byte) (rest spare : List Byte)
    (a : MpegTsHeaderAdaptationField) (hl : 0 < l.val) (hf : f.val / 4 % 2 = 1)
    (h : parsePacketAdaptationField { elems := l :: f :: rest, spare := spare } = .ok a) :
    ∃ b, Slice.index { elems := l :: f :: rest, spare := spare }
        (2 + (if f.val / 16 % 2 = 1 then 6 else 0) + (if f.val / 8 % 2 = 1 then 6 else 0)) =
        .ok b ∧
      a.SpliceCountdown = b.val ∧ a.SpliceCountdown ≤ 255 ∧
      (0x80 ≤ b.val → 128 ≤ a.SpliceCountdown) := by
  have := layout_splice l f rest spare a hl h
  rw [if_pos hf] at this
  obtain ⟨b, hb, hv⟩ := this
  refine ⟨b, hb, hv, ?_, ?_⟩
  · have := b.isLt
    omega
  · omega

/-- C14, amended, at the field 02 04 FF: the countdown byte 0xFF decodes to 255. -/
theorem spliceCountdown_unsigned_witness :
    ∃ b, Slice.index { elems := [2, 0x04, 0xFF] } 2 = .ok b ∧ (255 : Nat) = b.val :=
  match spliceCountdown_unsigned 2 0x04 [0xFF] []
      { AdaptationFieldLength := 2, SplicingPointFlag := 4, SpliceCountdown := 255 }
      (by decide) (by decide) (by decide) with
  | ⟨b, h1, h2, _⟩ => ⟨b, h1, h2⟩

/-! ## C15: the extension field -/

/-- C15: when the extension gate is set, the `// Adaptation extension` block reads a
length byte at the cursor; when it is 0 the extension field has only `Length = 0` and
nothing else is read. Otherwise, with flags byte `g` after it, the three gates are
bits 0x80, 0x40 and 0x20 of `g`, and the gated sub-fields are read in that order at
the advancing cursor: `LegalTimeWindowIsValid` is bit 7 of the first of 2 bytes and
`LegalTimeWindowOffset` their remaining 15 bits, `PiecewiseRate` is the bottom 22 bits
of the next 3 bytes, `SpliceType` is the high 4 bits of the next byte; a sub-field
whose gate is clear keeps its zero value. -/
theorem readAdaptationExtension_fields (i : Slice) (a : MpegTsHeaderAdaptationField)
    (offset : Nat) (r : MpegTsHeaderAdaptationField)
    (hgate : a.HasAdaptationExtensionField = true)
    (h : readAdaptationExtension i a offset = .ok r) :
    ∃ lb e, i.index offset = .ok lb ∧ r = { a with AdaptationExtensionField := some e } ∧
      e.Length = lb.val ∧
      (lb.val = 0 → e = { Length := 0 }) ∧
      (0 < lb.val → ∃ g, i.index (offset + 1) = .ok g ∧
        (e.HasLegalTimeWindow = true ↔ g.val / 128 % 2 = 1) ∧
        (e.HasPiecewiseRate = true ↔ g.val / 64 % 2 = 1) ∧
        (e.HasSeamlessSplice = true ↔ g.val / 32 % 2 = 1) ∧
        (if g.val / 128 % 2 = 1 then
          ∃ b0 b1, i.index (offset + 2) = .ok b0 ∧ i.index (offset + 3) = .ok b1 ∧
            (e.LegalTimeWindowIsValid = true ↔ b0.val / 128 % 2 = 1) ∧
            e.LegalTimeWindowOffset = b0.val % 128 * 256 + b1.val ∧
            e.LegalTimeWindowOffset < 2 ^ 15
         else e.LegalTimeWindowIsValid = false ∧ e.LegalTimeWindowOffset = 0) ∧
        (if g.val / 64 % 2 = 1 then
          ∃ c0 c1 c2,
            i.index (offset + 2 + (if g.val / 128 % 2 = 1 then 2 else 0)) = .ok c0 ∧
            i.index (offset + 2 + (if g.val / 128 % 2 = 1 then 2 else 0) + 1) = .ok c1 ∧
            i.index (offset + 2 + (if g.val / 128 % 2 = 1 then 2 else 0) + 2) = .ok c2 ∧
            e.PiecewiseRate = c0.val % 64 * 65536 + c1.val * 256 + c2.val ∧
            e.PiecewiseRate < 2 ^ 22
         else e.PiecewiseRate = 0) ∧
        (if g.val / 32 % 2 = 1 then
          ∃ d0,
            i.index (offset + 2 + (if g.val / 128 % 2 = 1 then 2 else 0)
              + (if g.val / 64 % 2 = 1 then 3 else 0)) = .ok d0 ∧
            e.SpliceType = d0.val / 16 ∧ e.SpliceType ≤ 15
         else e.SpliceType = 0 ∧ e.DTSNextAccessUnit = none)) := by
  rcases readAdaptationExtension_inv i a offset r h with
    ⟨hg, -⟩ | ⟨-, lb, hlb, ⟨hz, hr⟩ | ⟨hpos, g, r1, r2, e3, hg, h1, h2, h3, hr⟩⟩
  · rw [hgate] at hg; cases hg
  · exact ⟨lb, _, hlb, hr, hz.symm, fun _ => rfl, fun hp => absurd hp (by omega)⟩
  · refine ⟨lb, e3, hlb, hr, ?_, fun hz => absurd hpos (by omega), fun _ => ?_⟩
    · obtain ⟨-, l1, -⟩ := readLegalTimeWindow_spec i lb g _ r1 h1
      obtain ⟨-, l2, -⟩ := readPiecewiseRate_spec i _ _ r2 h2
      obtain ⟨l3, -⟩ := readSeamlessSplice_spec i _ _ e3 h3
      rw [l3, l2, l1]
    · obtain ⟨o1, -, g7, g6, g5, p1, t1, d1, w1⟩ :=
        readLegalTimeWindow_spec i lb g _ r1 h1
      obtain ⟨o2, -, q7, q6, q5, v2, w2, t2, d2, p2⟩ := readPiecewiseRate_spec i _ _ r2 h2
      obtain ⟨-, s7, s6, s5, v3, w3, p3, t3⟩ := readSeamlessSplice_spec i _ _ e3 h3
      have o1q : r1.2 = offset + 2 + (if g.val / 128 % 2 = 1 then 2 else 0) := o1
      have o2q : r2.2 = offset + 2 + (if g.val / 128 % 2 = 1 then 2 else 0)
          + (if g.val / 64 % 2 = 1 then 3 else 0) := by
        rw [o2, o1q]
        by_cases hb : g.val / 64 % 2 = 1
        · rw [if_pos hb, if_pos (g6.2 hb)]
        · rw [if_neg hb, if_neg (fun hh => hb (g6.1 hh))]
      refine ⟨g, hg, ?_, ?_, ?_, ?_, ?_, ?_⟩
      · rw [s7, q7]; exact g7
      · rw [s6, q6]; exact g6
      · rw [s5, q5]; exact g5
      · rw [v3, w3, v2, w2]
        by_cases hb : g.val / 128 % 2 = 1
        · rw [if_pos hb] at w1 ⊢
          obtain ⟨b0, b1, hb0, hb1, hv, ho⟩ := w1
          refine ⟨b0, b1, hb0, hb1, hv, ho, ?_⟩
          rw [ho]
          have := b1.isLt
          omega
        · rw [if_neg hb] at w1 ⊢
          exact w1
      · rw [p3]
        by_cases hb : g.val / 64 % 2 = 1
        · rw [if_pos (g6.2 hb)] at p2
          rw [if_pos hb]
          rw [o1q] at p2
          obtain ⟨c0, c1, c2, hc0, hc1, hc2, hv⟩ := p2
          refine ⟨c0, c1, c2, hc0, hc1, hc2, hv, ?_⟩
          rw [hv]
          have := c1.isLt
          have := c2.isLt
          omega
        · rw [if_neg (fun hh => hb (g6.1 hh))] at p2
          rw [if_neg hb, p2, p1]
      · by_cases hb : g.val / 32 % 2 = 1
        · rw [if_pos (q5.trans (g5.2 hb))] at t3
          rw [if_pos hb]
          rw [o2q] at t3
          obtain ⟨d0, s, c, hd0, -, -, hv, -⟩ := t3
          refine ⟨d0, hd0, hv, ?_⟩
          rw [hv]
          have := d0.isLt
          omega
        · rw [if_neg (fun hh => hb (g5.1 (q5 ▸ hh)))] at t3
          rw [if_neg hb, t3.1, t3.2, t2, d2, t1, d1]
          exact ⟨rfl, rfl⟩

/-- C15, at an extension with length byte 9 and flags byte 0xE0 (all three gates),
followed by 81 02 (valid, offset 0x0102), FF 00 01 (rate 0x3F0001) and A1 (splice
type 0xA) with four more timestamp bytes; and at an extension with length byte 0. -/
theorem readAdaptationExtension_fields_witness :
    (readAdaptationExtension
        { elems := [9, 0xE0, 0x81, 0x02, 0xFF, 0x00, 0x01, 0xA1, 0, 0, 0, 0] }
        { AdaptationFieldExtensionFlag := 1 } 0).map
      (fun r => r.AdaptationExtensionField.map (fun e =>
        (e.Length, e.HasLegalTimeWindow, e.HasPiecewiseRate, e.HasSeamlessSplice,
          e.LegalTimeWindowIsValid, e.LegalTimeWindowOffset, e.PiecewiseRate, e.SpliceType))) =
      .ok (some (9, true, true, true, true, 0x0102, 0x3F0001, 0xA)) ∧
    ∃ lb e, Slice.index { elems := [0, 0xE0, 0x81] } 0 = .ok lb ∧
      ({ AdaptationFieldExtensionFlag := 1,
         AdaptationExtensionField := some { Length := 0 } } : MpegTsHeaderAdaptationField) =
        { ({ AdaptationFieldExtensionFlag := 1 } : MpegTsHeaderAdaptationField) with
          AdaptationExtensionField := some e } ∧
      e.Length = lb.val :=
  ⟨by rfl,
   match readAdaptationExtension_fields { elems := [0, 0xE0, 0x81] }
      { AdaptationFieldExtensionFlag := 1 } 0
      { AdaptationFieldExtensionFlag := 1, AdaptationExtensionField := some { Length := 0 } }
      (by decide) (by decide) with
   | ⟨lb, e, h1, h2, h3, _⟩ => ⟨lb, e, h1, h2, h3⟩⟩

theorem replicate_len_188 (b0 b1 b2 b3 b4 b5 x : Byte) :
    (b0 :: b1 :: b2 :: b3 :: b4 :: b5 :: List.replicate 182 x).length = 188 := by
  rw [List.length_cons, List.length_cons, List.length_cons, List.length_cons,
    List.length_cons, List.length_cons, List.length_replicate]

/-! ## C16: the bounds on the adaptation field length -/

/-- C16 as stated fails: the 188-byte input 47 00 00 20 B6 00 .. 00 (control 10, length
byte 182) is decoded with `AdaptationFieldLength = 182`, and the 188-byte input
47 00 00 30 B7 00 .. 00 (control 11, length byte 183) with `AdaptationFieldLength = 183`
and an empty payload. -/
theorem adaptationFieldLength_bounds_counterexample :
    ((0x47 : Byte) :: 0 :: 0 :: 0x20 :: 182 :: 0 :: List.replicate 182 0).length = 188 ∧
    (parsePacket { elems := 0x47 :: 0 :: 0 :: 0x20 :: 182 :: 0 :: List.replicate 182 0 }).map
      (fun p => (p.AdaptationField.map (fun a => a.AdaptationFieldLength), p.Payload)) =
      .ok (some 182, none) ∧
    (parsePacket { elems := 0x47 :: 0 :: 0 :: 0x30 :: 183 :: 0 :: List.replicate 182 0 }).map
      (fun p => (p.AdaptationField.map (fun a => a.AdaptationFieldLength), p.Payload)) =
      .ok (some 183, some { elems := [] }) := by
  refine ⟨replicate_len_188 _ _ _ _ _ _ _, ?_, ?_⟩
  · rw [parsePacket_control2 0x47 0 0 0x20 _ [] (by decide) (by decide),
      parsePacketAdaptationField_no_optional 182 0 _ [] (by decide) (by decide)]
    rfl
  · rw [parsePacket_control3 0x47 0 0 0x30 _ [] (by decide) (by decide),
      parsePacketAdaptationField_no_optional 183 0 _ [] (by decide) (by decide)]
    have hlen := replicate_len_188 0x47 0 0 0x30 183 0 0
    have hd : List.drop 188 ((0x47 : Byte) :: 0 :: 0 :: 0x30 :: 183 :: 0 ::
        List.replicate 182 0) = [] := List.drop_eq_nil_of_le (by omega)
    simp only [Except.bind, Slice.sliceFrom, Slice.len, hlen]
    have e : 4 + (1 + (afHead 183 0).AdaptationFieldLength) = 188 := rfl
    rw [e]
    simp only [Nat.le_refl, ↓reduceIte, hd, Except.map]
    rfl

/-- C16, amended: in every packet that `parsePacket` returns with an adaptation field
(control 10 or 11), `AdaptationFieldLength` is the value of byte 4, and no bound on it
is checked. With control 11 the payload slice must start within the input, so
5 + AdaptationFieldLength is at most the input length (183, not 182, for 188 bytes);
with control 10 every non-zero length byte is accepted when no optional sub-field is
flagged. -/
theorem adaptationFieldLength_bounds :
    (∀ (b0 b1 b2 b3 l : Byte) (rest spare : List Byte) (p : Packet),
      parsePacket { elems := b0 :: b1 :: b2 :: b3 :: l :: rest, spare := spare } = .ok p →
      ((b3.val >>> 4) &&& 0x03 = 2 ∨ (b3.val >>> 4) &&& 0x03 = 3) →
      ∃ a, p.AdaptationField = some a ∧ a.AdaptationFieldLength = l.val ∧
        ((b3.val >>> 4) &&& 0x03 = 3 →
          5 + a.AdaptationFieldLength ≤ (b0 :: b1 :: b2 :: b3 :: l :: rest).length)) ∧
    (∀ (b0 b1 b2 b3 l f : Byte) (rest spare : List Byte), b0.val = 0x47 →
      (b3.val >>> 4) &&& 0x03 = 2 → 0 < l.val → f.val % 32 = 0 →
      ∃ p a,
        parsePacket { elems := b0 :: b1 :: b2 :: b3 :: l :: f :: rest, spare := spare } =
          .ok p ∧
        p.AdaptationField = some a ∧ a.AdaptationFieldLength = l.val) := by
  constructor
  · intro b0 b1 b2 b3 l rest spare p hp hc
    obtain ⟨c0, c1, c2, c3, tl, he, -, -, -, hcases⟩ := parsePacket_ok_inv _ p hp
    simp only [List.cons.injEq] at he
    obtain ⟨rfl, rfl, rfl, rfl, rfl⟩ := he
    rcases hcases with ⟨h0, -⟩ | ⟨h0, -⟩ | ⟨h2, -, a, ha, hpa⟩ | ⟨h3, a, ha, hpa, hle, -⟩
    · omega
    · omega
    · refine ⟨a, hpa, (parsePacketAdaptationField_head l rest spare a ha).1, fun h3 => ?_⟩
      omega
    · refine ⟨a, hpa, (parsePacketAdaptationField_head l rest spare a ha).1, fun _ => ?_⟩
      simp only [List.length_cons] at hle ⊢
      omega
  · intro b0 b1 b2 b3 l f rest spare hs hc hl hf
    refine ⟨{ Bytes := { elems := b0 :: b1 :: b2 :: b3 :: l :: f :: rest, spare := spare }
              Header := headerOf b0 b1 b2 b3
              AdaptationField := some (afHead l f)
              Payload := none }, afHead l f, ?_, rfl, rfl⟩
    rw [parsePacket_control2 b0 b1 b2 b3 _ spare hs hc,
      parsePacketAdaptationField_no_optional l f rest spare hl hf]
    rfl

/-- C16, amended, at a packet with control 11 and length byte 2, and at a packet with
control 10 and length byte 182. -/
theorem adaptationFieldLength_bounds_witness :
    (∃ a : MpegTsHeaderAdaptationField, some (afHead 2 0) = some a ∧
      a.AdaptationFieldLength = 2) ∧
    (∃ p a, parsePacket { elems := [0x47, 0, 0, 0x20, 182, 0] } = .ok p ∧
      p.AdaptationField = some a ∧ a.AdaptationFieldLength = 182) :=
  ⟨match adaptationFieldLength_bounds.1 0x47 0 0 0x30 2 [0, 0xFF, 8, 9] []
      { Bytes := { elems := [0x47, 0, 0, 0x30, 2, 0, 0xFF, 8, 9] }
        Header := headerOf 0x47 0 0 0x30
        AdaptationField := some (afHead 2 0)
        Payload := some { elems := [8, 9] } } (by decide) (Or.inr (by decide)) with
   | ⟨a, h1, h2, _⟩ => ⟨a, h1, h2⟩,
   adaptationFieldLength_bounds.2 0x47 0 0 0x20 182 0 [] [] (by decide) (by decide)
     (by decide) (by decide)⟩

/-! ## C17: control 00 -/

/-- C17: an input of at least 4 bytes that begins with 0x47 and has control bits 00 is
decoded into a packet with the header of its first 4 bytes, no adaptation field and no
payload; two such inputs with the same first 4 bytes (and any bytes, or none, after
them) give the same header, adaptation field and payload. -/
theorem parsePacket_control0_prefix (b0 b1 b2 b3 : Byte) (rest rest2 spare spare2 : List Byte)
    (hs : b0.val = 0x47) (hc : (b3.val >>> 4) &&& 0x03 = 0) :
    ∃ p q, parsePacket { elems := b0 :: b1 :: b2 :: b3 :: rest, spare := spare } = .ok p ∧
      parsePacket { elems := b0 :: b1 :: b2 :: b3 :: rest2, spare := spare2 } = .ok q ∧
      parsePacketHeader { elems := [b0, b1, b2, b3] } = .ok p.Header ∧
      p.Header = q.Header ∧
      p.AdaptationField = none ∧ q.AdaptationField = none ∧
      p.Payload = none ∧ q.Payload = none :=
  ⟨_, _, parsePacket_control0 b0 b1 b2 b3 rest spare hs hc,
    parsePacket_control0 b0 b1 b2 b3 rest2 spare2 hs hc,
    parsePacketHeader_cons b0 b1 b2 b3 [] [], rfl, rfl, rfl, rfl, rfl⟩

/-- C17, at the header 47 1F FF 0A followed by three bytes, and alone. -/
theorem parsePacket_control0_prefix_witness :
    ∃ p q, parsePacket { elems := [0x47, 0x1F, 0xFF, 0x0A, 1, 2, 3] } = .ok p ∧
      parsePacket { elems := [0x47, 0x1F, 0xFF, 0x0A] } = .ok q ∧
      p.Header = q.Header ∧ p.AdaptationField = none ∧ p.Payload = none :=
  match parsePacket_control0_prefix 0x47 0x1F 0xFF 0x0A [1, 2, 3] [] [] [] (by decide)
      (by decide) with
  | ⟨p, q, h1, h2, _, h4, h5, _, h7, _⟩ => ⟨p, q, h1, h2, h4, h5, h7⟩

/-! ## C18: the declared length as a bound -/

/-- C18 as stated fails: the adaptation field 01 10 FF FF FF FF 80 00 declares length 1
and has the PCR bit set; it is decoded, with the PCR taken from the six bytes after
the flags byte, so 7 bytes are consumed after the length byte. -/
theorem declaredLength_counterexample :
    (parsePacketAdaptationField
        { elems := [1, 0x10, 0xFF, 0xFF, 0xFF, 0xFF, 0x80, 0x00] }).map
      (fun a => (a.AdaptationFieldLength, a.PCR)) =
      .ok (1, some { Base := 2 ^ 33 - 1, Extension := 0 }) := by
  rfl

/-- C18, amended: the decoder never compares the bytes it consumes with the declared
length. The length byte only tells zero from non-zero: with any other non-zero length
byte the decoder ends the same way, and a decoded field differs only in
`AdaptationFieldLength`. What bounds the reads is the input: in every decoded field
the cursor after the PCR, the OPCR and the splice countdown is at most the input
length. -/
theorem declaredLength_not_a_bound (l l2 f : Byte) (rest spare : List Byte)
    (hl : 0 < l.val) (hl2 : 0 < l2.val) :
    parsePacketAdaptationField { elems := l2 :: f :: rest, spare := spare } =
      (parsePacketAdaptationField { elems := l :: f :: rest, spare := spare }).map
        (fun a => { a with AdaptationFieldLength := l2.val }) ∧
    (∀ a, parsePacketAdaptationField { elems := l :: f :: rest, spare := spare } = .ok a →
      2 + (if f.val / 16 % 2 = 1 then 6 else 0) + (if f.val / 8 % 2 = 1 then 6 else 0)
        + (if f.val / 4 % 2 = 1 then 1 else 0) ≤ (l :: f :: rest).length) :=
  ⟨parsePacketAdaptationField_length_indep l l2 f rest spare hl hl2,
   fun a ha => cursorAfterSplice_le_len l f rest spare a hl ha⟩

/-- C18, amended, at the PCR field above with length bytes 1 and 183. -/
theorem declaredLength_not_a_bound_witness :
    parsePacketAdaptationField { elems := [1, 0x10, 0xFF, 0xFF, 0xFF, 0xFF, 0x80, 0x00] } =
      (parsePacketAdaptationField
        { elems := [183, 0x10, 0xFF, 0xFF, 0xFF, 0xFF, 0x80, 0x00] }).map
        (fun a => { a with AdaptationFieldLength := 1 }) ∧
    (∃ a, parsePacketAdaptationField
        { elems := [1, 0x10, 0xFF, 0xFF, 0xFF, 0xFF, 0x80, 0x00] } = .ok a) :=
  ⟨(declaredLength_not_a_bound 183 1 0x10 [0xFF, 0xFF, 0xFF, 0xFF, 0x80, 0x00] []
      (by decide) (by decide)).1,
   ⟨_, by rfl⟩⟩

/-! ## C19: the order of the optional sub-fields -/

/-- C19: in every field decoded from an adaptation field with a non-zero length byte
and flags byte `f`, the optional sub-fields are read one after the other, each only
when its bit is set: the PCR from the six bytes at index 2 iff 0x10, the OPCR from the
six bytes at the cursor after the PCR iff 0x08, the splice countdown from the byte at
index 2 + 6*[PCR] + 6*[OPCR] iff 0x04, then the private-data length byte `n` and the
`n` bytes after it as the block iff 0x02, then the extension field, starting with its
length byte, iff 0x01. A sub-field whose bit is clear moves no cursor and stays at its
zero or absent value. -/
theorem parsePacketAdaptationField_sequential (l f : Byte) (rest spare : List Byte)
    (a : MpegTsHeaderAdaptationField) (hl : 0 < l.val)
    (h : parsePacketAdaptationField { elems := l :: f :: rest, spare := spare } = .ok a) :
    (if f.val / 16 % 2 = 1 then
      ∃ s c, Slice.sliceFrom { elems := l :: f :: rest, spare := spare } 2 = .ok s ∧
        parsePCR s = .ok c ∧ a.PCR = some c
     else a.PCR = none) ∧
    (if f.val / 8 % 2 = 1 then
      ∃ s c, Slice.sliceFrom { elems := l :: f :: rest, spare := spare }
          (2 + (if f.val / 16 % 2 = 1 then 6 else 0)) = .ok s ∧
        parsePCR s = .ok c ∧ a.OPCR = some c
     else a.OPCR = none) ∧
    (if f.val / 4 % 2 = 1 then
      ∃ b, Slice.index { elems := l :: f :: rest, spare := spare }
          (2 + (if f.val / 16 % 2 = 1 then 6 else 0)
             + (if f.val / 8 % 2 = 1 then 6 else 0)) = .ok b ∧
        a.SpliceCountdown = b.val
     else a.SpliceCountdown = 0) ∧
    (if f.val / 2 % 2 = 1 then
      ∃ n, Slice.index { elems := l :: f :: rest, spare := spare } (cursorAfterSplice f) =
          .ok n ∧ a.TransportPrivateDataLength = n.val ∧
        (if 0 < n.val then
          ∃ d, Slice.sliceFromTo { elems := l :: f :: rest, spare := spare }
              (cursorAfterSplice f + 1) (cursorAfterSplice f + 1 + n.val) = .ok d ∧
            a.TransportPrivateData = some d ∧ d.len = n.val
         else a.TransportPrivateData = none)
     else a.TransportPrivateDataLength = 0 ∧ a.TransportPrivateData = none) ∧
    (if f.val % 2 = 1 then
      ∃ lb e, Slice.index { elems := l :: f :: rest, spare := spare }
          (cursorAfterSplice f +
            (if f.val / 2 % 2 = 1 then 1 + a.TransportPrivateDataLength else 0)) = .ok lb ∧
        a.AdaptationExtensionField = some e ∧ e.Length = lb.val
     else a.AdaptationExtensionField = none) ∧
    cursorAfterSplice f =
      2 + (if f.val / 16 % 2 = 1 then 6 else 0) + (if f.val / 8 % 2 = 1 then 6 else 0)
        + (if f.val / 4 % 2 = 1 then 1 else 0) := by
  refine ⟨layout_PCR l f rest spare a hl h, layout_OPCR l f rest spare a hl h,
    layout_splice l f rest spare a hl h, ?_, layout_extension l f rest spare a hl h, rfl⟩
  obtain ⟨a4, -, -, hp⟩ := layout_private l f rest spare a hl h
  by_cases hb : f.val / 2 % 2 = 1
  · rw [if_pos hb] at hp ⊢
    obtain ⟨n, hn, hlen, hd, -⟩ := hp
    refine ⟨n, hn, hlen, ?_⟩
    by_cases hpos : 0 < n.val
    · rw [if_pos hpos] at hd ⊢
      obtain ⟨d, hd1, hd2⟩ := hd
      refine ⟨d, hd1, hd2, ?_⟩
      rw [sliceFromTo_len _ d _ _ hd1]
      omega
    · rw [if_neg hpos] at hd ⊢
      exact hd
  · rw [if_neg hb] at hp ⊢
    exact ⟨hp.1, hp.2.1⟩

/-- C19, at a field with all five bits set (flags byte 0x1F): PCR FF FF FF FF 80 00,
OPCR 00 00 00 01 00 05, countdown 07, private data of length 2 (AA BB), and an
extension with length byte 0. -/
theorem parsePacketAdaptationField_sequential_witness :
    (parsePacketAdaptationField
        { elems := [20, 0x1F, 0xFF, 0xFF, 0xFF, 0xFF, 0x80, 0x00, 0, 0, 0, 1, 0, 5,
                    7, 2, 0xAA, 0xBB, 0] }).map
      (fun a => (a.PCR, a.OPCR, a.SpliceCountdown, a.TransportPrivateDataLength,
        a.TransportPrivateData.map (fun d => d.elems),
        a.AdaptationExtensionField.map (fun e => e.Length))) =
      .ok (some { Base := 2 ^ 33 - 1, Extension := 0 }, some { Base := 2, Extension := 5 },
        7, 2, some [0xAA, 0xBB], some 0) ∧
    (∃ b, Slice.index
        { elems := [20, 0x04, 9] } 2 = .ok b ∧ (9 : Nat) = b.val) :=
  ⟨by rfl,
   (by
    have T := (parsePacketAdaptationField_sequential 20 0x04 [9] []
      { AdaptationFieldLength := 20, SplicingPointFlag := 4, SpliceCountdown := 9 }
      (by decide) (by rfl)).2.2.1
    exact T)⟩

/-! ## C20: the one-bit fields -/

/-- C20 (defect in the code): the adaptation field 01 E0 decodes with
`DiscontinuityIndicator = 128`, `RandomAccessIndicator = 64` and
`ElementaryStreamPriorityIndicator = 32`, not 1: each of the eight flag fields holds
`flags & mask`, which is 0 or the mask, so only `AdaptationFieldExtensionFlag` (mask
0x01) holds the bit's value; the three one-bit header fields are 0 or 1. -/
theorem flag_fields_hold_mask :
    (parsePacketAdaptationField { elems := [1, 0xE0] }).map
      (fun a => (a.DiscontinuityIndicator, a.RandomAccessIndicator,
        a.ElementaryStreamPriorityIndicator)) = .ok (128, 64, 32) ∧
    (∀ (l f : Byte) (rest spare : List Byte) (a : MpegTsHeaderAdaptationField),
      0 < l.val →
      parsePacketAdaptationField { elems := l :: f :: rest, spare := spare } = .ok a →
      a.DiscontinuityIndicator = 128 * (f.val / 128 % 2) ∧
      a.RandomAccessIndicator = 64 * (f.val / 64 % 2) ∧
      a.ElementaryStreamPriorityIndicator = 32 * (f.val / 32 % 2) ∧
      a.PCRFlag = 16 * (f.val / 16 % 2) ∧
      a.OPCRFlag = 8 * (f.val / 8 % 2) ∧
      a.SplicingPointFlag = 4 * (f.val / 4 % 2) ∧
      a.TrasportPrivateDataFlag = 2 * (f.val / 2 % 2) ∧
      a.AdaptationFieldExtensionFlag = f.val % 2) ∧
    (∀ (b0 b1 b2 b3 : Byte) (rest spare : List Byte),
      ∃ h, parsePacketHeader { elems := b0 :: b1 :: b2 :: b3 :: rest, spare := spare } =
          .ok h ∧
        h.TransportErrorIndicator ≤ 1 ∧ h.PayloadUnitStartIndicator ≤ 1 ∧
        h.TransportPriority ≤ 1) := by
  refine ⟨by rfl, ?_, ?_⟩
  · intro l f rest spare a hl h
    obtain ⟨-, hh⟩ := parsePacketAdaptationField_head l (f :: rest) spare a h
    obtain ⟨f2, rest2, he, hs⟩ := hh hl
    simp only [List.cons.injEq] at he
    obtain ⟨rfl, rfl⟩ := he
    obtain ⟨-, e7, e6, e5, e4, e3, e2, e1, e0⟩ := hs
    obtain ⟨m7, m6, m5, m4, m3, m2, m1, m0⟩ := mask_values f
    rw [e7, e6, e5, e4, e3, e2, e1, e0]
    exact ⟨m7, m6, m5, m4, m3, m2, m1, m0⟩
  · intro b0 b1 b2 b3 rest spare
    refine ⟨_, parsePacketHeader_cons b0 b1 b2 b3 rest spare, ?_⟩
    have h1 := b1.isLt
    have e1 : ∀ n : Nat, n &&& 1 = n % 2 := fun n => Nat.and_pow_two_sub_one_eq_mod n 1
    simp only [headerOf, Nat.shiftRight_eq_div_pow, e1, Nat.reducePow]
    omega

end mpegts
